import Mathlib

/-!
# Session / submit subsystem of the Codeforces client (`pkg/external/cfweb`)

A shallow embedding of `session.go` and `submitter.go`, of the table of languages of
`selectors.go`, and of the cache of the API client (`pkg/external/cfapi/cache.go`).

Modelling conventions
* A Go `string` is a `List Char` (`Str`): the text is taken to be valid UTF-8, so
  that `strings.Contains`, `==` and the regular expressions see the same sequence
  of characters.
* `time.Time` is an `Int` (nanoseconds counted from Go's zero time, so `IsZero`
  is `= 0`); `time.Now()` is an explicit argument `now`.
* A method with a pointer receiver takes the state and returns the new state.
* The cookie jar (`net/http/cookiejar`) is modelled for the one host the code
  talks to, `codeforces.com`.
* A loop that polls until a deadline (`WaitForVerdict`) takes the sequence of the
  clock readings it makes and a bound on the number of iterations (fuel); that
  enough fuel gives a result is proved for a clock that `time.Sleep` advances.
* A Go map is an association list with one pair per key.
* `client.Do` is the client of `net/http` without `CheckRedirect`: an answer with status
  301, 302, 303, 307 or 308 and a `Location` header is followed, up to ten requests, and
  the caller gets the answer the client ends on.
-/

namespace Cfweb

/-- A Go string. -/
abbrev Str := List Char

/-- A Go `time.Time`, in nanoseconds from the zero time. -/
abbrev Time := Int

/-- A Go `time.Duration`, in nanoseconds. -/
abbrev Duration := Int

def Hour : Duration := 3600 * 1000000000

/-! ## Constants of `session.go` -/

def BaseURL : Str := "https://codeforces.com".toList

def UserAgent : Str :=
  "Mozilla/5.0 (Macintosh; Intel Mac OS X 10_15_7) AppleWebKit/537.36 (KHTML, like Gecko) Chrome/120.0.0.0 Safari/537.36".toList

def SessionExpiry : Duration := 24 * Hour

def MaxPageSize : Nat := 5 * 1024 * 1024

/-! ## `net/url` and `net/http/cookiejar`, as far as the session uses them -/

structure URL where
  Scheme : Str
  Host : Str
  Path : Str
deriving DecidableEq, Repr

/-- The value of `url.Parse(BaseURL)`. -/
def cfURL : URL := { Scheme := "https".toList, Host := "codeforces.com".toList, Path := [] }

/-- The fields of `http.Cookie` that the code sets. -/
structure Cookie where
  Name : Str
  Value : Str
  Path : Str := []
  Domain : Str := []
  Expires : Time := 0
  MaxAge : Int := 0
  Secure : Bool := false
  HttpOnly : Bool := false
deriving DecidableEq, Repr

/-- A stored cookie (`cookiejar.entry`). -/
structure Entry where
  Name : Str
  Value : Str
  Domain : Str
  Path : Str
  Secure : Bool
  HttpOnly : Bool
  Persistent : Bool
  HostOnly : Bool
  Expires : Time
deriving DecidableEq, Repr

/-- The cookie store: its entries, oldest first. -/
abbrev Jar := List Entry

/-- The function `hasDotSuffix(s, suffix)` of the jar: `s` ends in `"." + suffix`. -/
def hasDotSuffix (s suffix : Str) : Bool :=
  decide (s.length > suffix.length) && ('.' :: suffix).isSuffixOf s

/-- The public suffix of a domain under the default rule of the list: its last label. -/
def PublicSuffix (domain : Str) : Str :=
  ((domain.reverse.takeWhile (fun c => c != '.'))).reverse

/-- The jar's `domainAndType` for a host that is not an IP address. -/
def domainAndType (host domain : Str) : Option (Str × Bool) :=
  if domain = [] then some (host, true)
  else
    let domain := if domain.head? = some '.' then domain.tail else domain
    if domain = [] ∨ domain.head? = some '.' then none
    else
      let domain := domain.map Char.toLower
      if domain.getLast? = some '.' then none
      else
        let ps := PublicSuffix domain
        if ps ≠ [] ∧ hasDotSuffix domain ps = false then
          if host = domain then some (host, true) else none
        else if host ≠ domain ∧ hasDotSuffix host domain = false then none
        else some (domain, false)

/-- The jar's `defaultPath`. -/
def defaultPath (path : Str) : Str :=
  if path = [] ∨ path.head? ≠ some '/' then "/".toList
  else
    let i := (path.reverse.dropWhile (fun c => c != '/')).length - 1
    if i = 0 then "/".toList else path.take i

/-- Outcome of the jar's `newEntry`: the cookie is rejected, removes its slot, or is stored. -/
inductive NewEntry where
  | illegal
  | remove (e : Entry)
  | store (e : Entry)
deriving DecidableEq, Repr

def newEntry (c : Cookie) (now : Time) (defPath host : Str) : NewEntry :=
  let path := if c.Path = [] ∨ c.Path.head? ≠ some '/' then defPath else c.Path
  match domainAndType host c.Domain with
  | none => .illegal
  | some (domain, hostOnly) =>
    let e : Entry :=
      { Name := c.Name, Value := c.Value, Domain := domain, Path := path, Secure := c.Secure,
        HttpOnly := c.HttpOnly, Persistent := false, HostOnly := hostOnly, Expires := 0 }
    if c.MaxAge < 0 then .remove e
    else if c.MaxAge > 0 then
      .store { e with Expires := now + c.MaxAge * 1000000000, Persistent := true }
    else if c.Expires = 0 then .store e
    else if ¬ (c.Expires > now) then .remove e
    else .store { e with Expires := c.Expires, Persistent := true }

/-- Two entries occupy the same slot of the jar (same `id()`: domain, path and name). -/
def Entry.sameId (a b : Entry) : Bool :=
  decide (a.Domain = b.Domain ∧ a.Path = b.Path ∧ a.Name = b.Name)

/-- Store one entry: an entry with the same id is replaced in place, a new one is appended. -/
def Jar.put (j : Jar) (e : Entry) : Jar :=
  if j.any (fun o => o.sameId e) then j.map (fun o => if o.sameId e then e else o)
  else j ++ [e]

def Jar.setCookie (j : Jar) (host defPath : Str) (now : Time) (c : Cookie) : Jar :=
  match newEntry c now defPath host with
  | .illegal => j
  | .remove e => j.filter (fun o => !o.sameId e)
  | .store e => j.put e

/-- The method `Jar.SetCookies(u, cookies)` at clock value `now`. -/
def Jar.SetCookies (j : Jar) (u : URL) (now : Time) (cookies : List Cookie) : Jar :=
  if u.Scheme ≠ "http".toList ∧ u.Scheme ≠ "https".toList then j
  else cookies.foldl (fun j c => j.setCookie u.Host (defaultPath u.Path) now c) j

def Entry.domainMatch (e : Entry) (host : Str) : Bool :=
  decide (e.Domain = host) || (!e.HostOnly && hasDotSuffix host e.Domain)

def Entry.pathMatch (e : Entry) (requestPath : Str) : Bool :=
  if requestPath = e.Path then true
  else if e.Path.isPrefixOf requestPath then
    if e.Path.getLast? = some '/' then true
    else decide ((requestPath.drop e.Path.length).head? = some '/')
  else false

def Entry.shouldSend (e : Entry) (https : Bool) (host path : Str) : Bool :=
  e.domainMatch host && e.pathMatch path && (https || !e.Secure)

/-- The method `Jar.Cookies(u)` at clock value `now`: the live entries that are sent to `u`. -/
def Jar.Cookies (j : Jar) (u : URL) (now : Time) : List Entry :=
  if u.Scheme ≠ "http".toList ∧ u.Scheme ≠ "https".toList then []
  else
    let path := if u.Path = [] then "/".toList else u.Path
    j.filter (fun e =>
      !(e.Persistent && !decide (e.Expires > now)) &&
        e.shouldSend (decide (u.Scheme = "https".toList)) u.Host path)

/-! ## `Session` -/

/-- The struct `Session`; the HTTP client is the jar it is bound to. -/
structure Session where
  jar : Jar
  csrfToken : Str
  handle : Str
  expiresAt : Time
  cfClearance : Str
  cfClearExp : Time
  userAgent : Str
deriving DecidableEq, Repr

/-- The call `cookiejar.New(...)`: it returns an empty jar and never an error. -/
def cookiejarNew : Except String Jar := .ok []

def NewSession : Except String Session :=
  match cookiejarNew with
  | .error err => .error ("create cookie jar: " ++ err)
  | .ok jar =>
    .ok { jar := jar, csrfToken := [], handle := [], expiresAt := 0, cfClearance := [],
          cfClearExp := 0, userAgent := UserAgent }

def NewSessionWithUserAgent (ua : Str) : Except String Session :=
  match NewSession with
  | .error err => .error err
  | .ok session => .ok { session with userAgent := ua }

def Session.SetCFClearance (s : Session) (now : Time) (clearance userAgent : Str)
    (expiresAt : Time) : Session :=
  let s := { s with cfClearance := clearance }
  let s := { s with cfClearExp := expiresAt }
  let s := { s with userAgent := userAgent }
  let cookies : List Cookie :=
    [{ Name := "cf_clearance".toList, Value := clearance, Path := "/".toList,
       Domain := ".codeforces.com".toList, Expires := expiresAt, HttpOnly := true,
       Secure := true }]
  { s with jar := s.jar.SetCookies cfURL now cookies }

def Session.SetSessionCookies (s : Session) (now : Time) (jsessionID ce7Cookie handle : Str) :
    Session :=
  let cookies : List Cookie := []
  let cookies :=
    if jsessionID ≠ [] then
      cookies ++ [{ Name := "JSESSIONID".toList, Value := jsessionID, Path := "/".toList,
                    Domain := "codeforces.com".toList, HttpOnly := true }]
    else cookies
  let cookies :=
    if ce7Cookie ≠ [] then
      cookies ++ [{ Name := "39ce7".toList, Value := ce7Cookie, Path := "/".toList,
                    Domain := ".codeforces.com".toList, Expires := now + 365 * 24 * Hour,
                    HttpOnly := true }]
    else cookies
  let s := if cookies.length > 0 then { s with jar := s.jar.SetCookies cfURL now cookies } else s
  let s := { s with handle := handle }
  { s with expiresAt := now + SessionExpiry }

def Session.SetFullAuth (s : Session) (now : Time) (cfClearance userAgent : Str)
    (cfClearExp : Time) (jsessionID ce7Cookie handle : Str) : Session :=
  (s.SetCFClearance now cfClearance userAgent cfClearExp).SetSessionCookies now jsessionID
    ce7Cookie handle

def Session.IsCFClearanceValid (s : Session) (now : Time) : Bool :=
  if s.cfClearance = [] then false
  else decide (now < s.cfClearExp)

def Session.HasSessionCookies (s : Session) (now : Time) : Bool :=
  (s.jar.Cookies cfURL now).any
    (fun c => decide (c.Name = "JSESSIONID".toList) || decide (c.Name = "39ce7".toList))

def Session.IsAuthenticated (s : Session) (now : Time) : Bool :=
  s.IsCFClearanceValid now && s.HasSessionCookies now

def Session.IsReadyForSubmission (s : Session) (now : Time) : Bool :=
  s.IsAuthenticated now && decide (s.handle ≠ [])

def Session.GetCSRFToken (s : Session) : Str := s.csrfToken

def Session.Handle (s : Session) : Str := s.handle

def Session.ExpiresAt (s : Session) : Time := s.expiresAt

def Session.CFClearanceExpiresAt (s : Session) : Time := s.cfClearExp

def Session.GetUserAgent (s : Session) : Str :=
  if s.userAgent = [] then UserAgent else s.userAgent

def Session.GetCFClearance (s : Session) : Str := s.cfClearance

/-! ## Strings (`strings`, `strconv`) -/

/-- The function `strings.Contains(s, substr)`. -/
def Contains : Str → Str → Bool
  | [], substr => substr.isPrefixOf []
  | c :: s, substr => substr.isPrefixOf (c :: s) || Contains s substr

/-- The predicate `unicode.IsSpace`. -/
def isSpace (c : Char) : Bool :=
  c = '\t' || c = '\n' || c = Char.ofNat 0x0B || c = Char.ofNat 0x0C || c = '\r' || c = ' ' ||
  c = Char.ofNat 0x85 || c = Char.ofNat 0xA0 || c = Char.ofNat 0x1680 ||
  (decide (0x2000 ≤ c.toNat) && decide (c.toNat ≤ 0x200A)) ||
  c = Char.ofNat 0x2028 || c = Char.ofNat 0x2029 || c = Char.ofNat 0x202F ||
  c = Char.ofNat 0x205F || c = Char.ofNat 0x3000

/-- The function `strings.TrimSpace`. -/
def TrimSpace (s : Str) : Str :=
  ((s.dropWhile isSpace).reverse.dropWhile isSpace).reverse

/-- Reduce an integer to the range of `int64` (two's complement wrap-around). -/
def wrap64 (x : Int) : Int := (x + 2 ^ 63) % 2 ^ 64 - 2 ^ 63

def maxInt64 : Int := 2 ^ 63 - 1

def minInt64 : Int := -(2 ^ 63)

def isDigit (c : Char) : Bool := decide ('0' ≤ c) && decide (c ≤ '9')

/-- The value of a string of decimal digits, `none` when a character is not a digit. -/
def digitsValue : Str → Nat → Option Nat
  | [], acc => some acc
  | c :: s, acc => if isDigit c then digitsValue s (acc * 10 + (c.toNat - 48)) else none

/-- The function `strconv.ParseInt(s, 10, 64)`: the value, and whether an error is returned.
On a syntax error the value is 0, on a range error it is the nearest bound. -/
def ParseInt (s : Str) : Int × Bool :=
  let (neg, body) :=
    match s with
    | '+' :: r => (false, r)
    | '-' :: r => (true, r)
    | r => (false, r)
  if body = [] then (0, true)
  else
    match digitsValue body 0 with
    | none => (0, true)
    | some n =>
      if neg then (if (n : Int) > 2 ^ 63 then (minInt64, true) else (-(n : Int), false))
      else (if (n : Int) > maxInt64 then (maxInt64, true) else ((n : Int), false))

/-- The text of the error that `strconv.ParseInt(s, 10, 64)` returns, when it returns one.
The input is written between double quotes as it is: `strconv.Quote` changes nothing in a
text of printable characters without double quote or backslash. -/
def parseIntError (s : Str) : String :=
  "strconv.ParseInt: parsing \"" ++ String.mk s ++ "\": " ++
    (if (ParseInt s).1 = 0 then "invalid syntax" else "value out of range")

/-- The function `strconv.Atoi` on a 64-bit platform. -/
def Atoi (s : Str) : Int × Bool := ParseInt s

/-- The function `strconv.Itoa`, also what the verb `%d` prints. -/
def Itoa (n : Int) : Str :=
  if n < 0 then '-' :: (Nat.repr n.natAbs).toList else (Nat.repr n.toNat).toList

/-! ## Regular expressions (`regexp`)

The patterns of the package are sequences of literal characters and of greedy
repetitions `[...]*` or `[...]+` of one character class, some of them in a capture
group. `matchHere` is the backtracking matcher for such sequences; Go's `regexp`
returns the match a backtracking matcher finds first (leftmost, greedy repetitions
preferring more characters). -/

/-- A character class: the listed characters, or with `negated` all the others. -/
structure CharClass where
  negated : Bool
  chars : List Char
deriving DecidableEq, Repr

def CharClass.test (k : CharClass) (c : Char) : Bool :=
  if k.negated then !decide (c ∈ k.chars) else decide (c ∈ k.chars)

/-- One item of a pattern. -/
inductive Tok where
  | lit (c : Char)
  | rep (k : CharClass) (min : Nat) (capture : Bool)
deriving DecidableEq, Repr

abbrev Regexp := List Tok

/-- The literal text `s` as pattern items. -/
def lits (s : String) : Regexp := s.toList.map Tok.lit

/-- The class `[^>]`. -/
def notGt : CharClass := { negated := true, chars := ['>'] }

/-- The class `[^"]`. -/
def notQuote : CharClass := { negated := true, chars := ['"'] }

/-- The class `\d`. -/
def digit : CharClass := { negated := false, chars := "0123456789".toList }

/-- The class `\s`. -/
def space : CharClass := { negated := false, chars := ['\t', '\n', Char.ofNat 0x0C, '\r', ' '] }

/-- A greedy repetition of characters satisfying `p`: consume as many as possible, then
give back one at a time until the continuation `k` (which receives the consumed text and
the remaining text) succeeds; at least `min` characters are consumed. -/
def greedy {α : Type} (p : Char → Bool) (min : Nat) (k : Str → Str → Option α) :
    Str → Str → Option α
  | acc, [] => if min ≤ acc.length then k acc [] else none
  | acc, c :: s =>
    if p c then
      match greedy p min k (acc ++ [c]) s with
      | some r => some r
      | none => if min ≤ acc.length then k acc (c :: s) else none
    else if min ≤ acc.length then k acc (c :: s) else none

/-- Match the pattern at the start of the text: the texts of the capture groups, in
order, and the text that follows the match. -/
def matchHere : Regexp → Str → Option (List Str × Str)
  | [], s => some ([], s)
  | .lit c :: ts, s =>
    match s with
    | [] => none
    | d :: s' => if d = c then matchHere ts s' else none
  | .rep k min capture :: ts, s =>
    greedy k.test min
      (fun u v => (matchHere ts v).map (fun r => (if capture then u :: r.1 else r.1, r.2))) [] s

/-- The leftmost match: the result of `FindStringSubmatch` (the whole match followed by
the groups) together with the text that follows the match. -/
def findFirst (re : Regexp) : Str → Option (List Str × Str)
  | [] => (matchHere re []).map (fun r => ([] :: r.1, r.2))
  | c :: s =>
    match matchHere re (c :: s) with
    | some r => some ((c :: s).take ((c :: s).length - r.2.length) :: r.1, r.2)
    | none => findFirst re s

/-- The method `Regexp.FindStringSubmatch`; `nil` is the empty list. -/
def FindStringSubmatch (re : Regexp) (s : Str) : List Str :=
  match findFirst re s with
  | some r => r.1
  | none => []

/-- Successive non-overlapping matches, scanning left to right; `skip` counts the
characters that still belong to the previous match. -/
def findAllFrom (re : Regexp) : Nat → Str → List (List Str)
  | skip, [] =>
    if skip = 0 then
      match matchHere re [] with
      | some r => [[] :: r.1]
      | none => []
    else []
  | 0, c :: s =>
    match matchHere re (c :: s) with
    | some r =>
      let n := (c :: s).length - r.2.length
      ((c :: s).take n :: r.1) :: findAllFrom re (n - 1) s
    | none => findAllFrom re 0 s
  | skip + 1, _ :: s => findAllFrom re skip s

/-- The method `Regexp.FindAllStringSubmatch(s, -1)`, for patterns that match no empty text. -/
def FindAllStringSubmatch (re : Regexp) (s : Str) : List (List Str) :=
  findAllFrom re 0 s

/-- The continuation of a repetition inside `matchHere`. -/
def contK (ts : Regexp) (capture : Bool) : Str → Str → Option (List Str × Str) :=
  fun u v => (matchHere ts v).map (fun r => (if capture then u :: r.1 else r.1, r.2))

/-- The literal text with which a pattern starts, up to its first double quote. -/
def quoteHead : Regexp → Option Str
  | .lit c :: ts => if c = '"' then some [] else (quoteHead ts).map (fun l => c :: l)
  | _ => none

/-- The literal characters with which a pattern starts. -/
def litsHead : Regexp → Str
  | .lit c :: ts => c :: litsHead ts
  | _ => []

/-- The pattern after its leading literal characters. -/
def afterLits : Regexp → Regexp
  | .lit _ :: ts => afterLits ts
  | ts => ts

/-- The number of capture groups of a pattern. -/
def groupCount : Regexp → Nat
  | [] => 0
  | .lit _ :: ts => groupCount ts
  | .rep _ _ capture :: ts => (if capture then 1 else 0) + groupCount ts

/-! ## Patterns and extraction helpers of `session.go` -/

/-- The pattern `<input[^>]+name="csrf_token"[^>]+value="([^"]+)"`. -/
def reCSRFInput1 : Regexp :=
  lits "<input" ++ [.rep notGt 1 false] ++ lits "name=\"csrf_token\"" ++ [.rep notGt 1 false] ++
    lits "value=\"" ++ [.rep notQuote 1 true] ++ lits "\""

/-- The pattern `<input[^>]+value="([^"]+)"[^>]+name="csrf_token"`. -/
def reCSRFInput2 : Regexp :=
  lits "<input" ++ [.rep notGt 1 false] ++ lits "value=\"" ++ [.rep notQuote 1 true] ++
    lits "\"" ++ [.rep notGt 1 false] ++ lits "name=\"csrf_token\""

/-- The pattern `<meta[^>]+name="X-Csrf-Token"[^>]+content="([^"]+)"`. -/
def reCSRFMeta : Regexp :=
  lits "<meta" ++ [.rep notGt 1 false] ++ lits "name=\"X-Csrf-Token\"" ++ [.rep notGt 1 false] ++
    lits "content=\"" ++ [.rep notQuote 1 true] ++ lits "\""

/-- The pattern `Codeforces\.getCsrfToken[^"]*"([^"]+)"`. -/
def reCSRFJS : Regexp :=
  lits "Codeforces.getCsrfToken" ++ [.rep notQuote 0 false] ++ lits "\"" ++
    [.rep notQuote 1 true] ++ lits "\""

/-- The pattern `<input[^>]+name="([^"]+)"[^>]+value="([^"]*)"`. -/
def reHiddenInput1 : Regexp :=
  lits "<input" ++ [.rep notGt 1 false] ++ lits "name=\"" ++ [.rep notQuote 1 true] ++
    lits "\"" ++ [.rep notGt 1 false] ++ lits "value=\"" ++ [.rep notQuote 0 true] ++ lits "\""

/-- The pattern `<input[^>]+value="([^"]*)"[^>]+name="([^"]+)"`. -/
def reHiddenInput2 : Regexp :=
  lits "<input" ++ [.rep notGt 1 false] ++ lits "value=\"" ++ [.rep notQuote 0 true] ++
    lits "\"" ++ [.rep notGt 1 false] ++ lits "name=\"" ++ [.rep notQuote 1 true] ++ lits "\""

/-- Indexing `matches[i]` of a result of which the length was checked. -/
def idx (m : List Str) (i : Nat) : Str := m.getD i []

def extractCSRFToken (htmlStr : Str) : Str :=
  let m1 := FindStringSubmatch reCSRFInput1 htmlStr
  if m1.length > 1 then idx m1 1
  else
    let m2 := FindStringSubmatch reCSRFInput2 htmlStr
    if m2.length > 1 then idx m2 1
    else
      let m3 := FindStringSubmatch reCSRFMeta htmlStr
      if m3.length > 1 then idx m3 1
      else
        let m4 := FindStringSubmatch reCSRFJS htmlStr
        if m4.length > 1 then idx m4 1
        else []

/-- The first loop body of `extractHiddenInput`: the first match whose group 1 is `name`. -/
def firstNamed1 (name : Str) : List (List Str) → Option Str
  | [] => none
  | m :: ms => if m.length > 2 ∧ idx m 1 = name then some (idx m 2) else firstNamed1 name ms

/-- The second loop body of `extractHiddenInput`: the first match whose group 2 is `name`. -/
def firstNamed2 (name : Str) : List (List Str) → Option Str
  | [] => none
  | m :: ms => if m.length > 2 ∧ idx m 2 = name then some (idx m 1) else firstNamed2 name ms

def extractHiddenInput (htmlStr name : Str) : Str :=
  match firstNamed1 name (FindAllStringSubmatch reHiddenInput1 htmlStr) with
  | some v => v
  | none =>
    match firstNamed2 name (FindAllStringSubmatch reHiddenInput2 htmlStr) with
    | some v => v
    | none => []

/-! ## The network (`net/http`) and the HTML library (`goquery`)

`client.Do` is a call to the outside world. The world is a `Net`: a server that answers
a request given the requests sent before it, the HTML library seen through the
selectors the package uses, and the log of the requests sent so far. -/

structure Request where
  Method : Str
  URL : Str
  Header : List (Str × Str)
  Form : List (Str × Str)
deriving DecidableEq, Repr

/-- A response body as a reader: the bytes it yields, then end of file or a read error.
One character stands for one byte. -/
structure Body where
  data : Str
  err : Option String := none
deriving DecidableEq, Repr

structure Response where
  StatusCode : Int
  Header : List (Str × Str) := []
  Body : Body
deriving DecidableEq, Repr

/-- A row `tr[data-submission-id]` of the submissions table, as the selectors of
`parseSubmissionRow` see it. -/
structure Row where
  /-- The attribute `data-submission-id`, when present. -/
  submissionId : Option Str
  /-- Text of the first `td.id-cell`. -/
  idCell : Str
  /-- Text of `.verdict-accepted, .verdict-rejected` inside the first `td.status-cell`. -/
  verdictSpan : Str
  /-- Text of the first `td.status-cell`. -/
  statusCell : Str
  /-- Text of the first `td.time-consumed-cell`. -/
  timeCell : Str
  /-- Text of the first `td.memory-consumed-cell`. -/
  memoryCell : Str
deriving DecidableEq, Repr

/-- A parsed page, as the selectors of `submitter.go` see it. -/
structure Document where
  /-- The selection `table.status-frame-datatable tr[data-submission-id]`. -/
  rows : List Row
  /-- Text of `.verdict-accepted, .verdict-rejected, .verdict-waiting`. -/
  verdictText : Str
  /-- Texts of the cells `.datatable tr td`, in document order. -/
  cells : List Str
deriving DecidableEq, Repr

/-- The method `Header.Get`: the first value stored under the key, or the empty string. -/
def headerGet (h : List (Str × Str)) (key : Str) : Str :=
  match h.find? (fun kv => decide (kv.1 = key)) with
  | some kv => kv.2
  | none => []

/-- The method `Set` of `http.Header` and of `url.Values`: replace the values of the key. -/
def valuesSet (h : List (Str × Str)) (key value : Str) : List (Str × Str) :=
  h.filter (fun kv => !decide (kv.1 = key)) ++ [(key, value)]

/-- Scheme and host of an absolute URL: the text up to the first slash after `://`. -/
def originOf (url : Str) : Str :=
  if "https://".toList.isPrefixOf url then
    "https://".toList ++ (url.drop 8).takeWhile (fun c => c != '/')
  else if "http://".toList.isPrefixOf url then
    "http://".toList ++ (url.drop 7).takeWhile (fun c => c != '/')
  else []

/-- Resolution of a `Location` against the URL of the request, for the two forms of
`Location` that occur in the sample worlds: an absolute `http` or `https` URL stands for
itself, and a path that starts with a slash replaces the path of the request URL. Other
forms of reference are left to the field `resolve` of a world. -/
def sampleResolve (base ref : Str) : Except String Str :=
  if "https://".toList.isPrefixOf ref ∨ "http://".toList.isPrefixOf ref then .ok ref
  else .ok (originOf base ++ ref)

structure Net where
  /-- The answer of the server to a request, given the requests sent before it; an error
  is the error that the transport reports. -/
  server : List Request → Request → Except String Response
  parse : Str → Document
  sent : List Request
  /-- The method `URL.Parse` of the URL of a request on the text of a `Location` header:
  the text of the resolved URL, or the error. -/
  resolve : Str → Str → Except String Str := sampleResolve

/-- The statuses on which `client.Do` goes on to another request (`redirectBehavior`). -/
def redirectStatus (code : Int) : Bool :=
  decide (code = 301) || decide (code = 302) || decide (code = 303) || decide (code = 307) ||
    decide (code = 308)

/-- The function `redirectBehavior` for a request whose body can be sent again (a request
made by `http.NewRequest` without body or with a `strings.Reader`): the method of the next
request, and whether the body goes with it. -/
def redirectBehavior (reqMethod : Str) (code : Int) : Str × Bool :=
  if code = 307 ∨ code = 308 then (reqMethod, true)
  else if reqMethod ≠ "GET".toList ∧ reqMethod ≠ "HEAD".toList then ("GET".toList, false)
  else (reqMethod, false)

/-- The function `refererForURL`: the `Referer` of the next request, empty for none. -/
def refererForURL (lastReq newReq explicitRef : Str) : Str :=
  if "https:".toList.isPrefixOf lastReq ∧ "http:".toList.isPrefixOf newReq then []
  else if explicitRef ≠ [] then explicitRef
  else lastReq

/-- The function `urlErrorOp`: the method with its first letter kept and the rest in lower
case. -/
def urlErrorOp (method : Str) : Str :=
  match method with
  | [] => "Get".toList
  | c :: r => c :: r.map Char.toLower

/-- The text of a `url.Error`. The URL is written between double quotes as it is: the URLs
at hand hold no character that `strconv.Quote` escapes. -/
def urlError (op url : Str) (err : String) : String :=
  String.mk op ++ " \"" ++ String.mk url ++ "\": " ++ err

/-- What one request of `client.Do` leads to: the result of the call, or the next request
(with whether the body still goes with the requests, and the `Location` followed). -/
inductive Hop where
  | done (r : Except String Response)
  | next (includeBody : Bool) (req : Request) (loc : Str)

/-- One turn of the loop of `client.Do` (the client has no `CheckRedirect`): send the
request; an answer with a redirect status and a `Location` header leads to another request,
whose method is given by `redirectBehavior`, whose headers are those of the first request
`ireq` with the `Referer` of `refererForURL`, and whose body is that of `ireq` when the body
still goes with the requests; every other answer is the result. -/
def Net.hop (net : Net) (ireq : Request) (includeBody : Bool) (req : Request) : Hop × Net :=
  let net' : Net := { net with sent := net.sent ++ [req] }
  match net.server net.sent req with
  | .error err => (.done (.error err), net')
  | .ok resp =>
    let loc := headerGet resp.Header "Location".toList
    if redirectStatus resp.StatusCode = false ∨ loc = [] then (.done (.ok resp), net')
    else
      match net.resolve req.URL loc with
      | .error err =>
        (.done (.error (urlError (urlErrorOp ireq.Method) req.URL
          ("failed to parse Location header \"" ++ String.mk loc ++ "\": " ++ err))), net')
      | .ok u =>
        let includeBody := includeBody && (redirectBehavior req.Method resp.StatusCode).2
        let ref := refererForURL req.URL u (headerGet ireq.Header "Referer".toList)
        (.next includeBody
          { Method := (redirectBehavior req.Method resp.StatusCode).1, URL := u,
            Header := if ref ≠ [] then valuesSet ireq.Header "Referer".toList ref
              else ireq.Header,
            Form := if includeBody then ireq.Form else [] } loc, net')

/-- The loop of `client.Do`: `fuel` is the number of further requests that
`defaultCheckRedirect` allows after this one. -/
def Net.follow (net : Net) (ireq : Request) : Nat → Bool → Request →
    Except String Response × Net
  | 0, includeBody, req =>
    match net.hop ireq includeBody req with
    | (.done r, net) => (r, net)
    | (.next _ _ loc, net) =>
      (.error (urlError (urlErrorOp ireq.Method) loc "stopped after 10 redirects"), net)
  | fuel + 1, includeBody, req =>
    match net.hop ireq includeBody req with
    | (.done r, net) => (r, net)
    | (.next includeBody next _, net) => net.follow ireq fuel includeBody next

/-- The call `client.Do(req)`: the client follows redirects, at most ten requests in all,
and returns the answer it ends on. Cookies that the answers set are not modelled. -/
def Net.Do (net : Net) (req : Request) : Except String Response × Net :=
  net.follow req 9 true req

/-- The call `io.ReadAll(io.LimitReader(body, n))`: what was read, and the read error. -/
def readAllLimited (b : Body) (n : Nat) : Str × Option String :=
  if n ≤ b.data.length then (b.data.take n, none) else (b.data, b.err)

/-- The call `goquery.NewDocumentFromReader(body)`: it reads the whole body. -/
def NewDocumentFromReader (net : Net) (b : Body) : Except String Document :=
  match b.err with
  | some err => .error err
  | none => .ok (net.parse b.data)

def StatusOK : Int := 200

def StatusFound : Int := 302

def StatusSeeOther : Int := 303

/-! ## Requests of the session -/

def Session.get (s : Session) (net : Net) (urlStr : Str) : Except String Response × Net :=
  let ua := s.userAgent
  let ua := if ua = [] then UserAgent else ua
  let header := valuesSet [] "User-Agent".toList ua
  let header := valuesSet header "Accept".toList
    "text/html,application/xhtml+xml,application/xml;q=0.9,*/*;q=0.8".toList
  let header := valuesSet header "Accept-Language".toList "en-US,en;q=0.5".toList
  net.Do { Method := "GET".toList, URL := urlStr, Header := header, Form := [] }

/-- The method `RefreshCSRFToken`: the error (`none` for `nil`), the session and the world
afterwards. -/
def Session.RefreshCSRFToken (s : Session) (net : Net) : Option String × Session × Net :=
  match s.get net BaseURL with
  | (.error err, net) => (some ("get page: " ++ err), s, net)
  | (.ok resp, net) =>
    match readAllLimited resp.Body MaxPageSize with
    | (_, some err) => (some ("read page: " ++ err), s, net)
    | (body, none) =>
      let csrfToken := extractCSRFToken body
      if csrfToken = [] then (some "csrf token not found", s, net)
      else (none, { s with csrfToken := csrfToken }, net)

def Session.Validate (s : Session) (net : Net) (now : Time) : Option String × Session × Net :=
  if !s.IsCFClearanceValid now then (some "cf_clearance expired or not set", s, net)
  else if s.handle = [] then (some "handle not set", s, net)
  else
    match s.get net BaseURL with
    | (.error err, net) => (some ("validation request failed: " ++ err), s, net)
    | (.ok resp, net) =>
      match readAllLimited resp.Body MaxPageSize with
      | (_, some err) => (some ("read response: " ++ err), s, net)
      | (body, none) =>
        if !Contains body s.handle then
          (some "session invalid - handle not found on page", s, net)
        else
          let csrfToken := extractCSRFToken body
          if csrfToken ≠ [] then (none, { s with csrfToken := csrfToken }, net)
          else (none, s, net)

/-! ## `submitter.go` -/

/-- The pattern `(\d+)\s*ms`. -/
def reTimeMs : Regexp := [.rep digit 1 true, .rep space 0 false] ++ lits "ms"

/-- The pattern `(\d+)\s*KB`. -/
def reMemoryKB : Regexp := [.rep digit 1 true, .rep space 0 false] ++ lits "KB"

/-- The pattern `(\d+)\s*MB`. -/
def reMemoryMB : Regexp := [.rep digit 1 true, .rep space 0 false] ++ lits "MB"

structure Submitter where
  session : Session
deriving DecidableEq, Repr

def NewSubmitter (session : Session) (now : Time) : Except String Submitter :=
  if !session.IsReadyForSubmission now then
    .error "session not ready for submission - need cf_clearance + session cookies + handle"
  else .ok { session := session }

structure SubmissionResult where
  SubmissionID : Int := 0
  ContestID : Int := 0
  ProblemIndex : Str := []
  Verdict : Str := []
  Time : Duration := 0
  Memory : Int := 0
  PassedTests : Int := 0
  SubmittedAt : Cfweb.Time := 0
  Status : Str := []
deriving DecidableEq, Repr

def parseTime (text : Str) : Duration :=
  let m := FindStringSubmatch reTimeMs text
  if m.length > 1 then
    let ms := (Atoi (idx m 1)).1
    wrap64 (ms * 1000000)
  else 0

def parseMemory (text : Str) : Int :=
  let m := FindStringSubmatch reMemoryMB text
  if m.length > 1 then
    let mb := (ParseInt (idx m 1)).1
    wrap64 (wrap64 (mb * 1024) * 1024)
  else
    let m := FindStringSubmatch reMemoryKB text
    if m.length > 1 then
      let kb := (ParseInt (idx m 1)).1
      wrap64 (kb * 1024)
    else 0

def normalizeVerdict (verdict : Str) : Str :=
  let verdict := TrimSpace verdict
  if Contains verdict "Accepted".toList then "OK".toList
  else if Contains verdict "Wrong answer".toList then "WRONG_ANSWER".toList
  else if Contains verdict "Time limit".toList then "TIME_LIMIT_EXCEEDED".toList
  else if Contains verdict "Memory limit".toList then "MEMORY_LIMIT_EXCEEDED".toList
  else if Contains verdict "Runtime error".toList then "RUNTIME_ERROR".toList
  else if Contains verdict "Compilation error".toList then "COMPILATION_ERROR".toList
  else if Contains verdict "Presentation error".toList then "PRESENTATION_ERROR".toList
  else if Contains verdict "Idleness".toList then "IDLENESS_LIMIT_EXCEEDED".toList
  else if Contains verdict "Hacked".toList then "CHALLENGED".toList
  else verdict

def parseSubmissionRow (row : Row) (now : Time) (contestID : Int) :
    Except String SubmissionResult :=
  match row.submissionId with
  | none => .error "submission ID not found"
  | some submissionIDStr =>
    match ParseInt submissionIDStr with
    | (_, true) => .error ("invalid submission ID: " ++ parseIntError submissionIDStr)
    | (submissionID, false) =>
      let problemIndex := TrimSpace row.idCell
      let verdict := TrimSpace row.verdictSpan
      let verdict := if verdict = [] then TrimSpace row.statusCell else verdict
      let timeText := TrimSpace row.timeCell
      let memoryText := TrimSpace row.memoryCell
      let result : SubmissionResult :=
        { SubmissionID := submissionID, ContestID := contestID, ProblemIndex := problemIndex,
          Verdict := normalizeVerdict verdict, Time := parseTime timeText,
          Memory := parseMemory memoryText, SubmittedAt := now }
      if verdict = [] ∨ Contains verdict "queue".toList = true then
        .ok { result with Status := "In queue".toList }
      else if Contains verdict "Running".toList then
        .ok { result with Status := "Running".toList }
      else .ok { result with Status := "Judged".toList }

/-- The request that `Submitter.get` builds. -/
def getRequest (url : Str) : Request :=
  { Method := "GET".toList, URL := url, Header := valuesSet [] "User-Agent".toList UserAgent,
    Form := [] }

def Submitter.get (s : Submitter) (net : Net) (url : Str) : Except String Response × Net :=
  let _ := s
  net.Do (getRequest url)

def Submitter.getLatestSubmission (s : Submitter) (net : Net) (now : Time) (contestID : Int)
    (problemIndex : Str) : Except String SubmissionResult × Net :=
  let _ := problemIndex
  let myURL := BaseURL ++ "/contest/".toList ++ Itoa contestID ++ "/my".toList
  match s.get net myURL with
  | (.error err, net) => (.error ("get my submissions: " ++ err), net)
  | (.ok resp, net) =>
    match NewDocumentFromReader net resp.Body with
    | .error err => (.error ("parse submissions page: " ++ err), net)
    | .ok doc =>
      match doc.rows with
      | [] => (.error "no submissions found", net)
      | row :: _ => (parseSubmissionRow row now contestID, net)

def Submitter.getLatestGymSubmission (s : Submitter) (net : Net) (now : Time) (gymID : Int)
    (problemIndex : Str) : Except String SubmissionResult × Net :=
  let _ := problemIndex
  let myURL := BaseURL ++ "/gym/".toList ++ Itoa gymID ++ "/my".toList
  match s.get net myURL with
  | (.error err, net) => (.error ("get gym submissions: " ++ err), net)
  | (.ok resp, net) =>
    match NewDocumentFromReader net resp.Body with
    | .error err => (.error ("parse gym submissions page: " ++ err), net)
    | .ok doc =>
      match doc.rows with
      | [] => (.error "no gym submissions found", net)
      | row :: _ => (parseSubmissionRow row now gymID, net)

/-- The form that `Submit` posts, built from the body of the submit page and the
arguments of the call. -/
def submitForm (body csrfToken problemIndex : Str) (langID : Int) (sourceCode : Str) :
    List (Str × Str) :=
  let ftaa := extractHiddenInput body "ftaa".toList
  let bfaa := extractHiddenInput body "bfaa".toList
  let form : List (Str × Str) := []
  let form := valuesSet form "csrf_token".toList csrfToken
  let form := valuesSet form "action".toList "submitSolutionFormSubmitted".toList
  let form := valuesSet form "submittedProblemIndex".toList problemIndex
  let form := valuesSet form "programTypeId".toList (Itoa langID)
  let form := valuesSet form "source".toList sourceCode
  let form := valuesSet form "tabSize".toList "4".toList
  let form := valuesSet form "sourceFile".toList []
  let form := if ftaa ≠ [] then valuesSet form "ftaa".toList ftaa else form
  let form := if bfaa ≠ [] then valuesSet form "bfaa".toList bfaa else form
  form

/-- The headers of the POST request of `Submit` and `SubmitToGym`. -/
def postHeader (submitURL : Str) : List (Str × Str) :=
  let header := valuesSet [] "Content-Type".toList "application/x-www-form-urlencoded".toList
  let header := valuesSet header "User-Agent".toList UserAgent
  let header := valuesSet header "Referer".toList submitURL
  valuesSet header "Origin".toList BaseURL

/-- The POST request of `Submit` and `SubmitToGym`; the body is the form, before
`form.Encode()`. -/
def postRequest (submitURL : Str) (form : List (Str × Str)) : Request :=
  { Method := "POST".toList, URL := submitURL, Header := postHeader submitURL, Form := form }

/-- The URL `fmt.Sprintf("%s/contest/%d/submit", BaseURL, contestID)`. -/
def contestSubmitURL (contestID : Int) : Str :=
  BaseURL ++ "/contest/".toList ++ Itoa contestID ++ "/submit".toList

/-- The test of `Submit` for success: a redirect (302 or 303) whose `Location` contains
`/my` or `/status`. -/
def successRedirect (resp : Response) : Bool :=
  (decide (resp.StatusCode = StatusFound) || decide (resp.StatusCode = StatusSeeOther)) &&
    (Contains (headerGet resp.Header "Location".toList) "/my".toList ||
      Contains (headerGet resp.Header "Location".toList) "/status".toList)

/-- The part of `Submit` that interprets the response to the POST request. -/
def Submitter.interpret (s : Submitter) (net : Net) (now : Time) (contestID : Int)
    (problemIndex : Str) (resp : Response) : Except String SubmissionResult × Net :=
  if successRedirect resp then
    s.getLatestSubmission net now contestID problemIndex
  else
    let respStr := (readAllLimited resp.Body MaxPageSize).1
    if Contains respStr "You have submitted exactly the same code before".toList then
      (.error "duplicate submission: you have submitted exactly the same code before", net)
    else if Contains respStr "Source code is too long".toList then
      (.error "source code is too long", net)
    else if Contains respStr "You are not allowed to submit".toList then
      (.error "you are not allowed to submit to this contest", net)
    else if Contains respStr "Contest is over".toList then
      (.error "contest is over", net)
    else if resp.StatusCode = StatusOK then
      s.getLatestSubmission net now contestID problemIndex
    else
      (.error ("submission failed (status " ++ String.mk (Itoa resp.StatusCode) ++ ")"), net)

def Submitter.Submit (s : Submitter) (net : Net) (now : Time) (contestID : Int)
    (problemIndex : Str) (langID : Int) (sourceCode : Str) :
    Except String SubmissionResult × Net :=
  let submitURL := contestSubmitURL contestID
  match s.get net submitURL with
  | (.error err, net) => (.error ("get submit page: " ++ err), net)
  | (.ok resp, net) =>
    match readAllLimited resp.Body MaxPageSize with
    | (_, some err) => (.error ("read submit page: " ++ err), net)
    | (body, none) =>
      let csrfToken := extractCSRFToken body
      if csrfToken = [] then (.error "csrf token not found", net)
      else
        let form := submitForm body csrfToken problemIndex langID sourceCode
        match net.Do (postRequest submitURL form) with
        | (.error err, net) => (.error ("submit solution: " ++ err), net)
        | (.ok resp, net) => s.interpret net now contestID problemIndex resp

/-! ## The remaining operations of `submitter.go` -/

def Submitter.GetSubmission (s : Submitter) (net : Net) (now : Time) (submissionID contestID : Int) :
    Except String SubmissionResult × Net :=
  let statusURL := BaseURL ++ "/contest/".toList ++ Itoa contestID ++ "/submission/".toList ++
    Itoa submissionID
  match s.get net statusURL with
  | (.error err, net) => (.error ("get submission status: " ++ err), net)
  | (.ok resp, net) =>
    match NewDocumentFromReader net resp.Body with
    | .error err => (.error ("parse submission page: " ++ err), net)
    | .ok doc =>
      let verdict := TrimSpace doc.verdictText
      let result : SubmissionResult :=
        { SubmissionID := submissionID, ContestID := contestID, Verdict := verdict,
          SubmittedAt := now }
      let result := doc.cells.foldl (fun (result : SubmissionResult) sel =>
        let text := TrimSpace sel
        let result := if Contains text "ms".toList then { result with Time := parseTime text }
          else result
        if Contains text "KB".toList = true ∨ Contains text "MB".toList = true then
          { result with Memory := parseMemory text }
        else result) result
      if verdict = [] ∨ Contains verdict "queue".toList = true then
        (.ok { result with Status := "In queue".toList }, net)
      else if Contains verdict "Running".toList then
        (.ok { result with Status := "Running".toList }, net)
      else if Contains verdict "Accepted".toList then
        (.ok { result with Status := "Accepted".toList, Verdict := "OK".toList }, net)
      else (.ok { result with Status := "Judged".toList }, net)

/-- The table `checks` of `VerifySubmitPage`: name and pattern. -/
def submitPageChecks : List (Str × Str) :=
  [("csrf_token".toList, "name=\"csrf_token\"".toList),
   ("problem_index".toList, "name=\"submittedProblemIndex\"".toList),
   ("language_select".toList, "name=\"programTypeId\"".toList),
   ("source_code".toList, "name=\"source\"".toList),
   ("submit_button".toList, "type=\"submit\"".toList)]

/-- The function `strings.Join`. -/
def Join : List Str → Str → Str
  | [], _ => []
  | [a], _ => a
  | a :: b :: r, sep => a ++ sep ++ Join (b :: r) sep

def Submitter.VerifySubmitPage (s : Submitter) (net : Net) (contestID : Int) :
    Option String × Net :=
  let submitURL := contestSubmitURL contestID
  match s.get net submitURL with
  | (.error err, net) => (some ("get submit page: " ++ err), net)
  | (.ok resp, net) =>
    match readAllLimited resp.Body MaxPageSize with
    | (_, some err) => (some ("read submit page: " ++ err), net)
    | (bodyStr, none) =>
      let missing := (submitPageChecks.filter (fun check => !Contains bodyStr check.2)).map
        (fun check => check.1)
      if missing.length > 0 then
        (some ("submit page missing elements: " ++ String.mk (Join missing ", ".toList)), net)
      else (none, net)

def Submitter.SubmitToGym (s : Submitter) (net : Net) (now : Time) (gymID : Int)
    (problemIndex : Str) (langID : Int) (sourceCode : Str) :
    Except String SubmissionResult × Net :=
  let submitURL := BaseURL ++ "/gym/".toList ++ Itoa gymID ++ "/submit".toList
  match s.get net submitURL with
  | (.error err, net) => (.error ("get gym submit page: " ++ err), net)
  | (.ok resp, net) =>
    match readAllLimited resp.Body MaxPageSize with
    | (_, some err) => (.error ("read gym submit page: " ++ err), net)
    | (body, none) =>
      let csrfToken := extractCSRFToken body
      if csrfToken = [] then (.error "csrf token not found", net)
      else
        let ftaa := extractHiddenInput body "ftaa".toList
        let bfaa := extractHiddenInput body "bfaa".toList
        let form : List (Str × Str) := []
        let form := valuesSet form "csrf_token".toList csrfToken
        let form := valuesSet form "action".toList "submitSolutionFormSubmitted".toList
        let form := valuesSet form "submittedProblemIndex".toList problemIndex
        let form := valuesSet form "programTypeId".toList (Itoa langID)
        let form := valuesSet form "source".toList sourceCode
        let form := valuesSet form "tabSize".toList "4".toList
        let form := if ftaa ≠ [] then valuesSet form "ftaa".toList ftaa else form
        let form := if bfaa ≠ [] then valuesSet form "bfaa".toList bfaa else form
        match net.Do (postRequest submitURL form) with
        | (.error err, net) => (.error ("submit gym solution: " ++ err), net)
        | (.ok resp, net) =>
          if resp.StatusCode = StatusFound ∨ resp.StatusCode = StatusSeeOther then
            s.getLatestGymSubmission net now gymID problemIndex
          else
            (.error ("gym submission failed (status " ++ String.mk (Itoa resp.StatusCode) ++
              ")"), net)

/-! ## Sample worlds, used to run the code on concrete inputs -/

/-- The world after the client has returned from the GET request of `Submit`. -/
def afterGet (net : Net) (contestID : Int) : Net :=
  (net.Do (getRequest (contestSubmitURL contestID))).2

/-- The world after the client has returned from the POST request of `Submit`, when the
submit page was read as `body`. -/
def afterPost (net : Net) (contestID : Int) (problemIndex : Str) (langID : Int)
    (sourceCode : Str) (body : Str) : Net :=
  ((afterGet net contestID).Do (postRequest (contestSubmitURL contestID)
    (submitForm body (extractCSRFToken body) problemIndex langID sourceCode))).2

/-- `Submit` gets as far as its POST request and the client returns `resp` for it (the
answer of the server, or the answer at the end of the redirects the client followed): the
submit page is fetched, read as `body` within the size cap, and holds a CSRF token. -/
def PostAnswered (net : Net) (contestID : Int) (problemIndex : Str) (langID : Int)
    (sourceCode : Str) (body : Str) (resp : Response) : Prop :=
  ∃ page, (net.Do (getRequest (contestSubmitURL contestID))).1 = .ok page ∧
    readAllLimited page.Body MaxPageSize = (body, none) ∧
    extractCSRFToken body ≠ [] ∧
    ((afterGet net contestID).Do (postRequest (contestSubmitURL contestID)
      (submitForm body (extractCSRFToken body) problemIndex langID sourceCode))).1 = .ok resp

/-- The server answers the request with `resp`, and `resp` is not a redirect that the
client follows: its status is none of 301, 302, 303, 307, 308, or it has no `Location`. -/
def PlainAnswer (net : Net) (req : Request) (resp : Response) : Prop :=
  net.server net.sent req = .ok resp ∧
    (redirectStatus resp.StatusCode = false ∨ headerGet resp.Header "Location".toList = [])

instance decEqExcept {ε α : Type} [DecidableEq ε] [DecidableEq α] : DecidableEq (Except ε α)
  | .ok a, .ok b =>
    if h : a = b then isTrue (by rw [h]) else isFalse (fun h' => h (Except.ok.inj h'))
  | .error a, .error b =>
    if h : a = b then isTrue (by rw [h]) else isFalse (fun h' => h (Except.error.inj h'))
  | .ok _, .error _ => isFalse (fun h => by cases h)
  | .error _, .ok _ => isFalse (fun h => by cases h)

/-- A session record with nothing set. -/
def blankSession : Session :=
  { jar := [], csrfToken := [], handle := [], expiresAt := 0, cfClearance := [], cfClearExp := 0,
    userAgent := UserAgent }

/-- A submit page with a CSRF token, and an `ftaa` input whose value is empty. -/
def samplePage : Str :=
  ("<form><input type=\"hidden\" name=\"csrf_token\" value=\"tok1\"/>" ++
    "<input type=\"hidden\" name=\"ftaa\" value=\"\"/>" ++
    "<input type=\"hidden\" name=\"bfaa\" value=\"f1b3\"/></form>").toList

/-- The submissions table with one judged row. -/
def sampleDocument : Document :=
  { rows := [{ submissionId := some "4242".toList, idCell := " A ".toList,
               verdictSpan := "Accepted".toList, statusCell := "Accepted".toList,
               timeCell := "46 ms".toList, memoryCell := "100 KB".toList }],
    verdictText := "Accepted".toList, cells := [] }

/-- The page of own submissions whose table is `sampleDocument`. -/
def myPage : Str :=
  ("<table class=\"status-frame-datatable\"><tr data-submission-id=\"4242\">" ++
    "<td class=\"id-cell\"> A </td>" ++
    "<td class=\"status-cell\"><span class=\"verdict-accepted\">Accepted</span></td>" ++
    "<td class=\"time-consumed-cell\">46 ms</td>" ++
    "<td class=\"memory-consumed-cell\">100 KB</td></tr></table>").toList

/-- A page without any of the elements that the selectors look for. -/
def noDocument : Document := { rows := [], verdictText := [], cells := [] }

/-- A server that answers a POST request with `post`, a GET request for a URL that ends in
`/my` with the page of own submissions, and every other GET request with the submit page. -/
def sampleServer (post : Response) : List Request → Request → Except String Response :=
  fun _ req =>
    if req.Method = "POST".toList then .ok post
    else if "/my".toList.isSuffixOf req.URL then .ok { StatusCode := 200, Body := { data := myPage } }
    else .ok { StatusCode := 200, Body := { data := samplePage } }

/-- The world of `sampleServer`; the HTML library reads the page of own submissions as
`sampleDocument` and finds none of the selected elements in any other page. -/
def sampleNet (post : Response) : Net :=
  { server := sampleServer post,
    parse := fun b => if b = myPage then sampleDocument else noDocument, sent := [] }

/-- A redirect to the list of own submissions, as the site answers an accepted POST. -/
def redirectToMy : Response :=
  { StatusCode := 302, Header := [("Location".toList, "/contest/1/my".toList)],
    Body := { data := [] } }

/-- A world in which the POST request is answered with a redirect to the list of own
submissions, and that list is a page on which the text `Contest is over` occurs. -/
def finishedContestNet : Net :=
  { server := fun _ req =>
      if req.Method = "POST".toList then .ok redirectToMy
      else if "/my".toList.isSuffixOf req.URL then
        .ok { StatusCode := 200,
              Body := { data := "<div>Contest is over</div>".toList ++ myPage } }
      else .ok { StatusCode := 200, Body := { data := samplePage } },
    parse := fun b => if b = "<div>Contest is over</div>".toList ++ myPage then sampleDocument
      else noDocument,
    sent := [] }

/-- A redirect to the list of own submissions whose body carries the duplicate phrase. -/
def redirectWithDuplicatePhrase : Response :=
  { StatusCode := 302, Header := [("Location".toList, "/contest/1/my".toList)],
    Body := { data := "You have submitted exactly the same code before".toList } }

/-- A plain `200 OK` answer with none of the failure phrases. -/
def plainOK : Response := { StatusCode := 200, Body := { data := "<html></html>".toList } }

/-- An answer with the duplicate phrase and no redirect. -/
def duplicateAnswer : Response :=
  { StatusCode := 200,
    Body := { data := "<span>You have submitted exactly the same code before</span>".toList } }

/-- A server error without any of the failure phrases. -/
def serverError : Response := { StatusCode := 500, Body := { data := "oops".toList } }

/-- Statement side, not code: the markup of a hidden input
named `name` with value `value`, as the submit page writes it. -/
def hiddenInputTag (name value : Str) : Str :=
  "<input type=\"hidden\" name=\"".toList ++ name ++ "\" value=\"".toList ++ value ++
    "\"/>".toList

/-- The value a form carries for a key, `none` when the form omits the key. -/
def formGet (form : List (Str × Str)) (key : Str) : Option Str :=
  (form.find? (fun kv => decide (kv.1 = key))).map (fun kv => kv.2)

/-- The pattern matches at some position of the document. -/
def MatchesIn (re : Regexp) (doc : Str) : Prop :=
  ∃ pre suf, doc = pre ++ suf ∧ matchHere re suf ≠ none

/-- A document with a meta-tag token followed by an input-tag token. -/
def metaThenInput : Str :=
  ("<meta name=\"X-Csrf-Token\" content=\"m1\"/>" ++
    "<input name=\"csrf_token\" value=\"i1\"/>").toList

/-! ## Documents of input tags (for `extractHiddenInput`) -/

/-- Statement side, not code: an input tag with one name attribute and
one value attribute, in either order. -/
structure InputTag where
  name : Str
  value : Str
  nameFirst : Bool
deriving DecidableEq, Repr

/-- The markup of an input tag. -/
def InputTag.render (g : InputTag) : Str :=
  if g.nameFirst then
    "<input name=\"".toList ++ g.name ++ "\" value=\"".toList ++ g.value ++ "\"/>".toList
  else "<input value=\"".toList ++ g.value ++ "\" name=\"".toList ++ g.name ++ "\"/>".toList

/-- A document that is a sequence of input tags. -/
def renderTags : List InputTag → Str
  | [] => []
  | g :: gs => g.render ++ renderTags gs

/-- A well-formed attribute text: it holds no double quote. -/
def quoteFree (c : Str) : Prop := '"' ∉ c

/-- The text does not end in `name=` or in `value=`. -/
def plainEnd (c : Str) : Prop := ¬ "name=".toList <:+ c ∧ ¬ "value=".toList <:+ c

/-- A well-formed input tag whose name and value do not end in `name=` or `value=`. -/
def InputTag.plain (g : InputTag) : Prop :=
  g.name ≠ [] ∧ quoteFree g.name ∧ quoteFree g.value ∧ plainEnd g.name ∧ plainEnd g.value

/-- Two well-formed input tags with distinct names; the value of the first ends in `name=`. -/
def trickyTags : List InputTag :=
  [{ name := "a".toList, value := "name=".toList, nameFirst := true },
   { name := "b".toList, value := "2".toList, nameFirst := true }]

/-- Three plain tags: name first, value first, and an empty value. -/
def sampleTags : List InputTag :=
  [{ name := "a".toList, value := "1".toList, nameFirst := true },
   { name := "ftaa".toList, value := "found".toList, nameFirst := false },
   { name := "b".toList, value := [], nameFirst := true }]

/-! ## Sample sessions, pages and tables of names -/

/-- A session with a live bypass token and a handle, and no identity cookie. -/
def cookielessSession : Session :=
  (blankSession.SetCFClearance 100 "tok".toList "UA".toList 200).SetSessionCookies 100 [] []
    "tourist".toList

/-- A world whose server answers every request with a page that shows the handle `tourist`. -/
def handleNet : Net :=
  { server := fun _ _ =>
      .ok { StatusCode := 200,
            Body := { data := "<a href=\"/profile/tourist\">tourist</a>".toList } },
    parse := fun _ => noDocument, sent := [] }

/-- A session whose bypass token was obtained with the user-agent `Custom/1.0`. -/
def customSession : Session :=
  (blankSession.SetCFClearance 100 "tok".toList "Custom/1.0".toList 200).SetSessionCookies 100
    "jsession".toList [] "tourist".toList

/-- A world whose every page the HTML library reads as the given document; the text that
the server sends stands for the markup of that document. -/
def detailNet (doc : Document) : Net :=
  { server := fun _ _ => .ok { StatusCode := 200, Body := { data := "<html></html>".toList } },
    parse := fun _ => doc, sent := [] }

/-- A submission page whose verdict element reads `Accepted`. -/
def acceptedPage : Document :=
  { rows := [], verdictText := "Accepted".toList, cells := ["46 ms".toList, "100 KB".toList] }

/-- A submission page whose verdict element reads `Wrong answer on test 3`. -/
def wrongAnswerPage : Document :=
  { rows := [], verdictText := "Wrong answer on test 3".toList, cells := [] }

/-- A row of the submissions table whose verdict reads `Wrong answer on test 3`. -/
def wrongAnswerRow : Row :=
  { submissionId := some "4242".toList, idCell := "A".toList,
    verdictSpan := "Wrong answer on test 3".toList,
    statusCell := "Wrong answer on test 3".toList, timeCell := "46 ms".toList,
    memoryCell := "100 KB".toList }

/-- The three lifecycle states of a submission. -/
def lifecycleStates : List Str := ["In queue".toList, "Running".toList, "Judged".toList]

/-- The nine substrings that `normalizeVerdict` knows. -/
def knownSubstrings : List Str :=
  ["Accepted".toList, "Wrong answer".toList, "Time limit".toList, "Memory limit".toList,
   "Runtime error".toList, "Compilation error".toList, "Presentation error".toList,
   "Idleness".toList, "Hacked".toList]

/-- The names of `submitPageChecks` whose pattern the body lacks, in the order of the
table. -/
def missingElements (body : Str) : List Str :=
  (submitPageChecks.filter (fun check => !Contains body check.2)).map (fun check => check.1)

/-- A submit page that lacks the language select and the submit button. -/
def partialSubmitPage : Str :=
  ("<form><input name=\"csrf_token\" value=\"t\"/><input name=\"submittedProblemIndex\"/>" ++
    "<textarea name=\"source\"></textarea></form>").toList

/-- A submit page with all five markers. -/
def fullSubmitPage : Str :=
  ("<form><input name=\"csrf_token\" value=\"t\"/><input name=\"submittedProblemIndex\"/>" ++
    "<select name=\"programTypeId\"></select><textarea name=\"source\"></textarea>" ++
    "<input type=\"submit\"/></form>").toList

/-- A world whose server answers every request with the given page. -/
def pageNet (page : Str) : Net :=
  { server := fun _ _ => .ok { StatusCode := 200, Body := { data := page } },
    parse := fun _ => noDocument, sent := [] }

/-- An answer that holds both the contest-over phrase and the too-long phrase. -/
def overAndTooLong : Response :=
  { StatusCode := 200,
    Body := { data := "<p>Contest is over</p><p>Source code is too long</p>".toList } }

/-! ## `selectors.go`: the table of languages -/

structure Language where
  ID : Str
  Name : Str
  Extension : Str
  CompilerID : Int
deriving DecidableEq, Repr

def SupportedLanguages : List Language :=
  [{ ID := "cpp17".toList, Name := "GNU G++17 7.3.0".toList, Extension := ".cpp".toList, CompilerID := 54 },
   { ID := "cpp20".toList, Name := "GNU G++20 11.2.0 (64 bit)".toList, Extension := ".cpp".toList, CompilerID := 89 },
   { ID := "cpp23".toList, Name := "GNU G++23 14.2 (64 bit)".toList, Extension := ".cpp".toList, CompilerID := 91 },
   { ID := "python3".toList, Name := "Python 3.8.10".toList, Extension := ".py".toList, CompilerID := 31 },
   { ID := "pypy3".toList, Name := "PyPy 3.10 (7.3.15)".toList, Extension := ".py".toList, CompilerID := 70 },
   { ID := "java17".toList, Name := "Java 17 64bit".toList, Extension := ".java".toList, CompilerID := 87 },
   { ID := "java21".toList, Name := "Java 21 64bit".toList, Extension := ".java".toList, CompilerID := 88 },
   { ID := "go".toList, Name := "Go 1.22.2".toList, Extension := ".go".toList, CompilerID := 32 },
   { ID := "rust".toList, Name := "Rust 1.75.0 (2021)".toList, Extension := ".rs".toList, CompilerID := 75 },
   { ID := "kotlin".toList, Name := "Kotlin 1.9.21".toList, Extension := ".kt".toList, CompilerID := 83 },
   { ID := "csharp".toList, Name := "C# 10, .NET SDK 6.0".toList, Extension := ".cs".toList, CompilerID := 79 },
   { ID := "ruby".toList, Name := "Ruby 3.2.2".toList, Extension := ".rb".toList, CompilerID := 67 },
   { ID := "js".toList, Name := "JavaScript V8 4.8.0".toList, Extension := ".js".toList, CompilerID := 34 },
   { ID := "php".toList, Name := "PHP 8.1.7".toList, Extension := ".php".toList, CompilerID := 6 },
   { ID := "haskell".toList, Name := "Haskell GHC 8.10.1".toList, Extension := ".hs".toList, CompilerID := 12 },
   { ID := "scala".toList, Name := "Scala 2.12.8".toList, Extension := ".scala".toList, CompilerID := 20 }]

/-- The loop of the three lookups: the first entry of the table that passes the test, `none`
for `nil`. -/
def firstLanguage (test : Language → Bool) : List Language → Option Language
  | [] => none
  | l :: ls => if test l then some l else firstLanguage test ls

def GetLanguageByExtension (ext : Str) : Option Language :=
  firstLanguage (fun l => decide (l.Extension = ext)) SupportedLanguages

def GetLanguageByID (id : Str) : Option Language :=
  firstLanguage (fun l => decide (l.ID = id)) SupportedLanguages

def GetLanguageByCompilerID (compilerID : Int) : Option Language :=
  firstLanguage (fun l => decide (l.CompilerID = compilerID)) SupportedLanguages

/-! ## `cfapi/cache.go`

The map of entries is an association list with one pair per key; a value of type
`interface{}` is an `Option V`, `none` being `nil`. Every method that reads the clock takes
the reading as an argument. -/

structure CacheEntry (V : Type) where
  Value : Option V
  Expiration : Time
deriving DecidableEq, Repr

structure Cache (V : Type) where
  entries : List (Str × CacheEntry V)
  ttl : Duration
deriving DecidableEq, Repr

/-- The map read `entries[key]`. -/
def mapGet {V : Type} : List (Str × CacheEntry V) → Str → Option (CacheEntry V)
  | [], _ => none
  | (k, e) :: rest, key => if k = key then some e else mapGet rest key

/-- The statement `delete(entries, key)`. -/
def mapDelete {V : Type} (entries : List (Str × CacheEntry V)) (key : Str) :
    List (Str × CacheEntry V) :=
  entries.filter (fun kv => !decide (kv.1 = key))

/-- The map write `entries[key] = entry`. -/
def mapSet {V : Type} (entries : List (Str × CacheEntry V)) (key : Str) (entry : CacheEntry V) :
    List (Str × CacheEntry V) :=
  (key, entry) :: mapDelete entries key

def NewCache (V : Type) (ttl : Duration) : Cache V := { entries := [], ttl := ttl }

def Cache.Get {V : Type} (c : Cache V) (now : Time) (key : Str) : Option V × Bool :=
  match mapGet c.entries key with
  | none => (none, false)
  | some entry => if entry.Expiration < now then (none, false) else (entry.Value, true)

def Cache.Set {V : Type} (c : Cache V) (now : Time) (key : Str) (value : Option V) : Cache V :=
  { c with entries := mapSet c.entries key { Value := value, Expiration := now + c.ttl } }

def Cache.SetWithTTL {V : Type} (c : Cache V) (now : Time) (key : Str) (value : Option V)
    (ttl : Duration) : Cache V :=
  { c with entries := mapSet c.entries key { Value := value, Expiration := now + ttl } }

def Cache.Delete {V : Type} (c : Cache V) (key : Str) : Cache V :=
  { c with entries := mapDelete c.entries key }

def Cache.Clear {V : Type} (c : Cache V) : Cache V := { c with entries := [] }

def Cache.Size {V : Type} (c : Cache V) : Nat := c.entries.length

/-- One round of the cleanup goroutine. -/
def Cache.removeExpired {V : Type} (c : Cache V) (now : Time) : Cache V :=
  { c with entries := c.entries.filter (fun kv => !decide (kv.2.Expiration < now)) }

/-- The method `GetOrSet`. The callback `fn` may have effects: it runs on a state of type
`σ`. The clock is read once in `Get` and once more in `Set`. -/
def Cache.GetOrSet {V σ : Type} (c : Cache V) (now1 now2 : Time) (key : Str)
    (fn : σ → (Option V × Option String) × σ) (st : σ) :
    (Option V × Option String) × Cache V × σ :=
  match c.Get now1 key with
  | (value, true) => ((value, none), c, st)
  | (_, false) =>
    match fn st with
    | ((_, some err), st) => ((none, some err), c, st)
    | ((value, none), st) => ((value, none), c.Set now2 key value, st)

/-- A cache with TTL 1 in which the key `k` was set at time 0. -/
def staleCache : Cache Nat := (NewCache Nat 1).Set 0 "k".toList (some 7)

/-- A callback that fails and counts its calls. -/
def failingFn (calls : Nat) : (Option Nat × Option String) × Nat :=
  ((none, some "fetch error"), calls + 1)

/-- The URL `fmt.Sprintf("%s/contest/%d/submission/%d", BaseURL, contestID, submissionID)`. -/
def submissionURL (contestID submissionID : Int) : Str :=
  BaseURL ++ "/contest/".toList ++ Itoa contestID ++ "/submission/".toList ++ Itoa submissionID

/-- Statement side, not code: the last text of a list that passes a test. -/
def lastCell (p : Str → Bool) (cells : List Str) : Option Str := (cells.filter p).getLast?

/-- The callback that `GetSubmission` runs on each cell of the data table. -/
def cellStep (result : SubmissionResult) (sel : Str) : SubmissionResult :=
  let text := TrimSpace sel
  let result := if Contains text "ms".toList then { result with Time := parseTime text }
    else result
  if Contains text "KB".toList = true ∨ Contains text "MB".toList = true then
    { result with Memory := parseMemory text }
  else result

/-- A submission page whose data table has a time cell followed by a cell that reads `ms`,
and a memory cell followed by a cell that reads `KB`. -/
def resetPage : Document :=
  { rows := [], verdictText := "Accepted".toList,
    cells := ["46 ms".toList, "ms".toList, "100 KB".toList, "KB".toList] }

/-- The nine names that `normalizeVerdict` returns for a known substring. -/
def verdictNames : List Str :=
  ["OK".toList, "WRONG_ANSWER".toList, "TIME_LIMIT_EXCEEDED".toList,
   "MEMORY_LIMIT_EXCEEDED".toList, "RUNTIME_ERROR".toList, "COMPILATION_ERROR".toList,
   "PRESENTATION_ERROR".toList, "IDLENESS_LIMIT_EXCEEDED".toList, "CHALLENGED".toList]

/-- The constant `time.Second`, in nanoseconds. -/
def Second : Duration := 1000000000

/-- The loop of `WaitForVerdict`, at its iteration `j` (counted from 0). The clock is the
sequence of the readings of `time.Now` during the call: reading 0 sets the deadline, reading
`2 * j + 1` is the loop test of iteration `j` and reading `2 * j + 2` is the one
`GetSubmission` takes in that iteration. The call `time.Sleep(2 * time.Second)` at the end
of an iteration shows only in the clock. `fuel` bounds the number of iterations. -/
def waitLoop (s : Submitter) (clock : Nat → Time) (submissionID contestID : Int)
    (deadline : Time) : Nat → Nat → Net → Option (Except String SubmissionResult × Net)
  | 0, _, _ => none
  | fuel + 1, j, net =>
    if clock (2 * j + 1) < deadline then
      match s.GetSubmission net (clock (2 * j + 2)) submissionID contestID with
      | (.error err, net) => some (.error err, net)
      | (.ok result, net) =>
        if result.Status ≠ "In queue".toList ∧ result.Status ≠ "Running".toList then
          some (.ok result, net)
        else waitLoop s clock submissionID contestID deadline fuel (j + 1) net
    else some (.error "timeout waiting for verdict", net)

/-- The method `WaitForVerdict`: the deadline is the first clock reading plus the timeout,
then the loop runs from its iteration 0. -/
def Submitter.WaitForVerdict (s : Submitter) (net : Net) (clock : Nat → Time) (fuel : Nat)
    (submissionID contestID : Int) (timeout : Duration) :
    Option (Except String SubmissionResult × Net) :=
  let deadline := clock 0 + timeout
  waitLoop s clock submissionID contestID deadline fuel 0 net

/-- Statement side, not code: the world before poll `j` of `WaitForVerdict`, when all the
polls before it were made. -/
def pollNet (s : Submitter) (clock : Nat → Time) (submissionID contestID : Int) (net : Net) :
    Nat → Net
  | 0 => net
  | j + 1 =>
    (s.GetSubmission (pollNet s clock submissionID contestID net j) (clock (2 * j + 2))
      submissionID contestID).2

/-- Statement side, not code: poll `j` of `WaitForVerdict`. -/
def poll (s : Submitter) (clock : Nat → Time) (submissionID contestID : Int) (net : Net)
    (j : Nat) : Except String SubmissionResult × Net :=
  s.GetSubmission (pollNet s clock submissionID contestID net j) (clock (2 * j + 2))
    submissionID contestID

/-- Statement side, not code: the poll gave a snapshot whose status is `In queue` or
`Running`. -/
def stillJudging (o : Except String SubmissionResult) : Bool :=
  match o with
  | .ok r => decide (r.Status = "In queue".toList) || decide (r.Status = "Running".toList)
  | .error _ => false

/-- A clock that advances by one second at each reading. -/
def sampleClock (i : Nat) : Time := (i : Int) * Second

/-- A submission page whose verdict element is empty: the submission is in queue. -/
def queuedPage : Document := { rows := [], verdictText := [], cells := [] }

/-- A page of 5 MB of blanks followed by the given markup. -/
def paddedPage (x : Str) : Str := List.replicate MaxPageSize ' ' ++ x

/-- The class `[^<]`. -/
def notLt : CharClass := { negated := true, chars := ['<'] }

/-- The markup `<span class="verdict-([^"]+)">([^<]*)</span>`: a `span` element whose one
class starts with `verdict-` and whose content is text without markup. -/
def reVerdictSpan : Regexp :=
  lits "<span class=\"verdict-" ++ [.rep notQuote 1 true] ++ lits "\">" ++
    [.rep notLt 0 true] ++ lits "</span>"

/-- The markup of a `span` element with the class `verdict-` followed by `cls`. -/
def verdictMarkup (cls text : Str) : Str :=
  "<span class=\"verdict-".toList ++ cls ++ "\">".toList ++ text ++ "</span>".toList

/-- The HTML library on a page that consists of text without markup followed by one `span`
element as in `reVerdictSpan`, its text without entities: the selection
`.verdict-accepted, .verdict-rejected, .verdict-waiting` is that element when its class is
one of the three, and the page has no table. Pages of another form are outside this
stand-in. -/
def spanParser (b : Str) : Document :=
  let m := FindStringSubmatch reVerdictSpan b
  { rows := [],
    verdictText :=
      if idx m 1 ∈ ["accepted".toList, "rejected".toList, "waiting".toList] then idx m 2
      else [],
    cells := [] }

/-- A world whose server answers every request with the given markup after 5 MB of
blanks. -/
def paddedNet (x : Str) : Net :=
  { server := fun _ _ => .ok { StatusCode := 200, Body := { data := paddedPage x } },
    parse := spanParser, sent := [] }

/-- A submission page with the verdict `Accepted` and a data table of two cells; the HTML
library reads it as `acceptedPage`. -/
def donePage : Str :=
  ("<span class=\"verdict-accepted\">Accepted</span>" ++
    "<table class=\"datatable\"><tr><td>46 ms</td><td>100 KB</td></tr></table>").toList

/-- A world in which the submission is in queue at the first two requests (a page without
verdict element) and accepted from the third on. -/
def judgingNet : Net :=
  { server := fun sent _ =>
      .ok { StatusCode := 200,
            Body := { data := if sent.length < 2 then "<html></html>".toList else donePage } },
    parse := fun b => if b = donePage then acceptedPage else queuedPage,
    sent := [] }

/-- A world in which the submission is in queue at the first request and the second
request fails. -/
def failingNet : Net :=
  { server := fun sent _ =>
      if sent.length < 1 then
        .ok { StatusCode := 200, Body := { data := "<html></html>".toList } }
      else .error "connection reset",
    parse := fun _ => queuedPage, sent := [] }

/-- The bypass triple of a session: token, expiry and paired user-agent. -/
def Session.bypass (s : Session) : Str × Time × Str := (s.cfClearance, s.cfClearExp, s.userAgent)

/-! # Theorems -/

/-! ## The HTTP client -/

theorem headerGet_valuesSet_ne (h : List (Str × Str)) (k key value : Str) (hk : key ≠ k) :
    headerGet (valuesSet h k value) key = headerGet h key := by
  have hfind : ∀ l : List (Str × Str),
      (l.filter (fun kv => !decide (kv.1 = k)) ++ [(k, value)]).find?
          (fun kv => decide (kv.1 = key)) =
        l.find? (fun kv => decide (kv.1 = key)) := by
    intro l
    induction l with
    | nil =>
      have : decide (k = key) = false := by simpa using Ne.symm hk
      simp [List.find?, this]
    | cons a l ih =>
      by_cases ha : a.1 = k
      · have hak : ¬ a.1 = key := fun e => hk (e.symm.trans ha)
        rw [List.filter_cons_of_neg (by simpa using ha), ih,
          List.find?_cons_of_neg _ (by simpa using hak)]
      · rw [List.filter_cons_of_pos (by simpa using ha), List.cons_append]
        by_cases hak : a.1 = key
        · rw [List.find?_cons_of_pos _ (by simpa using hak),
            List.find?_cons_of_pos _ (by simpa using hak)]
        · rw [List.find?_cons_of_neg _ (by simpa using hak),
            List.find?_cons_of_neg _ (by simpa using hak), ih]
  unfold headerGet valuesSet
  rw [hfind]

theorem hop_net (net : Net) (ireq : Request) (b : Bool) (req : Request) :
    (net.hop ireq b req).2 = { net with sent := net.sent ++ [req] } := by
  unfold Net.hop
  simp only
  split
  · rfl
  · split
    · rfl
    · split <;> rfl

/-- An answer that is not a redirect to follow is the result of the turn. -/
theorem hop_plain (net : Net) (ireq : Request) (b : Bool) (req : Request) (resp : Response)
    (h : PlainAnswer net req resp) :
    net.hop ireq b req = (.done (.ok resp), { net with sent := net.sent ++ [req] }) := by
  unfold Net.hop
  simp only [h.1, if_pos h.2]

theorem hop_error (net : Net) (ireq : Request) (b : Bool) (req : Request) (err : String)
    (h : net.server net.sent req = .error err) :
    net.hop ireq b req = (.done (.error err), { net with sent := net.sent ++ [req] }) := by
  unfold Net.hop
  simp only [h]

/-- A result of a turn is an answer of the server that is not a redirect to follow. -/
theorem hop_done_ok (net : Net) (ireq : Request) (b : Bool) (req : Request) (resp : Response)
    (h : (net.hop ireq b req).1 = .done (.ok resp)) : PlainAnswer net req resp := by
  unfold Net.hop at h
  simp only at h
  cases hs : net.server net.sent req with
  | error e => rw [hs] at h; cases h
  | ok r =>
    rw [hs] at h
    simp only at h
    by_cases hp : redirectStatus r.StatusCode = false ∨ headerGet r.Header "Location".toList = []
    · rw [if_pos hp] at h
      simp only [Hop.done.injEq, Except.ok.injEq] at h
      subst h
      exact ⟨hs, hp⟩
    · rw [if_neg hp] at h
      cases hr : net.resolve req.URL (headerGet r.Header "Location".toList) with
      | error e => rw [hr] at h; cases h
      | ok u => rw [hr] at h; cases h

/-- The next request of a turn: its form is empty or that of the first request, its method
is that of the request before it or `GET`, and apart from `Referer` its headers are those
of the first request. -/
theorem hop_next (net : Net) (ireq : Request) (b : Bool) (req : Request) (b' : Bool)
    (next : Request) (loc : Str) (h : (net.hop ireq b req).1 = .next b' next loc) :
    (next.Form = [] ∨ next.Form = ireq.Form) ∧
    (next.Method = req.Method ∨ next.Method = "GET".toList) ∧
    ∀ key, key ≠ "Referer".toList → headerGet next.Header key = headerGet ireq.Header key := by
  unfold Net.hop at h
  simp only at h
  cases hs : net.server net.sent req with
  | error e => rw [hs] at h; cases h
  | ok r =>
    rw [hs] at h
    simp only at h
    by_cases hp : redirectStatus r.StatusCode = false ∨ headerGet r.Header "Location".toList = []
    · rw [if_pos hp] at h
      cases h
    · rw [if_neg hp] at h
      cases hr : net.resolve req.URL (headerGet r.Header "Location".toList) with
      | error e => rw [hr] at h; cases h
      | ok u =>
        rw [hr] at h
        simp only [Hop.next.injEq] at h
        obtain ⟨_, hn, _⟩ := h
        subst hn
        refine ⟨?_, ?_, ?_⟩
        · simp only
          split_ifs
          · exact Or.inr rfl
          · exact Or.inl rfl
        · simp only [redirectBehavior]
          split_ifs
          · exact Or.inl rfl
          · exact Or.inr rfl
          · exact Or.inl rfl
        · intro key hk
          simp only
          split_ifs
          · exact headerGet_valuesSet_ne _ _ _ _ hk
          · rfl

/-- What `client.Do` returns is never a redirect with a `Location`. -/
theorem follow_ok (net : Net) (ireq : Request) (fuel : Nat) (b : Bool) (req : Request)
    (resp : Response) (h : (net.follow ireq fuel b req).1 = .ok resp) :
    redirectStatus resp.StatusCode = false ∨ headerGet resp.Header "Location".toList = [] := by
  induction fuel generalizing net b req with
  | zero =>
    unfold Net.follow at h
    rcases hh : net.hop ireq b req with ⟨hp, net'⟩
    rw [hh] at h
    cases hp with
    | done r =>
      simp only at h
      subst h
      exact (hop_done_ok net ireq b req resp (by rw [hh])).2
    | next b' nx loc => cases h
  | succ fuel ih =>
    unfold Net.follow at h
    rcases hh : net.hop ireq b req with ⟨hp, net'⟩
    rw [hh] at h
    cases hp with
    | done r =>
      simp only at h
      subst h
      exact (hop_done_ok net ireq b req resp (by rw [hh])).2
    | next b' nx loc => exact ih _ _ _ h

/-- The calls of `client.Do` change nothing in the world but the log of requests. -/
theorem follow_fields (net : Net) (ireq : Request) (fuel : Nat) (b : Bool) (req : Request) :
    (net.follow ireq fuel b req).2.server = net.server ∧
    (net.follow ireq fuel b req).2.parse = net.parse ∧
    (net.follow ireq fuel b req).2.resolve = net.resolve := by
  induction fuel generalizing net b req with
  | zero =>
    unfold Net.follow
    have hn := hop_net net ireq b req
    rcases hh : net.hop ireq b req with ⟨hp, net'⟩
    rw [hh] at hn
    simp only at hn
    subst hn
    cases hp <;> exact ⟨rfl, rfl, rfl⟩
  | succ fuel ih =>
    unfold Net.follow
    have hn := hop_net net ireq b req
    rcases hh : net.hop ireq b req with ⟨hp, net'⟩
    rw [hh] at hn
    simp only at hn
    subst hn
    cases hp with
    | done r => exact ⟨rfl, rfl, rfl⟩
    | next b' nx loc => exact ih _ _ _

/-- The requests of one call of `client.Do`: the request itself, then the requests that
follow redirects. -/
theorem follow_sent (net : Net) (ireq : Request) (fuel : Nat) (b : Bool) (req : Request) :
    ∃ rest, (net.follow ireq fuel b req).2.sent = net.sent ++ req :: rest ∧
      ∀ r ∈ rest, (r.Form = [] ∨ r.Form = ireq.Form) ∧
        (r.Method = req.Method ∨ r.Method = "GET".toList) ∧
        ∀ key, key ≠ "Referer".toList → headerGet r.Header key = headerGet ireq.Header key := by
  induction fuel generalizing net b req with
  | zero =>
    unfold Net.follow
    have hn := hop_net net ireq b req
    rcases hh : net.hop ireq b req with ⟨hp, net'⟩
    rw [hh] at hn
    simp only at hn
    subst hn
    cases hp <;> exact ⟨[], rfl, by simp⟩
  | succ fuel ih =>
    unfold Net.follow
    have hn := hop_net net ireq b req
    rcases hh : net.hop ireq b req with ⟨hp, net'⟩
    rw [hh] at hn
    simp only at hn
    subst hn
    cases hp with
    | done r => exact ⟨[], rfl, by simp⟩
    | next b' nx loc =>
      obtain ⟨h1, h2, h3⟩ := hop_next net ireq b req b' nx loc (by rw [hh])
      obtain ⟨rest, hs, hr⟩ := ih { net with sent := net.sent ++ [req] } b' nx
      refine ⟨nx :: rest, by simp only [hs, List.append_assoc, List.singleton_append], ?_⟩
      intro r hrm
      rcases List.mem_cons.mp hrm with e | hm
      · subst e
        exact ⟨h1, h2, h3⟩
      · obtain ⟨g1, g2, g3⟩ := hr r hm
        refine ⟨g1, ?_, g3⟩
        rcases g2 with g2 | g2
        · rw [g2]; exact h2
        · exact Or.inr g2

theorem do_ok (net : Net) (req : Request) (resp : Response) (h : (net.Do req).1 = .ok resp) :
    redirectStatus resp.StatusCode = false ∨ headerGet resp.Header "Location".toList = [] :=
  follow_ok net req 9 true req resp h

theorem do_fields (net : Net) (req : Request) :
    (net.Do req).2.server = net.server ∧ (net.Do req).2.parse = net.parse ∧
      (net.Do req).2.resolve = net.resolve :=
  follow_fields net req 9 true req

theorem do_sent (net : Net) (req : Request) :
    ∃ rest, (net.Do req).2.sent = net.sent ++ req :: rest ∧
      ∀ r ∈ rest, (r.Form = [] ∨ r.Form = req.Form) ∧
        (r.Method = req.Method ∨ r.Method = "GET".toList) ∧
        ∀ key, key ≠ "Referer".toList → headerGet r.Header key = headerGet req.Header key :=
  follow_sent net req 9 true req

/-- An answer of the server that is not a redirect to follow is what `client.Do` returns,
after that one request. -/
theorem do_plain (net : Net) (req : Request) (resp : Response) (h : PlainAnswer net req resp) :
    net.Do req = (.ok resp, { net with sent := net.sent ++ [req] }) := by
  unfold Net.Do Net.follow
  rw [hop_plain net req true req resp h]

theorem do_error (net : Net) (req : Request) (err : String)
    (h : net.server net.sent req = .error err) :
    net.Do req = (.error err, { net with sent := net.sent ++ [req] }) := by
  unfold Net.Do Net.follow
  rw [hop_error net req true req err h]

/-- The test of `Submit` for a redirect fails on every answer that `client.Do` returns: the
client has followed the redirects that carry a `Location`. -/
theorem do_not_successRedirect (net : Net) (req : Request) (resp : Response)
    (h : (net.Do req).1 = .ok resp) : successRedirect resp = false := by
  rcases do_ok net req resp h with h1 | h1
  · have h2 : resp.StatusCode ≠ StatusFound := by
      intro e; rw [e] at h1; revert h1; decide
    have h3 : resp.StatusCode ≠ StatusSeeOther := by
      intro e; rw [e] at h1; revert h1; decide
    simp [successRedirect, h2, h3]
  · have hc : ∀ sub : Str, sub ≠ [] → Contains [] sub = false := by
      intro sub hs
      cases sub with
      | nil => exact absurd rfl hs
      | cons c r => rfl
    simp only [successRedirect, h1, hc "/my".toList (by decide), hc "/status".toList (by decide),
      Bool.or_self, Bool.and_false]

/-! ## The session (C1, C2, C9, C10) -/


theorem newSession_eq : NewSession = .ok
    { jar := [], csrfToken := [], handle := [], expiresAt := 0, cfClearance := [],
      cfClearExp := 0, userAgent := UserAgent } := rfl

theorem domainAndType_dot :
    domainAndType "codeforces.com".toList ".codeforces.com".toList =
      some ("codeforces.com".toList, false) := by decide

theorem isCFClearanceValid_iff (s : Session) (now : Time) :
    s.IsCFClearanceValid now = true ↔ s.cfClearance ≠ [] ∧ now < s.cfClearExp := by
  simp [Session.IsCFClearanceValid]

theorem setCFClearance_fields (s : Session) (now : Time) (c ua : Str) (e : Time) :
    (s.SetCFClearance now c ua e).cfClearance = c ∧
      (s.SetCFClearance now c ua e).cfClearExp = e ∧
      (s.SetCFClearance now c ua e).userAgent = ua := by
  simp [Session.SetCFClearance]

theorem setSessionCookies_fields (s : Session) (now : Time) (j k h : Str) :
    (s.SetSessionCookies now j k h).cfClearance = s.cfClearance ∧
      (s.SetSessionCookies now j k h).cfClearExp = s.cfClearExp ∧
      (s.SetSessionCookies now j k h).userAgent = s.userAgent := by
  unfold Session.SetSessionCookies
  simp only
  split_ifs <;> simp

/-- A session that went from a fresh one through `SetCFClearance` alone holds no identity
cookie. -/
theorem setCFClearance_fresh_hasSessionCookies (s0 : Session) (h0 : NewSession = .ok s0)
    (t0 : Time) (tok ua : Str) (exp now : Time) :
    (s0.SetCFClearance t0 tok ua exp).HasSessionCookies now = false := by
  rw [newSession_eq] at h0
  cases h0
  simp only [Session.SetCFClearance, Session.HasSessionCookies, Jar.SetCookies, cfURL,
    Jar.Cookies, List.foldl, Jar.setCookie, newEntry]
  have h1 := domainAndType_dot
  simp only [String.toList] at h1 ⊢
  simp [h1, Jar.put]
  split_ifs <;> simp [Entry.shouldSend]

/-- C1. `IsAuthenticated` is true exactly when the bypass token is non-empty, the clock is
strictly before its expiry, and the jar sends a `JSESSIONID` or `39ce7` cookie to the site;
a fresh session with only the bypass token, one with only identity cookies, and one with
both but with an expired token are not authenticated, while one with both and a live token
is. -/
theorem isAuthenticated_spec :
    (∀ (s : Session) (now : Time),
      s.IsAuthenticated now = true ↔
        s.cfClearance ≠ [] ∧ now < s.cfClearExp ∧
          ∃ c ∈ s.jar.Cookies cfURL now,
            c.Name = "JSESSIONID".toList ∨ c.Name = "39ce7".toList) ∧
    ∃ s0, NewSession = .ok s0 ∧
      (∀ (t0 : Time) (tok ua : Str) (exp now : Time),
        (s0.SetCFClearance t0 tok ua exp).IsAuthenticated now = false) ∧
      (∀ (t0 : Time) (j k h : Str) (now : Time),
        (s0.SetSessionCookies t0 j k h).IsAuthenticated now = false) ∧
      (∀ (t0 : Time) (tok ua : Str) (exp : Time) (j k h : Str) (now : Time), exp ≤ now →
        (s0.SetFullAuth t0 tok ua exp j k h).IsAuthenticated now = false) ∧
      (s0.SetFullAuth 100 "tok".toList "UA".toList 200 "test".toList [] "handle".toList).IsAuthenticated
        150 = true := by
  refine ⟨?_, _, newSession_eq, ?_, ?_, ?_, by decide⟩
  · intro s now
    simp [Session.IsAuthenticated, Session.IsCFClearanceValid, Session.HasSessionCookies,
      and_assoc]
  · intro t0 tok ua exp now
    simp [Session.IsAuthenticated, setCFClearance_fresh_hasSessionCookies _ newSession_eq]
  · intro t0 j k h now
    have hv : ((⟨[], [], [], 0, [], 0, UserAgent⟩ : Session).SetSessionCookies t0 j k
        h).IsCFClearanceValid now = false := by
      simp [Session.IsCFClearanceValid, (setSessionCookies_fields _ t0 j k h).1]
    simp [Session.IsAuthenticated, hv]
  · intro t0 tok ua exp j k h now hle
    have hv : ((⟨[], [], [], 0, [], 0, UserAgent⟩ : Session).SetFullAuth t0 tok ua exp j k
        h).IsCFClearanceValid now = false := by
      have h1 := setSessionCookies_fields
        ((⟨[], [], [], 0, [], 0, UserAgent⟩ : Session).SetCFClearance t0 tok ua exp) t0 j k h
      have h2 := setCFClearance_fields (⟨[], [], [], 0, [], 0, UserAgent⟩ : Session) t0 tok ua exp
      simp only [Session.IsCFClearanceValid, Session.SetFullAuth, h1.1, h1.2.1, h2.1, h2.2.1]
      split_ifs
      · rfl
      · simpa using hle
    simp [Session.IsAuthenticated, hv]

/-- C2. `NewSubmitter` fails unless the session is ready for submission, that is
authenticated with a non-empty handle; when it is ready the call succeeds and the
submitter holds that very session. -/
theorem newSubmitter_spec (session : Session) (now : Time) :
    (session.IsReadyForSubmission now = true ↔
      session.IsAuthenticated now = true ∧ session.handle ≠ []) ∧
    (session.IsReadyForSubmission now = true →
      NewSubmitter session now = .ok { session := session }) ∧
    (session.IsReadyForSubmission now = false →
      NewSubmitter session now =
        .error "session not ready for submission - need cf_clearance + session cookies + handle") ∧
    (∀ sub, NewSubmitter session now = .ok sub →
      sub.session = session ∧ session.IsAuthenticated now = true ∧ session.handle ≠ []) := by
  refine ⟨?_, ?_, ?_, ?_⟩
  · simp [Session.IsReadyForSubmission]
  · intro h
    simp [NewSubmitter, h]
  · intro h
    simp [NewSubmitter, h]
  · intro sub h
    unfold NewSubmitter at h
    split_ifs at h with hr
    cases h
    simpa [Session.IsReadyForSubmission] using hr

/-- A ready session exists and `NewSubmitter` accepts it, a fresh session is refused. -/
theorem newSubmitter_spec_witness :
    (∃ s0, NewSession = .ok s0 ∧
      NewSubmitter (s0.SetFullAuth 100 "tok".toList "UA".toList 200 "test".toList []
          "handle".toList) 150 =
        .ok ⟨s0.SetFullAuth 100 "tok".toList "UA".toList 200 "test".toList [] "handle".toList⟩ ∧
      NewSubmitter s0 150 =
        .error "session not ready for submission - need cf_clearance + session cookies + handle") :=
  ⟨_, newSession_eq,
    (newSubmitter_spec _ 150).2.1 (by decide), (newSubmitter_spec _ 150).2.2.1 (by decide)⟩

/-- C9. After `SetCFClearance(token, ua, expiry)` the clearance is valid at clock value
`now` exactly when the token is non-empty and `now` is strictly before `expiry`; so it is
valid at the time of the call when the expiry is later, and invalid from `expiry` on. -/
theorem isCFClearanceValid_after_set (s : Session) (t0 : Time) (token ua : Str)
    (expiry now : Time) :
    ((s.SetCFClearance t0 token ua expiry).IsCFClearanceValid now = true ↔
      token ≠ [] ∧ now < expiry) ∧
    (token ≠ [] → t0 < expiry →
      (s.SetCFClearance t0 token ua expiry).IsCFClearanceValid t0 = true) ∧
    (expiry ≤ now → (s.SetCFClearance t0 token ua expiry).IsCFClearanceValid now = false) := by
  have hf := setCFClearance_fields s t0 token ua expiry
  refine ⟨?_, ?_, ?_⟩
  · rw [isCFClearanceValid_iff, hf.1, hf.2.1]
  · intro h1 h2
    rw [isCFClearanceValid_iff, hf.1, hf.2.1]
    exact ⟨h1, h2⟩
  · intro h
    cases hb : (s.SetCFClearance t0 token ua expiry).IsCFClearanceValid now
    · rfl
    · rw [isCFClearanceValid_iff, hf.1, hf.2.1] at hb
      exact absurd hb.2 (not_lt.mpr h)

theorem refreshCSRFToken_bypass (s : Session) (net : Net) :
    (s.RefreshCSRFToken net).2.1.bypass = s.bypass := by
  unfold Session.RefreshCSRFToken
  split
  · rfl
  · split
    · rfl
    · simp only
      split_ifs <;> rfl

theorem validate_bypass (s : Session) (net : Net) (now : Time) :
    (s.Validate net now).2.1.bypass = s.bypass := by
  unfold Session.Validate
  split_ifs
  · rfl
  · rfl
  · split
    · rfl
    · split
      · rfl
      · simp only
        split_ifs <;> rfl

/-- C10, as stated, fails at construction: `NewSessionWithUserAgent` records the custom
user-agent and sets neither the bypass token nor its expiry, which stay as in `NewSession`. -/
theorem newSessionWithUserAgent_sets_userAgent_alone :
    ∃ s0 s, NewSession = .ok s0 ∧
      NewSessionWithUserAgent "Custom User Agent/1.0".toList = .ok s ∧
      s.userAgent = "Custom User Agent/1.0".toList ∧ s.userAgent ≠ s0.userAgent ∧
      s.cfClearance = [] ∧ s.cfClearExp = 0 ∧
      s.cfClearance = s0.cfClearance ∧ s.cfClearExp = s0.cfClearExp :=
  ⟨_, _, newSession_eq, rfl, rfl, by decide, rfl, rfl, rfl, rfl⟩

/-- C10, amended. `SetCFClearance` and `SetFullAuth` set the bypass token, its expiry and
the user-agent together from their arguments; `NewSessionWithUserAgent` sets the
user-agent alone and leaves the token empty and the expiry zero; `SetSessionCookies`,
`RefreshCSRFToken` and `Validate` change none of the three. -/
theorem bypass_triple_mutations :
    (∀ (s : Session) (now : Time) (c ua : Str) (e : Time),
      (s.SetCFClearance now c ua e).bypass = (c, e, ua)) ∧
    (∀ (s : Session) (now : Time) (c ua : Str) (e : Time) (j k h : Str),
      (s.SetFullAuth now c ua e j k h).bypass = (c, e, ua)) ∧
    (∀ ua : Str, ∃ s, NewSessionWithUserAgent ua = .ok s ∧ s.bypass = ([], 0, ua)) ∧
    (∀ (s : Session) (now : Time) (j k h : Str),
      (s.SetSessionCookies now j k h).bypass = s.bypass) ∧
    (∀ (s : Session) (net : Net), (s.RefreshCSRFToken net).2.1.bypass = s.bypass) ∧
    (∀ (s : Session) (net : Net) (now : Time), (s.Validate net now).2.1.bypass = s.bypass) := by
  refine ⟨?_, ?_, ?_, ?_, refreshCSRFToken_bypass, validate_bypass⟩
  · intro s now c ua e
    obtain ⟨h1, h2, h3⟩ := setCFClearance_fields s now c ua e
    simp [Session.bypass, h1, h2, h3]
  · intro s now c ua e j k h
    obtain ⟨h1, h2, h3⟩ := setCFClearance_fields s now c ua e
    obtain ⟨h4, h5, h6⟩ := setSessionCookies_fields (s.SetCFClearance now c ua e) now j k h
    simp [Session.bypass, Session.SetFullAuth, h1, h2, h3, h4, h5, h6]
  · intro ua
    exact ⟨_, rfl, rfl⟩
  · intro s now j k h
    obtain ⟨h4, h5, h6⟩ := setSessionCookies_fields s now j k h
    simp [Session.bypass, h4, h5, h6]

/-! ## Regular expressions -/

theorem greedy_nil {α : Type} (p : Char → Bool) (min : Nat) (k : Str → Str → Option α) (acc : Str) :
    greedy p min k acc [] = if min ≤ acc.length then k acc [] else none := rfl

theorem greedy_cons {α : Type} (p : Char → Bool) (min : Nat) (k : Str → Str → Option α)
    (acc : Str) (c : Char) (s : Str) :
    greedy p min k acc (c :: s) =
      if p c then (greedy p min k (acc ++ [c]) s).or (if min ≤ acc.length then k acc (c :: s) else none)
      else if min ≤ acc.length then k acc (c :: s) else none := by
  simp only [greedy]
  split_ifs <;> [skip; skip; rfl; rfl] <;> cases greedy p min k (acc ++ [c]) s <;> simp

theorem matchHere_nil (s : Str) : matchHere [] s = some ([], s) := rfl
theorem matchHere_lit_nil (c : Char) (ts : Regexp) : matchHere (.lit c :: ts) [] = none := rfl
theorem matchHere_lit_cons (c : Char) (ts : Regexp) (d : Char) (s : Str) :
    matchHere (.lit c :: ts) (d :: s) = if d = c then matchHere ts s else none := rfl
theorem matchHere_rep (k : CharClass) (min : Nat) (cap : Bool) (ts : Regexp) (s : Str) :
    matchHere (.rep k min cap :: ts) s = greedy k.test min (contK ts cap) [] s := rfl
theorem contK_apply (ts : Regexp) (cap : Bool) (u v : Str) :
    contK ts cap u v = (matchHere ts v).map (fun r => (if cap then u :: r.1 else r.1, r.2)) := rfl

theorem quote_split_unique (l B x y : Str) (hl : '"' ∉ l) (hB : '"' ∉ B)
    (h : l ++ '"' :: x = B ++ '"' :: y) : l = B ∧ x = y := by
  induction l generalizing B with
  | nil =>
    cases B with
    | nil => simpa using h
    | cons b B' =>
      simp only [List.nil_append, List.cons_append, List.cons.injEq] at h
      exact absurd (h.1 ▸ List.mem_cons_self _ _) hB
  | cons a l' ih =>
    cases B with
    | nil =>
      simp only [List.nil_append, List.cons_append, List.cons.injEq] at h
      exact absurd (h.1 ▸ List.mem_cons_self _ _) hl
    | cons b B' =>
      simp only [List.cons_append, List.cons.injEq] at h
      have := ih B' (fun hm => hl (List.mem_cons_of_mem _ hm))
        (fun hm => hB (List.mem_cons_of_mem _ hm)) h.2
      exact ⟨by rw [h.1, this.1], this.2⟩

theorem quoteHead_spec (ts : Regexp) (l : Str) (h : quoteHead ts = some l) :
    '"' ∉ l ∧ ∀ v, matchHere ts v ≠ none → ∃ x, v = l ++ '"' :: x := by
  induction ts generalizing l with
  | nil => simp [quoteHead] at h
  | cons t ts ih =>
    cases t with
    | rep k m c => simp [quoteHead] at h
    | lit c =>
      simp only [quoteHead] at h
      split_ifs at h with hc
      · cases h
        refine ⟨by simp, ?_⟩
        intro v hv
        cases v with
        | nil => simp [matchHere_lit_nil] at hv
        | cons d s =>
          rw [matchHere_lit_cons] at hv
          split_ifs at hv with hd
          · exact ⟨s, by simp [hd, hc]⟩
          · exact absurd rfl hv
      · cases hq : quoteHead ts with
        | none => simp [hq] at h
        | some l' =>
          simp only [hq, Option.map_some', Option.some.injEq] at h
          subst h
          obtain ⟨h1, h2⟩ := ih l' hq
          refine ⟨?_, ?_⟩
          · simp only [List.mem_cons, not_or]
            exact ⟨fun e => hc e.symm, h1⟩
          · intro v hv
            cases v with
            | nil => simp [matchHere_lit_nil] at hv
            | cons d s =>
              rw [matchHere_lit_cons] at hv
              split_ifs at hv with hd
              · obtain ⟨x, hx⟩ := h2 s hv
                exact ⟨x, by simp [hd, hx]⟩
              · exact absurd rfl hv

/-- A greedy repetition that runs over a block without double quote, followed by a double
quote: when the pattern that follows starts with literal text up to a double quote, the
only place inside the block where it can match is where that text ends the block. -/
theorem greedy_block (p : Char → Bool) (min : Nat) (ts : Regexp) (cap : Bool) (acc B w : Str)
    (hB : '"' ∉ B) (hq : (quoteHead ts).isSome = true)
    (hc : (quoteHead ts).getD [] <:+ B → matchHere ts ((quoteHead ts).getD [] ++ '"' :: w) = none) :
    greedy p min (contK ts cap) acc (B ++ '"' :: w) =
      if B.all p then greedy p min (contK ts cap) (acc ++ B) ('"' :: w) else none := by
  obtain ⟨l, hl⟩ := Option.isSome_iff_exists.mp hq
  simp only [hl, Option.getD_some] at hc
  obtain ⟨hl1, hl2⟩ := quoteHead_spec ts l hl
  induction B generalizing acc with
  | nil => simp
  | cons b B' ih =>
    have hB' : '"' ∉ B' := fun hm => hB (List.mem_cons_of_mem _ hm)
    have hc' : l <:+ B' → matchHere ts (l ++ '"' :: w) = none :=
      fun hs => hc (hs.trans (List.suffix_cons _ _))
    have hfail : contK ts cap acc (b :: B' ++ '"' :: w) = none := by
      rw [contK_apply]
      cases hm : matchHere ts (b :: B' ++ '"' :: w) with
      | none => rfl
      | some r =>
        exfalso
        obtain ⟨x, hx⟩ := hl2 _ (by rw [hm]; simp)
        have hu := quote_split_unique (b :: B') l (w) x hB hl1 (by simpa using hx)
        rw [← hu.1] at hc
        rw [hc (List.suffix_refl _)] at hm
        cases hm
    rw [List.cons_append, greedy_cons, ← List.cons_append, hfail, ih (acc ++ [b]) hB' hc']
    by_cases hb : p b = true <;> simp [hb]

/-- A greedy repetition of `[^"]` followed by a literal double quote, over a block without
double quote that a double quote follows: the repetition takes exactly the block. -/
theorem greedy_notQuote_block (min : Nat) (ts : Regexp) (cap : Bool) (acc B w : Str)
    (hB : '"' ∉ B) :
    greedy notQuote.test min (contK (.lit '"' :: ts) cap) acc (B ++ '"' :: w) =
      if min ≤ (acc ++ B).length then contK (.lit '"' :: ts) cap (acc ++ B) ('"' :: w) else none := by
  induction B generalizing acc with
  | nil => simp [greedy_cons, notQuote, CharClass.test]
  | cons b B' ih =>
    have hB' : '"' ∉ B' := fun hm => hB (List.mem_cons_of_mem _ hm)
    have hb : b ≠ '"' := fun e => hB (e ▸ List.mem_cons_self _ _)
    have hfail : contK (.lit '"' :: ts) cap acc (b :: (B' ++ '"' :: w)) = none := by
      simp [contK_apply, matchHere_lit_cons, hb]
    rw [List.cons_append, greedy_cons, hfail, ih (acc ++ [b]) hB']
    simp [notQuote, CharClass.test, hb]

theorem matchHere_litsHead (re : Regexp) (x : Str) :
    matchHere re (litsHead re ++ x) = matchHere (afterLits re) x := by
  induction re with
  | nil => rfl
  | cons t ts ih =>
    cases t with
    | rep k m c => rfl
    | lit c => simpa [litsHead, afterLits, matchHere_lit_cons] using ih

theorem matchHere_needs_litsHead (re : Regexp) (v : Str) (h : matchHere re v ≠ none) :
    ∃ x, v = litsHead re ++ x := by
  induction re generalizing v with
  | nil => exact ⟨v, rfl⟩
  | cons t ts ih =>
    cases t with
    | rep k m c => exact ⟨v, rfl⟩
    | lit c =>
      cases v with
      | nil => exact absurd rfl h
      | cons d s =>
        rw [matchHere_lit_cons] at h
        split_ifs at h with hd
        · obtain ⟨x, hx⟩ := ih s h
          exact ⟨x, by simp [litsHead, hd, hx]⟩
        · exact absurd rfl h

/-- A text without double quote that starts `B ++ '"' :: w` starts `B`. -/
theorem prefix_of_block (L B w x : Str) (hL : '"' ∉ L) (h : B ++ '"' :: w = L ++ x) :
    ∃ C, B = L ++ C := by
  induction L generalizing B with
  | nil => exact ⟨B, rfl⟩
  | cons a L' ih =>
    cases B with
    | nil =>
      simp only [List.nil_append, List.cons_append, List.cons.injEq] at h
      exact absurd (h.1 ▸ List.mem_cons_self _ _) hL
    | cons b B' =>
      simp only [List.cons_append, List.cons.injEq] at h
      obtain ⟨C, hC⟩ := ih B' (fun hm => hL (List.mem_cons_of_mem _ hm)) h.2
      exact ⟨C, by rw [h.1, hC]; rfl⟩

/-- Inside a block without double quote that a double quote follows, a pattern made of
literal text, a repetition and a continuation that starts with literal text up to a
double quote matches nowhere, provided it fails from the closing quote on. -/
theorem matchHere_in_block (re : Regexp) (k : CharClass) (min : Nat) (cap : Bool)
    (ts : Regexp) (B w : Str) (hre : afterLits re = .rep k min cap :: ts)
    (hL : '"' ∉ litsHead re) (hB : '"' ∉ B) (hq : (quoteHead ts).isSome = true)
    (hc : (quoteHead ts).getD [] <:+ B →
      matchHere ts ((quoteHead ts).getD [] ++ '"' :: w) = none)
    (hrest : ∀ acc, greedy k.test min (contK ts cap) acc ('"' :: w) = none)
    (B' : Str) (hs : B' <:+ B) : matchHere re (B' ++ '"' :: w) = none := by
  by_contra hne
  obtain ⟨x, hx⟩ := matchHere_needs_litsHead re _ hne
  have hB' : '"' ∉ B' := fun hm => hB (hs.subset hm)
  obtain ⟨C, hC⟩ := prefix_of_block (litsHead re) B' w x hL hx
  have hCB : C <:+ B := (List.suffix_append _ _).trans (hC ▸ hs)
  have hCq : '"' ∉ C := fun hm => hB (hCB.subset hm)
  apply hne
  rw [hC, List.append_assoc, matchHere_litsHead, hre, matchHere_rep,
    greedy_block _ _ _ _ _ _ _ hCq hq (fun h => hc (h.trans hCB))]
  simp [hrest]

theorem findFirst_cons (re : Regexp) (c : Char) (s : Str) :
    findFirst re (c :: s) =
      match matchHere re (c :: s) with
      | some r => some ((c :: s).take ((c :: s).length - r.2.length) :: r.1, r.2)
      | none => findFirst re s := rfl

theorem findFirst_in_block (re : Regexp) (k : CharClass) (min : Nat) (cap : Bool)
    (ts : Regexp) (B w : Str) (hre : afterLits re = .rep k min cap :: ts)
    (hL : '"' ∉ litsHead re) (hB : '"' ∉ B) (hq : (quoteHead ts).isSome = true)
    (hc : (quoteHead ts).getD [] <:+ B →
      matchHere ts ((quoteHead ts).getD [] ++ '"' :: w) = none)
    (hrest : ∀ acc, greedy k.test min (contK ts cap) acc ('"' :: w) = none)
    (B' : Str) (hs : B' <:+ B) : findFirst re (B' ++ '"' :: w) = findFirst re ('"' :: w) := by
  induction B' with
  | nil => rfl
  | cons b B'' ih =>
    rw [List.cons_append, findFirst_cons, ← List.cons_append,
      matchHere_in_block re k min cap ts B w hre hL hB hq hc hrest _ hs]
    exact ih ((List.suffix_cons _ _).trans hs)

theorem findAllFrom_zero_cons (re : Regexp) (c : Char) (s : Str) :
    findAllFrom re 0 (c :: s) =
      match matchHere re (c :: s) with
      | some r =>
        ((c :: s).take ((c :: s).length - r.2.length) :: r.1) ::
          findAllFrom re ((c :: s).length - r.2.length - 1) s
      | none => findAllFrom re 0 s := rfl

theorem findAllFrom_in_block (re : Regexp) (k : CharClass) (min : Nat) (cap : Bool)
    (ts : Regexp) (B w : Str) (hre : afterLits re = .rep k min cap :: ts)
    (hL : '"' ∉ litsHead re) (hB : '"' ∉ B) (hq : (quoteHead ts).isSome = true)
    (hc : (quoteHead ts).getD [] <:+ B →
      matchHere ts ((quoteHead ts).getD [] ++ '"' :: w) = none)
    (hrest : ∀ acc, greedy k.test min (contK ts cap) acc ('"' :: w) = none)
    (B' : Str) (hs : B' <:+ B) :
    findAllFrom re 0 (B' ++ '"' :: w) = findAllFrom re 0 ('"' :: w) := by
  induction B' with
  | nil => rfl
  | cons b B'' ih =>
    rw [List.cons_append, findAllFrom_zero_cons, ← List.cons_append,
      matchHere_in_block re k min cap ts B w hre hL hB hq hc hrest _ hs]
    exact ih ((List.suffix_cons _ _).trans hs)

theorem findAllFrom_skip (re : Regexp) (x y : Str) :
    findAllFrom re x.length (x ++ y) = findAllFrom re 0 y := by
  induction x with
  | nil => rfl
  | cons a x ih => simpa [findAllFrom] using ih

/-- A match at the start of the text is the first of all matches, and the search goes on
behind it. -/
theorem findAllFrom_match (re : Regexp) (c : Char) (x r : Str) (caps : List Str)
    (h : matchHere re (c :: x ++ r) = some (caps, r)) :
    findAllFrom re 0 (c :: x ++ r) = ((c :: x) :: caps) :: findAllFrom re 0 r := by
  rw [List.cons_append, findAllFrom_zero_cons, ← List.cons_append, h]
  have hlen : (c :: x ++ r).length - r.length = (c :: x).length := by
    simp only [List.length_cons, List.length_append]; omega
  simp only [hlen]
  rw [List.take_left' rfl]
  simp only [List.length_cons, Nat.add_sub_cancel]
  rw [findAllFrom_skip]

theorem findFirst_match (re : Regexp) (c : Char) (x r : Str) (caps : List Str)
    (h : matchHere re (c :: x ++ r) = some (caps, r)) :
    findFirst re (c :: x ++ r) = some ((c :: x) :: caps, r) := by
  rw [List.cons_append, findFirst_cons, ← List.cons_append, h]
  have hlen : (c :: x ++ r).length - r.length = (c :: x).length := by
    simp only [List.length_cons, List.length_append]; omega
  simp only [hlen]
  rw [List.take_left' rfl]


theorem findFirst_nil (re : Regexp) :
    findFirst re [] = (matchHere re []).map (fun r => ([] :: r.1, r.2)) := rfl

theorem greedy_some {α : Type} (p : Char → Bool) (min : Nat) (k : Str → Str → Option α)
    (acc s : Str) (r : α) (h : greedy p min k acc s = some r) :
    ∃ u v, s = u ++ v ∧ k (acc ++ u) v = some r := by
  induction s generalizing acc with
  | nil =>
    rw [greedy_nil] at h
    split_ifs at h
    exact ⟨[], [], rfl, by simpa using h⟩
  | cons c s ih =>
    rw [greedy_cons] at h
    have hk : (if min ≤ acc.length then k acc (c :: s) else none) = some r →
        ∃ u v, c :: s = u ++ v ∧ k (acc ++ u) v = some r := by
      intro h'
      by_cases hm : min ≤ acc.length
      · rw [if_pos hm] at h'
        exact ⟨[], c :: s, rfl, by simpa using h'⟩
      · rw [if_neg hm] at h'
        cases h'
    by_cases hp : p c = true
    · rw [if_pos hp] at h
      cases hg : greedy p min k (acc ++ [c]) s with
      | some r' =>
        rw [hg] at h
        simp only [Option.or_some, Option.some.injEq] at h
        subst h
        obtain ⟨u, v, hs, hu⟩ := ih _ hg
        exact ⟨c :: u, v, by rw [hs]; rfl, by simpa using hu⟩
      | none =>
        rw [hg] at h
        exact hk (by simpa using h)
    · rw [if_neg hp] at h
      exact hk h

/-- A match yields one text per capture group; every such text is a piece of the matched
text, and what follows the match is its end. -/
theorem matchHere_some (re : Regexp) (s : Str) (caps : List Str) (r : Str)
    (h : matchHere re s = some (caps, r)) :
    caps.length = groupCount re ∧ (∀ c ∈ caps, c <:+: s) ∧ r <:+ s := by
  induction re generalizing s caps r with
  | nil =>
    simp only [matchHere_nil, Option.some.injEq, Prod.mk.injEq] at h
    obtain ⟨h1, h2⟩ := h
    subst h1 h2
    exact ⟨rfl, by simp, List.suffix_refl _⟩
  | cons t ts ih =>
    cases t with
    | lit c =>
      cases s with
      | nil => simp [matchHere_lit_nil] at h
      | cons d s' =>
        rw [matchHere_lit_cons] at h
        split_ifs at h
        obtain ⟨h1, h2, h3⟩ := ih s' caps r h
        exact ⟨h1, fun c hc => (h2 c hc).trans (List.suffix_cons _ _).isInfix,
          h3.trans (List.suffix_cons _ _)⟩
    | rep k m cap =>
      rw [matchHere_rep] at h
      obtain ⟨u, v, hs, hk⟩ := greedy_some _ _ _ _ _ _ h
      rw [contK_apply] at hk
      cases hm : matchHere ts v with
      | none => simp [hm] at hk
      | some r' =>
        obtain ⟨caps', r''⟩ := r'
        obtain ⟨h1, h2, h3⟩ := ih v caps' r'' hm
        simp only [hm, Option.map_some', List.nil_append, Option.some.injEq,
          Prod.mk.injEq] at hk
        obtain ⟨hk1, hk2⟩ := hk
        subst hk1 hk2 hs
        have hv : v <:+ u ++ v := List.suffix_append _ _
        refine ⟨?_, ?_, h3.trans hv⟩
        · cases cap <;> simp [groupCount, h1, Nat.add_comm]
        · intro c hc
          have hc' : c = u ∨ c ∈ caps' := by
            cases cap <;> simp at hc <;> tauto
          rcases hc' with hc' | hc'
          · rw [hc']
            exact (List.prefix_append _ _).isInfix
          · exact (h2 c hc').trans hv.isInfix

theorem findFirst_some (re : Regexp) (s : Str) (m : List Str) (r : Str)
    (h : findFirst re s = some (m, r)) :
    m.length = groupCount re + 1 ∧ ∀ c ∈ m.tail, c <:+: s := by
  induction s with
  | nil =>
    rw [findFirst_nil] at h
    cases hm : matchHere re [] with
    | none => simp [hm] at h
    | some r' =>
      obtain ⟨h1, h2, _⟩ := matchHere_some re [] r'.1 r'.2 hm
      simp only [hm, Option.map_some', Option.some.injEq, Prod.mk.injEq] at h
      obtain ⟨hh, _⟩ := h
      subst hh
      exact ⟨by simp [h1], by simpa using h2⟩
  | cons c s ih =>
    rw [findFirst_cons] at h
    cases hm : matchHere re (c :: s) with
    | none =>
      rw [hm] at h
      obtain ⟨h1, h2⟩ := ih h
      exact ⟨h1, fun x hx => (h2 x hx).trans (List.suffix_cons _ _).isInfix⟩
    | some r' =>
      obtain ⟨h1, h2, _⟩ := matchHere_some re (c :: s) r'.1 r'.2 hm
      simp only [hm, Option.some.injEq, Prod.mk.injEq] at h
      obtain ⟨hh, _⟩ := h
      subst hh
      exact ⟨by simp [h1], by simpa using h2⟩

/-- The leftmost search finds nothing exactly when the pattern matches at no position. -/
theorem findFirst_eq_none_iff (re : Regexp) (s : Str) :
    findFirst re s = none ↔ ∀ pre suf, s = pre ++ suf → matchHere re suf = none := by
  induction s with
  | nil =>
    rw [findFirst_nil]
    constructor
    · intro h pre suf hs
      have : suf = [] := (List.append_eq_nil.mp hs.symm).2
      subst this
      simpa using h
    · intro h
      simp [h [] [] rfl]
  | cons c s ih =>
    rw [findFirst_cons]
    constructor
    · intro h pre suf hs
      cases hm : matchHere re (c :: s) with
      | some r' => simp [hm] at h
      | none =>
        rw [hm] at h
        cases pre with
        | nil =>
          simp only [List.nil_append] at hs
          rw [← hs, hm]
        | cons a pre' =>
          simp only [List.cons_append, List.cons.injEq] at hs
          exact ih.mp h pre' suf hs.2
    · intro h
      rw [h [] (c :: s) rfl]
      exact ih.mpr (fun pre suf hs => h (c :: pre) suf (by rw [hs]; rfl))

theorem findAllFrom_some (re : Regexp) (skip : Nat) (s : Str) :
    ∀ m ∈ findAllFrom re skip s, m.length = groupCount re + 1 ∧ ∀ c ∈ m.tail, c <:+: s := by
  induction s generalizing skip with
  | nil =>
    intro m hm
    cases skip with
    | succ n => simp [findAllFrom] at hm
    | zero =>
      simp only [findAllFrom, if_true] at hm
      cases hr : matchHere re [] with
      | none => simp [hr] at hm
      | some r' =>
        obtain ⟨h1, h2, _⟩ := matchHere_some re [] r'.1 r'.2 hr
        simp only [hr, List.mem_singleton] at hm
        subst hm
        exact ⟨by simp [h1], by simpa using h2⟩
  | cons c s ih =>
    intro m hm
    have hcons : ∀ k, ∀ m ∈ findAllFrom re k s,
        m.length = groupCount re + 1 ∧ ∀ x ∈ m.tail, x <:+: c :: s :=
      fun k m hm => ⟨(ih k m hm).1,
        fun x hx => ((ih k m hm).2 x hx).trans (List.suffix_cons _ _).isInfix⟩
    cases skip with
    | succ n => exact hcons n m (by simpa [findAllFrom] using hm)
    | zero =>
      rw [findAllFrom_zero_cons] at hm
      cases hr : matchHere re (c :: s) with
      | none =>
        rw [hr] at hm
        exact hcons 0 m hm
      | some r' =>
        obtain ⟨h1, h2, _⟩ := matchHere_some re (c :: s) r'.1 r'.2 hr
        simp only [hr, List.mem_cons] at hm
        rcases hm with hm | hm
        · subst hm
          exact ⟨by simp [h1], by simpa using h2⟩
        · exact hcons _ m hm
theorem findFirst_block_input (k : CharClass) (min : Nat) (cap : Bool) (ts : Regexp) (B w : Str)
    (hB : '"' ∉ B) (hq : (quoteHead ts).isSome = true)
    (hc : (quoteHead ts).getD [] <:+ B →
      matchHere ts ((quoteHead ts).getD [] ++ '"' :: w) = none)
    (hrest : ∀ acc, greedy k.test min (contK ts cap) acc ('"' :: w) = none) :
    findFirst (.lit '<' :: .lit 'i' :: .lit 'n' :: .lit 'p' :: .lit 'u' :: .lit 't' ::
        .rep k min cap :: ts) (B ++ '"' :: w) =
      findFirst (.lit '<' :: .lit 'i' :: .lit 'n' :: .lit 'p' :: .lit 'u' :: .lit 't' ::
        .rep k min cap :: ts) ('"' :: w) :=
  findFirst_in_block (.lit '<' :: .lit 'i' :: .lit 'n' :: .lit 'p' :: .lit 'u' :: .lit 't' ::
    .rep k min cap :: ts) k min cap ts B w rfl (by simp [litsHead]) hB hq hc hrest B
    (List.suffix_refl _)

theorem reCSRFInput1_eq : reCSRFInput1 =
  [.lit '<', .lit 'i', .lit 'n', .lit 'p', .lit 'u', .lit 't', .rep notGt 1 false,
   .lit 'n', .lit 'a', .lit 'm', .lit 'e', .lit '=', .lit '"', .lit 'c', .lit 's', .lit 'r', .lit 'f', .lit '_', .lit 't', .lit 'o', .lit 'k', .lit 'e', .lit 'n', .lit '"',
   .rep notGt 1 false, .lit 'v', .lit 'a', .lit 'l', .lit 'u', .lit 'e', .lit '=', .lit '"', .rep notQuote 1 true, .lit '"'] := by decide

theorem reCSRFInput2_eq : reCSRFInput2 =
  [.lit '<', .lit 'i', .lit 'n', .lit 'p', .lit 'u', .lit 't', .rep notGt 1 false,
   .lit 'v', .lit 'a', .lit 'l', .lit 'u', .lit 'e', .lit '=', .lit '"', .rep notQuote 1 true, .lit '"',
   .rep notGt 1 false,
   .lit 'n', .lit 'a', .lit 'm', .lit 'e', .lit '=', .lit '"', .lit 'c', .lit 's', .lit 'r', .lit 'f', .lit '_', .lit 't', .lit 'o', .lit 'k', .lit 'e', .lit 'n', .lit '"'] := by decide

/-! ## `Submit` (C3, C4) -/

/-- Once the client has returned `resp` for the POST request, `Submit` is the
interpretation of `resp`. -/
theorem submit_eq_interpret (s : Submitter) (net : Net) (now : Time) (contestID : Int)
    (problemIndex : Str) (langID : Int) (sourceCode body : Str) (resp : Response)
    (h : PostAnswered net contestID problemIndex langID sourceCode body resp) :
    s.Submit net now contestID problemIndex langID sourceCode =
      s.interpret (afterPost net contestID problemIndex langID sourceCode body) now contestID
        problemIndex resp := by
  obtain ⟨page, hget, hread, htok, hpost⟩ := h
  unfold afterPost
  unfold afterGet at hpost ⊢
  simp only [Submitter.Submit, Submitter.get]
  rcases hg : net.Do (getRequest (contestSubmitURL contestID)) with ⟨r, net1⟩
  rw [hg] at hget hpost
  simp only at hget hpost
  subst hget
  simp only [hread, htok, if_false]
  rcases hp : net1.Do (postRequest (contestSubmitURL contestID)
    (submitForm body (extractCSRFToken body) problemIndex langID sourceCode)) with ⟨r2, net2⟩
  rw [hp] at hpost
  simp only at hpost
  subst hpost
  rfl

/-- The test for a redirect never succeeds on the answer that `Submit` gets for its POST
request. -/
theorem postAnswered_not_successRedirect (net : Net) (contestID : Int) (problemIndex : Str)
    (langID : Int) (sourceCode body : Str) (resp : Response)
    (h : PostAnswered net contestID problemIndex langID sourceCode body resp) :
    successRedirect resp = false := by
  obtain ⟨_, _, _, _, hpost⟩ := h
  exact do_not_successRedirect _ _ _ hpost

/-- Answers of the server that are not redirects to follow are what `Submit` gets: the
submit page for the GET request, and `resp` for the POST request. -/
theorem postAnswered_of_plain (net : Net) (contestID : Int) (problemIndex : Str)
    (langID : Int) (sourceCode body : Str) (page resp : Response)
    (hget : PlainAnswer net (getRequest (contestSubmitURL contestID)) page)
    (hread : readAllLimited page.Body MaxPageSize = (body, none))
    (htok : extractCSRFToken body ≠ [])
    (hpost : PlainAnswer { net with sent := net.sent ++ [getRequest (contestSubmitURL contestID)] }
      (postRequest (contestSubmitURL contestID)
        (submitForm body (extractCSRFToken body) problemIndex langID sourceCode)) resp) :
    PostAnswered net contestID problemIndex langID sourceCode body resp := by
  refine ⟨page, by rw [do_plain net _ page hget], hread, htok, ?_⟩
  unfold afterGet
  rw [do_plain net _ page hget]
  simp only
  rw [do_plain _ _ resp hpost]

set_option maxRecDepth 100000 in
theorem sample_postAnswered (post : Response)
    (hplain : redirectStatus post.StatusCode = false ∨
      headerGet post.Header "Location".toList = []) :
    PostAnswered (sampleNet post) 1 "A".toList 54 "int main(){}".toList samplePage post :=
  postAnswered_of_plain (sampleNet post) 1 "A".toList 54 "int main(){}".toList samplePage
    { StatusCode := 200, Body := { data := samplePage } } post ⟨rfl, Or.inl rfl⟩ (by decide)
    (by decide) ⟨rfl, hplain⟩

set_option maxRecDepth 100000 in
/-- C3, as stated, fails on a redirect: the server answers the POST request with a 302 to
`/contest/1/my` whose body holds the duplicate phrase. The client follows the redirect, the
body of the 302 answer is never read, and `Submit` returns the latest submission. -/
theorem submit_redirect_with_duplicate_phrase :
    (sampleNet redirectWithDuplicatePhrase).server [getRequest (contestSubmitURL 1)]
        (postRequest (contestSubmitURL 1)
          (submitForm samplePage (extractCSRFToken samplePage) "A".toList 54
            "int main(){}".toList)) = .ok redirectWithDuplicatePhrase ∧
      Contains redirectWithDuplicatePhrase.Body.data
        "You have submitted exactly the same code before".toList = true ∧
      ((afterGet (sampleNet redirectWithDuplicatePhrase) 1).Do
          (postRequest (contestSubmitURL 1)
            (submitForm samplePage (extractCSRFToken samplePage) "A".toList 54
              "int main(){}".toList))).1 =
        .ok { StatusCode := 200, Body := { data := myPage } } ∧
      (Submitter.Submit ⟨blankSession⟩ (sampleNet redirectWithDuplicatePhrase) 7 1 "A".toList 54
          "int main(){}".toList).1 =
        .ok { SubmissionID := 4242, ContestID := 1, ProblemIndex := "A".toList,
              Verdict := "OK".toList, Time := 46000000, Memory := 102400, PassedTests := 0,
              SubmittedAt := 7, Status := "Judged".toList } ∧
      (Submitter.Submit ⟨blankSession⟩ (sampleNet redirectWithDuplicatePhrase) 7 1 "A".toList 54
          "int main(){}".toList).2.sent.map (fun r => (r.Method, r.URL)) =
        [("GET".toList, "https://codeforces.com/contest/1/submit".toList),
         ("POST".toList, "https://codeforces.com/contest/1/submit".toList),
         ("GET".toList, "https://codeforces.com/contest/1/my".toList),
         ("GET".toList, "https://codeforces.com/contest/1/my".toList)] :=
  ⟨rfl, by decide, by decide, by decide, by decide⟩

set_option maxRecDepth 100000 in
/-- The test of `Submit` for a redirect is dead code: when the POST request is answered
with a 302 to `/contest/1/my`, the client follows it and `Submit` scans the page it lands
on; as that page holds the text `Contest is over`, `Submit` returns the contest-over error
for a submission that the site accepted. -/
theorem submit_landing_page_scanned :
    finishedContestNet.server [getRequest (contestSubmitURL 1)]
        (postRequest (contestSubmitURL 1)
          (submitForm samplePage (extractCSRFToken samplePage) "A".toList 54
            "int main(){}".toList)) = .ok redirectToMy ∧
      successRedirect redirectToMy = true ∧
      (Submitter.Submit ⟨blankSession⟩ finishedContestNet 7 1 "A".toList 54
          "int main(){}".toList).1 = .error "contest is over" ∧
      (Submitter.Submit ⟨blankSession⟩ finishedContestNet 7 1 "A".toList 54
          "int main(){}".toList).2.sent.map (fun r => (r.Method, r.URL)) =
        [("GET".toList, "https://codeforces.com/contest/1/submit".toList),
         ("POST".toList, "https://codeforces.com/contest/1/submit".toList),
         ("GET".toList, "https://codeforces.com/contest/1/my".toList)] :=
  ⟨rfl, by decide, by decide, by decide⟩

/-- C3, amended. When the answer that the client returns for the POST request (the answer
of the server, or the answer at the end of the redirects that the client followed) has a
body that, as read within the size cap, contains the duplicate phrase, `Submit` returns the
duplicate-submission error and no result. -/
theorem submit_duplicate (s : Submitter) (net : Net) (now : Time) (contestID : Int)
    (problemIndex : Str) (langID : Int) (sourceCode body : Str) (resp : Response)
    (h : PostAnswered net contestID problemIndex langID sourceCode body resp)
    (hdup : Contains (readAllLimited resp.Body MaxPageSize).1
      "You have submitted exactly the same code before".toList = true) :
    (s.Submit net now contestID problemIndex langID sourceCode).1 =
      .error "duplicate submission: you have submitted exactly the same code before" := by
  have hnr := postAnswered_not_successRedirect net contestID problemIndex langID sourceCode body
    resp h
  rw [submit_eq_interpret s net now contestID problemIndex langID sourceCode body resp h]
  simp only [Submitter.interpret, hnr, hdup, if_true, Bool.false_eq_true, if_false]

set_option maxRecDepth 100000 in
theorem submit_duplicate_witness :
    (Submitter.Submit ⟨blankSession⟩ (sampleNet duplicateAnswer) 7 1 "A".toList 54
        "int main(){}".toList).1 =
      .error "duplicate submission: you have submitted exactly the same code before" :=
  submit_duplicate ⟨blankSession⟩ (sampleNet duplicateAnswer) 7 1 "A".toList 54
    "int main(){}".toList samplePage duplicateAnswer (sample_postAnswered _ (Or.inl (by decide)))
    (by decide)

set_option maxRecDepth 100000 in
/-- C4, as stated, fails on status 200: a plain `200 OK` answer without any failure phrase
makes `Submit` return the latest submission. -/
theorem submit_plain_ok_returns_result :
    PostAnswered (sampleNet plainOK) 1 "A".toList 54 "int main(){}".toList samplePage plainOK ∧
      successRedirect plainOK = false ∧ plainOK.StatusCode = 200 ∧
      Contains plainOK.Body.data "You have submitted exactly the same code before".toList = false ∧
      Contains plainOK.Body.data "Source code is too long".toList = false ∧
      Contains plainOK.Body.data "You are not allowed to submit".toList = false ∧
      Contains plainOK.Body.data "Contest is over".toList = false ∧
      (Submitter.Submit ⟨blankSession⟩ (sampleNet plainOK) 7 1 "A".toList 54
          "int main(){}".toList).1 =
        .ok { SubmissionID := 4242, ContestID := 1, ProblemIndex := "A".toList,
              Verdict := "OK".toList, Time := 46000000, Memory := 102400, PassedTests := 0,
              SubmittedAt := 7, Status := "Judged".toList } :=
  ⟨sample_postAnswered _ (Or.inl (by decide)), by decide, by decide, by decide, by decide,
    by decide, by decide, by decide⟩

/-- C4, amended. When the answer that the client returns for the POST request (every
answer of the server that is not a redirect is such an answer) has a body that, as read
within the size cap, contains none of the four failure phrases: if its status is not 200,
`Submit` fails with the generic error that carries the status code; if its status is 200,
`Submit` returns what `getLatestSubmission` returns. -/
theorem submit_generic_failure (s : Submitter) (net : Net) (now : Time) (contestID : Int)
    (problemIndex : Str) (langID : Int) (sourceCode body : Str) (resp : Response)
    (h : PostAnswered net contestID problemIndex langID sourceCode body resp)
    (h1 : Contains (readAllLimited resp.Body MaxPageSize).1
      "You have submitted exactly the same code before".toList = false)
    (h2 : Contains (readAllLimited resp.Body MaxPageSize).1
      "Source code is too long".toList = false)
    (h3 : Contains (readAllLimited resp.Body MaxPageSize).1
      "You are not allowed to submit".toList = false)
    (h4 : Contains (readAllLimited resp.Body MaxPageSize).1 "Contest is over".toList = false) :
    (resp.StatusCode ≠ 200 →
      (s.Submit net now contestID problemIndex langID sourceCode).1 =
        .error ("submission failed (status " ++ String.mk (Itoa resp.StatusCode) ++ ")")) ∧
    (resp.StatusCode = 200 →
      s.Submit net now contestID problemIndex langID sourceCode =
        s.getLatestSubmission (afterPost net contestID problemIndex langID sourceCode body) now
          contestID problemIndex) := by
  have hnr := postAnswered_not_successRedirect net contestID problemIndex langID sourceCode body
    resp h
  rw [submit_eq_interpret s net now contestID problemIndex langID sourceCode body resp h]
  constructor
  · intro hok
    simp only [Submitter.interpret, hnr, h1, h2, h3, h4, Bool.false_eq_true, if_false, StatusOK,
      if_neg hok]
  · intro hok
    simp only [Submitter.interpret, hnr, h1, h2, h3, h4, Bool.false_eq_true, if_false, StatusOK,
      if_pos hok]

set_option maxRecDepth 100000 in
theorem submit_generic_failure_witness :
    (Submitter.Submit ⟨blankSession⟩ (sampleNet serverError) 7 1 "A".toList 54
        "int main(){}".toList).1 = .error "submission failed (status 500)" ∧
    Submitter.Submit ⟨blankSession⟩ (sampleNet plainOK) 7 1 "A".toList 54
        "int main(){}".toList =
      Submitter.getLatestSubmission ⟨blankSession⟩
        (afterPost (sampleNet plainOK) 1 "A".toList 54 "int main(){}".toList samplePage) 7 1
        "A".toList :=
  ⟨(submit_generic_failure ⟨blankSession⟩ (sampleNet serverError) 7 1 "A".toList 54
      "int main(){}".toList samplePage serverError (sample_postAnswered _ (Or.inl (by decide)))
      (by decide) (by decide) (by decide) (by decide)).1 (by decide),
    (submit_generic_failure ⟨blankSession⟩ (sampleNet plainOK) 7 1 "A".toList 54
      "int main(){}".toList samplePage plainOK (sample_postAnswered _ (Or.inl (by decide)))
      (by decide) (by decide) (by decide) (by decide)).2 (by decide)⟩

/-! ## CSRF token extraction (C6, C7) -/

theorem reCSRFMeta_eq : reCSRFMeta =
    [.lit '<', .lit 'm', .lit 'e', .lit 't', .lit 'a', .rep notGt 1 false,
     .lit 'n', .lit 'a', .lit 'm', .lit 'e', .lit '=', .lit '"', .lit 'X', .lit '-', .lit 'C',
     .lit 's', .lit 'r', .lit 'f', .lit '-', .lit 'T', .lit 'o', .lit 'k', .lit 'e', .lit 'n',
     .lit '"', .rep notGt 1 false, .lit 'c', .lit 'o', .lit 'n', .lit 't', .lit 'e', .lit 'n',
     .lit 't', .lit '=', .lit '"', .rep notQuote 1 true, .lit '"'] := by decide

/-- The result of `extractCSRFToken` when the first pattern has a match. -/
theorem extractCSRFToken_of_first (doc : Str) (m : List Str) (r : Str)
    (h : findFirst reCSRFInput1 doc = some (m, r)) : extractCSRFToken doc = idx m 1 := by
  have hl := (findFirst_some _ _ _ _ h).1
  have hg : groupCount reCSRFInput1 = 1 := by decide
  simp [extractCSRFToken, FindStringSubmatch, h, hl, hg]

theorem extractCSRFToken_of_second (doc : Str) (m : List Str) (r : Str)
    (h1 : findFirst reCSRFInput1 doc = none)
    (h : findFirst reCSRFInput2 doc = some (m, r)) : extractCSRFToken doc = idx m 1 := by
  have hl := (findFirst_some _ _ _ _ h).1
  have hg : groupCount reCSRFInput2 = 1 := by decide
  simp [extractCSRFToken, FindStringSubmatch, h1, h, hl, hg]

theorem extractCSRFToken_of_third (doc : Str) (m : List Str) (r : Str)
    (h1 : findFirst reCSRFInput1 doc = none) (h2 : findFirst reCSRFInput2 doc = none)
    (h : findFirst reCSRFMeta doc = some (m, r)) : extractCSRFToken doc = idx m 1 := by
  have hl := (findFirst_some _ _ _ _ h).1
  have hg : groupCount reCSRFMeta = 1 := by decide
  simp [extractCSRFToken, FindStringSubmatch, h1, h2, h, hl, hg]

theorem extractCSRFToken_of_fourth (doc : Str) (m : List Str) (r : Str)
    (h1 : findFirst reCSRFInput1 doc = none) (h2 : findFirst reCSRFInput2 doc = none)
    (h3 : findFirst reCSRFMeta doc = none)
    (h : findFirst reCSRFJS doc = some (m, r)) : extractCSRFToken doc = idx m 1 := by
  have hl := (findFirst_some _ _ _ _ h).1
  have hg : groupCount reCSRFJS = 1 := by decide
  simp [extractCSRFToken, FindStringSubmatch, h1, h2, h3, h, hl, hg]

theorem extractCSRFToken_of_none (doc : Str)
    (h1 : findFirst reCSRFInput1 doc = none) (h2 : findFirst reCSRFInput2 doc = none)
    (h3 : findFirst reCSRFMeta doc = none) (h4 : findFirst reCSRFJS doc = none) :
    extractCSRFToken doc = [] := by
  simp [extractCSRFToken, FindStringSubmatch, h1, h2, h3, h4]

set_option maxHeartbeats 1000000 in
theorem csrf_input1_nameFirst (t : Str) (ht : t ≠ []) (hq : '"' ∉ t) :
    matchHere reCSRFInput1
        ("<input name=\"csrf_token\" value=\"".toList ++ t ++ "\"/>".toList) =
      some ([t], "/>".toList) := by
  rw [reCSRFInput1_eq]
  simp [matchHere_nil, matchHere_lit_nil, matchHere_lit_cons, matchHere_rep, greedy_nil,
    greedy_cons, contK_apply, greedy_block, greedy_notQuote_block, quoteHead, hq, ht,
    CharClass.test, notGt]

set_option maxHeartbeats 1000000 in
theorem csrf_input1_valueFirst (t : Str) (hq : '"' ∉ t) :
    findFirst reCSRFInput1
        ("<input value=\"".toList ++ t ++ "\" name=\"csrf_token\"/>".toList) = none := by
  rw [reCSRFInput1_eq]
  simp [findFirst_cons, findFirst_nil, findFirst_block_input, matchHere_nil, matchHere_lit_nil,
    matchHere_lit_cons, matchHere_rep, greedy_nil, greedy_cons, contK_apply, greedy_block,
    greedy_notQuote_block, quoteHead, hq, CharClass.test, notGt]

set_option maxHeartbeats 1000000 in
theorem csrf_input2_valueFirst (t : Str) (ht : t ≠ []) (hq : '"' ∉ t) :
    matchHere reCSRFInput2
        ("<input value=\"".toList ++ t ++ "\" name=\"csrf_token\"/>".toList) =
      some ([t], "/>".toList) := by
  rw [reCSRFInput2_eq]
  simp [matchHere_nil, matchHere_lit_nil, matchHere_lit_cons, matchHere_rep, greedy_nil,
    greedy_cons, contK_apply, greedy_block, greedy_notQuote_block, quoteHead, hq, ht,
    CharClass.test, notGt]

set_option maxHeartbeats 1000000 in
theorem csrf_input1_meta (t : Str) (hq : '"' ∉ t) :
    findFirst reCSRFInput1
        ("<meta name=\"X-Csrf-Token\" content=\"".toList ++ t ++ "\"/>".toList) = none := by
  rw [reCSRFInput1_eq]
  simp [findFirst_cons, findFirst_nil, findFirst_block_input, matchHere_nil, matchHere_lit_nil,
    matchHere_lit_cons, matchHere_rep, greedy_nil, greedy_cons, contK_apply, greedy_block,
    greedy_notQuote_block, quoteHead, hq, CharClass.test, notGt]

set_option maxHeartbeats 1000000 in
theorem csrf_input2_meta (t : Str) (hq : '"' ∉ t) :
    findFirst reCSRFInput2
        ("<meta name=\"X-Csrf-Token\" content=\"".toList ++ t ++ "\"/>".toList) = none := by
  rw [reCSRFInput2_eq]
  simp [findFirst_cons, findFirst_nil, findFirst_block_input, matchHere_nil, matchHere_lit_nil,
    matchHere_lit_cons, matchHere_rep, greedy_nil, greedy_cons, contK_apply, greedy_block,
    greedy_notQuote_block, quoteHead, hq, CharClass.test, notGt]

set_option maxHeartbeats 1000000 in
theorem csrf_meta_meta (t : Str) (ht : t ≠ []) (hq : '"' ∉ t) :
    matchHere reCSRFMeta
        ("<meta name=\"X-Csrf-Token\" content=\"".toList ++ t ++ "\"/>".toList) =
      some ([t], "/>".toList) := by
  rw [reCSRFMeta_eq]
  simp [matchHere_nil, matchHere_lit_nil, matchHere_lit_cons, matchHere_rep, greedy_nil,
    greedy_cons, contK_apply, greedy_block, greedy_notQuote_block, quoteHead, hq, ht,
    CharClass.test, notGt]

/-- The leftmost search returns a match found at the very start of the text. -/
theorem findFirst_of_matchHere (re : Regexp) (c : Char) (s : Str) (caps : List Str) (r : Str)
    (h : matchHere re (c :: s) = some (caps, r)) :
    findFirst re (c :: s) = some ((c :: s).take ((c :: s).length - r.length) :: caps, r) := by
  rw [findFirst_cons, h]

/-- C7. For a non-empty token `t` without double quote, `extractCSRFToken` returns `t` on
the input tag with name before value, on the input tag with value before name and on the
meta tag; on a document where none of the four patterns matches at any position, and on
the empty document, it returns the empty string. -/
theorem extractCSRFToken_documents (t : Str) (ht : t ≠ []) (hq : '"' ∉ t) :
    extractCSRFToken ("<input name=\"csrf_token\" value=\"".toList ++ t ++ "\"/>".toList) = t ∧
    extractCSRFToken ("<input value=\"".toList ++ t ++ "\" name=\"csrf_token\"/>".toList) = t ∧
    extractCSRFToken ("<meta name=\"X-Csrf-Token\" content=\"".toList ++ t ++ "\"/>".toList)
      = t ∧
    (∀ doc : Str,
      (∀ re ∈ [reCSRFInput1, reCSRFInput2, reCSRFMeta, reCSRFJS],
        ∀ pre suf, doc = pre ++ suf → matchHere re suf = none) →
      extractCSRFToken doc = []) ∧
    extractCSRFToken [] = [] := by
  refine ⟨?_, ?_, ?_, ?_, by decide⟩
  · have h := csrf_input1_nameFirst t ht hq
    exact extractCSRFToken_of_first _ _ _ (findFirst_of_matchHere _ _ _ _ _ h)
  · have h1 := csrf_input1_valueFirst t hq
    have h := csrf_input2_valueFirst t ht hq
    exact extractCSRFToken_of_second _ _ _ h1 (findFirst_of_matchHere _ _ _ _ _ h)
  · have h1 := csrf_input1_meta t hq
    have h2 := csrf_input2_meta t hq
    have h := csrf_meta_meta t ht hq
    exact extractCSRFToken_of_third _ _ _ h1 h2 (findFirst_of_matchHere _ _ _ _ _ h)
  · intro doc h
    exact extractCSRFToken_of_none doc
      ((findFirst_eq_none_iff _ _).mpr (h _ (by simp)))
      ((findFirst_eq_none_iff _ _).mpr (h _ (by simp)))
      ((findFirst_eq_none_iff _ _).mpr (h _ (by simp)))
      ((findFirst_eq_none_iff _ _).mpr (h _ (by simp)))

/-- The token `abc123` of the specification, in the three documents. -/
theorem extractCSRFToken_documents_witness :
    extractCSRFToken "<input name=\"csrf_token\" value=\"abc123\"/>".toList = "abc123".toList ∧
    extractCSRFToken "<input value=\"abc123\" name=\"csrf_token\"/>".toList = "abc123".toList ∧
    extractCSRFToken "<meta name=\"X-Csrf-Token\" content=\"abc123\"/>".toList
      = "abc123".toList :=
  have h := extractCSRFToken_documents "abc123".toList (by decide) (by decide)
  ⟨h.1, h.2.1, h.2.2.1⟩

theorem not_matchesIn_iff (re : Regexp) (doc : Str) :
    ¬ MatchesIn re doc ↔ findFirst re doc = none := by
  rw [findFirst_eq_none_iff]
  simp only [MatchesIn, not_exists, not_and, not_not]

theorem findStringSubmatch_of_matchesIn (re : Regexp) (doc : Str) (h : MatchesIn re doc) :
    (FindStringSubmatch re doc).length = groupCount re + 1 := by
  cases hf : findFirst re doc with
  | none => exact absurd ((not_matchesIn_iff re doc).mpr hf) (not_not.mpr h)
  | some m =>
    have := (findFirst_some re doc m.1 m.2 hf).1
    simpa [FindStringSubmatch, hf] using this

theorem findStringSubmatch_of_not_matchesIn (re : Regexp) (doc : Str) (h : ¬ MatchesIn re doc) :
    FindStringSubmatch re doc = [] := by
  simp [FindStringSubmatch, (not_matchesIn_iff re doc).mp h]

/-- C6. `extractCSRFToken` returns group 1 of the leftmost match of the first of its four
patterns, in the order input tag with name before value, input tag with value before name,
meta tag, script, that matches at some position of the document; the positions of the
matches play no part: a meta-tag token followed by an input-tag token yields the input-tag
token. With no pattern matching the result is empty. -/
theorem extractCSRFToken_priority (doc : Str) :
    (MatchesIn reCSRFInput1 doc →
      extractCSRFToken doc = idx (FindStringSubmatch reCSRFInput1 doc) 1) ∧
    (¬ MatchesIn reCSRFInput1 doc → MatchesIn reCSRFInput2 doc →
      extractCSRFToken doc = idx (FindStringSubmatch reCSRFInput2 doc) 1) ∧
    (¬ MatchesIn reCSRFInput1 doc → ¬ MatchesIn reCSRFInput2 doc → MatchesIn reCSRFMeta doc →
      extractCSRFToken doc = idx (FindStringSubmatch reCSRFMeta doc) 1) ∧
    (¬ MatchesIn reCSRFInput1 doc → ¬ MatchesIn reCSRFInput2 doc → ¬ MatchesIn reCSRFMeta doc →
      MatchesIn reCSRFJS doc →
      extractCSRFToken doc = idx (FindStringSubmatch reCSRFJS doc) 1) ∧
    (¬ MatchesIn reCSRFInput1 doc → ¬ MatchesIn reCSRFInput2 doc → ¬ MatchesIn reCSRFMeta doc →
      ¬ MatchesIn reCSRFJS doc → extractCSRFToken doc = []) ∧
    (MatchesIn reCSRFMeta metaThenInput ∧
      idx (FindStringSubmatch reCSRFMeta metaThenInput) 1 = "m1".toList ∧
      extractCSRFToken metaThenInput = "i1".toList) := by
  have g1 : groupCount reCSRFInput1 = 1 := by decide
  have g2 : groupCount reCSRFInput2 = 1 := by decide
  have g3 : groupCount reCSRFMeta = 1 := by decide
  have g4 : groupCount reCSRFJS = 1 := by decide
  refine ⟨?_, ?_, ?_, ?_, ?_, ⟨[], metaThenInput, rfl, by decide⟩, by decide, by decide⟩
  · intro h1
    have l1 := findStringSubmatch_of_matchesIn _ _ h1
    simp [extractCSRFToken, l1, g1]
  · intro h1 h2
    have l1 := findStringSubmatch_of_not_matchesIn _ _ h1
    have l2 := findStringSubmatch_of_matchesIn _ _ h2
    simp [extractCSRFToken, l1, l2, g2]
  · intro h1 h2 h3
    have l1 := findStringSubmatch_of_not_matchesIn _ _ h1
    have l2 := findStringSubmatch_of_not_matchesIn _ _ h2
    have l3 := findStringSubmatch_of_matchesIn _ _ h3
    simp [extractCSRFToken, l1, l2, l3, g3]
  · intro h1 h2 h3 h4
    have l1 := findStringSubmatch_of_not_matchesIn _ _ h1
    have l2 := findStringSubmatch_of_not_matchesIn _ _ h2
    have l3 := findStringSubmatch_of_not_matchesIn _ _ h3
    have l4 := findStringSubmatch_of_matchesIn _ _ h4
    simp [extractCSRFToken, l1, l2, l3, l4, g4]
  · intro h1 h2 h3 h4
    have l1 := findStringSubmatch_of_not_matchesIn _ _ h1
    have l2 := findStringSubmatch_of_not_matchesIn _ _ h2
    have l3 := findStringSubmatch_of_not_matchesIn _ _ h3
    have l4 := findStringSubmatch_of_not_matchesIn _ _ h4
    simp [extractCSRFToken, l1, l2, l3, l4]

/-! ## The anti-automation fields (C5) -/

theorem firstNamed1_some (name : Str) (ms : List (List Str)) (v : Str)
    (h : firstNamed1 name ms = some v) : ∃ m ∈ ms, 2 < m.length ∧ idx m 1 = name ∧ v = idx m 2 := by
  induction ms with
  | nil => simp [firstNamed1] at h
  | cons m ms ih =>
    simp only [firstNamed1] at h
    split_ifs at h with hc
    · simp only [Option.some.injEq] at h
      exact ⟨m, List.mem_cons_self _ _, hc.1, hc.2, h.symm⟩
    · obtain ⟨m', hm', h'⟩ := ih h
      exact ⟨m', List.mem_cons_of_mem _ hm', h'⟩

theorem firstNamed2_some (name : Str) (ms : List (List Str)) (v : Str)
    (h : firstNamed2 name ms = some v) : ∃ m ∈ ms, 2 < m.length ∧ idx m 2 = name ∧ v = idx m 1 := by
  induction ms with
  | nil => simp [firstNamed2] at h
  | cons m ms ih =>
    simp only [firstNamed2] at h
    split_ifs at h with hc
    · simp only [Option.some.injEq] at h
      exact ⟨m, List.mem_cons_self _ _, hc.1, hc.2, h.symm⟩
    · obtain ⟨m', hm', h'⟩ := ih h
      exact ⟨m', List.mem_cons_of_mem _ hm', h'⟩

theorem idx_mem_tail (m : List Str) (i : Nat) (h : i + 1 < m.length) : idx m (i + 1) ∈ m.tail := by
  cases m with
  | nil => simp at h
  | cons a m' =>
    simp only [List.length_cons, Nat.add_lt_add_iff_right] at h
    simp only [idx, List.getD_cons_succ, List.tail_cons]
    rw [List.getD_eq_getElem _ _ h]
    exact List.getElem_mem _

/-- What `extractHiddenInput` returns is a piece of the document. -/
theorem extractHiddenInput_infix (doc name : Str) : extractHiddenInput doc name <:+: doc := by
  unfold extractHiddenInput
  cases h1 : firstNamed1 name (FindAllStringSubmatch reHiddenInput1 doc) with
  | some v =>
    obtain ⟨m, hm, hl, _, hv⟩ := firstNamed1_some _ _ _ h1
    have := (findAllFrom_some _ _ _ m hm).2 _ (idx_mem_tail m 1 hl)
    simpa [hv] using this
  | none =>
    cases h2 : firstNamed2 name (FindAllStringSubmatch reHiddenInput2 doc) with
    | some v =>
      obtain ⟨m, hm, hl, _, hv⟩ := firstNamed2_some _ _ _ h2
      have := (findAllFrom_some _ _ _ m hm).2 _ (idx_mem_tail m 0 (by omega))
      simpa [hv] using this
    | none => exact List.nil_infix

theorem submitForm_ftaa (body csrfToken problemIndex : Str) (langID : Int) (sourceCode : Str) :
    formGet (submitForm body csrfToken problemIndex langID sourceCode) "ftaa".toList =
      if extractHiddenInput body "ftaa".toList = [] then none
      else some (extractHiddenInput body "ftaa".toList) := by
  unfold submitForm
  generalize extractHiddenInput body "ftaa".toList = ftaa
  generalize extractHiddenInput body "bfaa".toList = bfaa
  generalize Itoa langID = lang
  by_cases h1 : ftaa = [] <;> by_cases h2 : bfaa = [] <;>
    simp [formGet, valuesSet, h1, h2, List.filter, List.find?]

theorem submitForm_bfaa (body csrfToken problemIndex : Str) (langID : Int) (sourceCode : Str) :
    formGet (submitForm body csrfToken problemIndex langID sourceCode) "bfaa".toList =
      if extractHiddenInput body "bfaa".toList = [] then none
      else some (extractHiddenInput body "bfaa".toList) := by
  unfold submitForm
  generalize extractHiddenInput body "ftaa".toList = ftaa
  generalize extractHiddenInput body "bfaa".toList = bfaa
  generalize Itoa langID = lang
  by_cases h1 : ftaa = [] <;> by_cases h2 : bfaa = [] <;>
    simp [formGet, valuesSet, h1, h2, List.filter, List.find?]

/-- The requests of a GET call of the submitter: they carry no form. -/
theorem submitter_get_sent (s : Submitter) (net : Net) (url : Str) :
    ∃ rest, (s.get net url).2.sent = net.sent ++ rest ∧ ∀ r ∈ rest, r.Form = [] := by
  obtain ⟨rest, hs, hr⟩ := do_sent net (getRequest url)
  refine ⟨getRequest url :: rest, hs, ?_⟩
  intro r hm
  rcases List.mem_cons.mp hm with e | hm
  · rw [e]; rfl
  · rcases (hr r hm).1 with h | h
    · exact h
    · rw [h]; rfl

theorem getLatestSubmission_sent (s : Submitter) (net : Net) (now : Time) (contestID : Int)
    (problemIndex : Str) :
    ∃ rest, (s.getLatestSubmission net now contestID problemIndex).2.sent = net.sent ++ rest ∧
      ∀ r ∈ rest, r.Form = [] := by
  have h := submitter_get_sent s net
    (BaseURL ++ "/contest/".toList ++ Itoa contestID ++ "/my".toList)
  unfold Submitter.getLatestSubmission
  simp only
  rcases hg : s.get net (BaseURL ++ "/contest/".toList ++ Itoa contestID ++ "/my".toList) with
    ⟨r, net'⟩
  rw [hg] at h
  cases r with
  | error e => exact h
  | ok resp =>
    simp only
    split
    · exact h
    · split <;> exact h

/-- After the POST request has returned, `Submit` sends only requests without form. -/
theorem interpret_sent (s : Submitter) (net : Net) (now : Time) (contestID : Int)
    (problemIndex : Str) (resp : Response) :
    ∃ rest, (s.interpret net now contestID problemIndex resp).2.sent = net.sent ++ rest ∧
      ∀ r ∈ rest, r.Form = [] := by
  have hget := getLatestSubmission_sent s net now contestID problemIndex
  have hnone : ∃ rest, net.sent = net.sent ++ rest ∧ ∀ r ∈ rest, r.Form = [] :=
    ⟨[], by simp, by simp⟩
  unfold Submitter.interpret
  simp only
  split_ifs <;> first | exact hget | exact hnone

set_option maxRecDepth 100000 in
/-- C5, as stated, fails on an input with an empty value: the sample page carries the
hidden input `ftaa` with value `""`, and the form that `Submit` posts has no `ftaa` field
(it has the `bfaa` field, whose value on the page is not empty). -/
theorem submit_omits_empty_ftaa :
    Contains samplePage (hiddenInputTag "ftaa".toList []) = true ∧
      (Submitter.Submit ⟨blankSession⟩ (sampleNet serverError) 7 1 "A".toList 54
          "int main(){}".toList).2.sent.map
        (fun r => (r.Method, formGet r.Form "ftaa".toList, formGet r.Form "bfaa".toList)) =
      [("GET".toList, none, none), ("POST".toList, none, some "f1b3".toList)] := by
  decide

/-- C5, amended. The form that `Submit` posts carries the field `ftaa` (and likewise `bfaa`)
exactly when `extractHiddenInput` finds a non-empty value for that name on the submit
page, and then with that value unchanged; when it finds none, or the input's value is
empty, the form omits the field. The value is a piece of the page. The requests of
`Submit` are the GET request for the submit page, then the POST request with this form,
and every other request (those with which the client follows redirects, and the lookup of
the latest submission) carries no form or this same form. -/
theorem submit_anti_automation_fields (s : Submitter) (net : Net) (now : Time)
    (contestID : Int) (problemIndex : Str) (langID : Int) (sourceCode body : Str)
    (resp : Response)
    (h : PostAnswered net contestID problemIndex langID sourceCode body resp) (field : Str)
    (hf : field = "ftaa".toList ∨ field = "bfaa".toList) :
    (∃ hops rest, (s.Submit net now contestID problemIndex langID sourceCode).2.sent =
        net.sent ++ [getRequest (contestSubmitURL contestID)] ++ hops ++
          [postRequest (contestSubmitURL contestID)
            (submitForm body (extractCSRFToken body) problemIndex langID sourceCode)] ++ rest ∧
        (∀ r ∈ hops, r.Method = "GET".toList ∧ r.Form = []) ∧
        ∀ r ∈ rest, r.Form = [] ∨
          r.Form = submitForm body (extractCSRFToken body) problemIndex langID sourceCode) ∧
    formGet (submitForm body (extractCSRFToken body) problemIndex langID sourceCode) field =
      (if extractHiddenInput body field = [] then none
       else some (extractHiddenInput body field)) ∧
    extractHiddenInput body field <:+: body := by
  refine ⟨?_, ?_, extractHiddenInput_infix body field⟩
  · rw [submit_eq_interpret s net now contestID problemIndex langID sourceCode body resp h]
    obtain ⟨r3, h3, g3⟩ := interpret_sent s
      (afterPost net contestID problemIndex langID sourceCode body) now contestID problemIndex
      resp
    obtain ⟨r1, h1, g1⟩ := do_sent net (getRequest (contestSubmitURL contestID))
    obtain ⟨r2, h2, g2⟩ := do_sent (afterGet net contestID)
      (postRequest (contestSubmitURL contestID)
        (submitForm body (extractCSRFToken body) problemIndex langID sourceCode))
    refine ⟨r1, r2 ++ r3, ?_, ?_, ?_⟩
    · rw [h3]
      unfold afterPost
      rw [h2]
      unfold afterGet
      rw [h1]
      simp only [List.append_assoc, List.singleton_append, List.cons_append, List.nil_append]
    · intro r hm
      refine ⟨?_, ?_⟩
      · rcases (g1 r hm).2.1 with e | e
        · rw [e]; rfl
        · exact e
      · rcases (g1 r hm).1 with e | e
        · exact e
        · rw [e]; rfl
    · intro r hm
      rcases List.mem_append.mp hm with hm | hm
      · exact (g2 r hm).1
      · exact Or.inl (g3 r hm)
  · rcases hf with hf | hf
    · rw [hf]
      exact submitForm_ftaa _ _ _ _ _
    · rw [hf]
      exact submitForm_bfaa _ _ _ _ _

set_option maxRecDepth 100000 in
/-- On the sample page the form carries `bfaa` with the page's value and omits `ftaa`. -/
theorem submit_anti_automation_fields_witness :
    formGet (submitForm samplePage (extractCSRFToken samplePage) "A".toList 54
        "int main(){}".toList) "bfaa".toList = some "f1b3".toList ∧
      "f1b3".toList <:+: samplePage := by
  have h := submit_anti_automation_fields ⟨blankSession⟩ (sampleNet serverError) 7 1 "A".toList
    54 "int main(){}".toList samplePage serverError (sample_postAnswered _ (Or.inl (by decide)))
    "bfaa".toList
    (Or.inr rfl)
  have hv : extractHiddenInput samplePage "bfaa".toList = "f1b3".toList := by decide
  rw [hv] at h
  exact ⟨h.2.1, h.2.2⟩

/-! ## Hidden inputs in a sequence of tags (C8) -/

theorem reHiddenInput1_eq : reHiddenInput1 =
    [.lit '<', .lit 'i', .lit 'n', .lit 'p', .lit 'u', .lit 't', .rep notGt 1 false,
     .lit 'n', .lit 'a', .lit 'm', .lit 'e', .lit '=', .lit '"', .rep notQuote 1 true, .lit '"',
     .rep notGt 1 false, .lit 'v', .lit 'a', .lit 'l', .lit 'u', .lit 'e', .lit '=', .lit '"',
     .rep notQuote 0 true, .lit '"'] := by decide

theorem reHiddenInput2_eq : reHiddenInput2 =
    [.lit '<', .lit 'i', .lit 'n', .lit 'p', .lit 'u', .lit 't', .rep notGt 1 false,
     .lit 'v', .lit 'a', .lit 'l', .lit 'u', .lit 'e', .lit '=', .lit '"', .rep notQuote 0 true,
     .lit '"', .rep notGt 1 false, .lit 'n', .lit 'a', .lit 'm', .lit 'e', .lit '=', .lit '"',
     .rep notQuote 1 true, .lit '"'] := by decide

theorem notQuote_test (c : Char) : notQuote.test c = !decide (c = '"') := by
  simp [notQuote, CharClass.test]

theorem notGt_test (c : Char) : notGt.test c = !decide (c = '>') := by
  simp [notGt, CharClass.test]

theorem all_notQuote (B : Str) (h : '"' ∉ B) : B.all notQuote.test = true := by
  rw [List.all_eq_true]
  intro x hx
  have : x ≠ '"' := fun e => h (e ▸ hx)
  simp [notQuote_test, this]

theorem findAllFrom_block_input (k : CharClass) (min : Nat) (cap : Bool) (ts : Regexp)
    (B w : Str) (hB : '"' ∉ B) (hq : (quoteHead ts).isSome = true)
    (hc : (quoteHead ts).getD [] <:+ B →
      matchHere ts ((quoteHead ts).getD [] ++ '"' :: w) = none)
    (hrest : ∀ acc, greedy k.test min (contK ts cap) acc ('"' :: w) = none) :
    findAllFrom (.lit '<' :: .lit 'i' :: .lit 'n' :: .lit 'p' :: .lit 'u' :: .lit 't' ::
        .rep k min cap :: ts) 0 (B ++ '"' :: w) =
      findAllFrom (.lit '<' :: .lit 'i' :: .lit 'n' :: .lit 'p' :: .lit 'u' :: .lit 't' ::
        .rep k min cap :: ts) 0 ('"' :: w) :=
  findAllFrom_in_block (.lit '<' :: .lit 'i' :: .lit 'n' :: .lit 'p' :: .lit 'u' :: .lit 't' ::
    .rep k min cap :: ts) k min cap ts B w rfl (by simp [litsHead]) hB hq hc hrest B
    (List.suffix_refl _)

set_option maxHeartbeats 2000000 in
theorem hidden1_nameFirst (N V r : Str) (hN : N ≠ []) (hNq : '"' ∉ N) (hVq : '"' ∉ V)
    (hNn : ¬ ['n', 'a', 'm', 'e', '='] <:+ N) (hVn : ¬ ['n', 'a', 'm', 'e', '='] <:+ V)
    (hVv : ¬ ['v', 'a', 'l', 'u', 'e', '='] <:+ V) :
    matchHere reHiddenInput1
        ("<input name=\"".toList ++ N ++ "\" value=\"".toList ++ V ++ "\"/>".toList ++ r) =
      some ([N, V], "/>".toList ++ r) := by
  rw [reHiddenInput1_eq]
  simp [matchHere_nil, matchHere_lit_nil, matchHere_lit_cons, matchHere_rep, greedy_nil,
    greedy_cons, contK_apply, greedy_block, greedy_notQuote_block, quoteHead, hN, hNq, hVq,
    hNn, hVn, hVv, notQuote_test, notGt_test, all_notQuote]

set_option maxHeartbeats 2000000 in
theorem hidden2_nameFirst (N V r : Str) (hNq : '"' ∉ N) (hVq : '"' ∉ V)
    (hVn : ¬ ['n', 'a', 'm', 'e', '='] <:+ V)
    (hNv : ¬ ['v', 'a', 'l', 'u', 'e', '='] <:+ N)
    (hVv : ¬ ['v', 'a', 'l', 'u', 'e', '='] <:+ V) :
    findAllFrom reHiddenInput2 0
        ("<input name=\"".toList ++ N ++ "\" value=\"".toList ++ V ++ "\"/>".toList ++ r) =
      findAllFrom reHiddenInput2 0 r := by
  rw [reHiddenInput2_eq]
  simp [findAllFrom_zero_cons, findAllFrom_block_input, matchHere_nil, matchHere_lit_nil, matchHere_lit_cons, matchHere_rep, greedy_nil,
    greedy_cons, contK_apply, greedy_block, greedy_notQuote_block, quoteHead, hNq, hVq,
    hVn, hVv, hNv, notQuote_test, notGt_test, all_notQuote]

set_option maxHeartbeats 2000000 in
theorem hidden1_valueFirst (N V r : Str) (hNq : '"' ∉ N) (hVq : '"' ∉ V)
    (hNn : ¬ ['n', 'a', 'm', 'e', '='] <:+ N) (hVn : ¬ ['n', 'a', 'm', 'e', '='] <:+ V)
    (hNv : ¬ ['v', 'a', 'l', 'u', 'e', '='] <:+ N) :
    findAllFrom reHiddenInput1 0
        ("<input value=\"".toList ++ V ++ "\" name=\"".toList ++ N ++ "\"/>".toList ++ r) =
      findAllFrom reHiddenInput1 0 r := by
  rw [reHiddenInput1_eq]
  simp [findAllFrom_zero_cons, findAllFrom_block_input, matchHere_nil, matchHere_lit_nil,
    matchHere_lit_cons, matchHere_rep, greedy_nil, greedy_cons, contK_apply, greedy_block,
    greedy_notQuote_block, quoteHead, hNq, hVq, hNn, hVn, hNv, notQuote_test, notGt_test,
    all_notQuote]

set_option maxHeartbeats 2000000 in
theorem hidden2_valueFirst (N V r : Str) (hN : N ≠ []) (hNq : '"' ∉ N) (hVq : '"' ∉ V)
    (hNn : ¬ ['n', 'a', 'm', 'e', '='] <:+ N)
    (hNv : ¬ ['v', 'a', 'l', 'u', 'e', '='] <:+ N)
    (hVv : ¬ ['v', 'a', 'l', 'u', 'e', '='] <:+ V) :
    matchHere reHiddenInput2
        ("<input value=\"".toList ++ V ++ "\" name=\"".toList ++ N ++ "\"/>".toList ++ r) =
      some ([V, N], "/>".toList ++ r) := by
  rw [reHiddenInput2_eq]
  simp [matchHere_nil, matchHere_lit_nil, matchHere_lit_cons, matchHere_rep, greedy_nil,
    greedy_cons, contK_apply, greedy_block, greedy_notQuote_block, quoteHead, hN, hNq, hVq,
    hNn, hVv, hNv, notQuote_test, notGt_test, all_notQuote]

/-- After a match that ends before `/>`, the search goes on behind the tag. -/
theorem findAllFrom_tagEnd (re : Regexp) (ts : Regexp) (hre : re = .lit '<' :: ts) (r : Str) :
    findAllFrom re 0 ("/>".toList ++ r) = findAllFrom re 0 r := by
  subst hre
  simp [findAllFrom_zero_cons, matchHere_lit_cons]

theorem findAllFrom_match_tag (re ts : Regexp) (hre : re = .lit '<' :: ts) (s x r : Str)
    (caps : List Str) (hs : s = '<' :: x ++ ("/>".toList ++ r))
    (h : matchHere re s = some (caps, "/>".toList ++ r)) :
    findAllFrom re 0 s = (('<' :: x) :: caps) :: findAllFrom re 0 r := by
  subst hs
  rw [findAllFrom_match re '<' x _ caps h, findAllFrom_tagEnd re ts hre]

theorem findAllFrom_nil_lit (c : Char) (ts : Regexp) : findAllFrom (.lit c :: ts) 0 [] = [] := by
  simp [findAllFrom, matchHere_lit_nil]

/-- The matches of the name-first pattern in a sequence of plain tags are the name-first
tags, in order. -/
theorem firstNamed1_renderTags (n : Str) (tags : List InputTag) (hp : ∀ g ∈ tags, g.plain) :
    firstNamed1 n (FindAllStringSubmatch reHiddenInput1 (renderTags tags)) =
      ((tags.filter (fun g => g.nameFirst)).find? (fun g => decide (g.name = n))).map
        (fun g => g.value) := by
  unfold FindAllStringSubmatch
  induction tags with
  | nil =>
    rw [reHiddenInput1_eq]
    simp [renderTags, findAllFrom_nil_lit, firstNamed1]
  | cons g gs ih =>
    have ih' := ih (fun g' hg' => hp g' (List.mem_cons_of_mem _ hg'))
    obtain ⟨hN, hNq, hVq, ⟨hNn, hNv⟩, ⟨hVn, hVv⟩⟩ := hp g (List.mem_cons_self _ _)
    cases hf : g.nameFirst with
    | true =>
      have hm := hidden1_nameFirst g.name g.value (renderTags gs) hN hNq hVq hNn hVn hVv
      have := findAllFrom_match_tag reHiddenInput1 _ reHiddenInput1_eq
        (g.render ++ renderTags gs)
        ("input name=\"".toList ++ g.name ++ "\" value=\"".toList ++ g.value ++ "\"".toList)
        (renderTags gs) [g.name, g.value] (by simp [InputTag.render, hf])
        (by rw [← hm]; simp [InputTag.render, hf])
      rw [renderTags, this]
      simp only [firstNamed1, List.filter_cons, hf, if_true, List.find?_cons]
      by_cases hn : g.name = n
      · simp [hn, idx]
      · simp [hn, idx, ih']
    | false =>
      have hm := hidden1_valueFirst g.name g.value (renderTags gs) hNq hVq hNn hVn hNv
      have hr : g.render ++ renderTags gs =
          "<input value=\"".toList ++ g.value ++ "\" name=\"".toList ++ g.name ++ "\"/>".toList ++
            renderTags gs := by simp [InputTag.render, hf]
      rw [renderTags, hr, hm, ih']
      simp [List.filter_cons, hf]

/-- The matches of the value-first pattern in a sequence of plain tags are the value-first
tags, in order. -/
theorem firstNamed2_renderTags (n : Str) (tags : List InputTag) (hp : ∀ g ∈ tags, g.plain) :
    firstNamed2 n (FindAllStringSubmatch reHiddenInput2 (renderTags tags)) =
      ((tags.filter (fun g => !g.nameFirst)).find? (fun g => decide (g.name = n))).map
        (fun g => g.value) := by
  unfold FindAllStringSubmatch
  induction tags with
  | nil =>
    rw [reHiddenInput2_eq]
    simp [renderTags, findAllFrom_nil_lit, firstNamed2]
  | cons g gs ih =>
    have ih' := ih (fun g' hg' => hp g' (List.mem_cons_of_mem _ hg'))
    obtain ⟨hN, hNq, hVq, ⟨hNn, hNv⟩, ⟨hVn, hVv⟩⟩ := hp g (List.mem_cons_self _ _)
    cases hf : g.nameFirst with
    | false =>
      have hm := hidden2_valueFirst g.name g.value (renderTags gs) hN hNq hVq hNn hNv hVv
      have := findAllFrom_match_tag reHiddenInput2 _ reHiddenInput2_eq
        (g.render ++ renderTags gs)
        ("input value=\"".toList ++ g.value ++ "\" name=\"".toList ++ g.name ++ "\"".toList)
        (renderTags gs) [g.value, g.name] (by simp [InputTag.render, hf])
        (by rw [← hm]; simp [InputTag.render, hf])
      rw [renderTags, this]
      simp only [firstNamed2, List.filter_cons, hf, Bool.not_false, if_true, List.find?_cons]
      by_cases hn : g.name = n
      · simp [hn, idx]
      · simp [hn, idx, ih']
    | true =>
      have hm := hidden2_nameFirst g.name g.value (renderTags gs) hNq hVq hVn hNv hVv
      have hr : g.render ++ renderTags gs =
          "<input name=\"".toList ++ g.name ++ "\" value=\"".toList ++ g.value ++ "\"/>".toList ++
            renderTags gs := by simp [InputTag.render, hf]
      rw [renderTags, hr, hm, ih']
      simp [List.filter_cons, hf]

set_option maxRecDepth 100000 in
/-- C8 at two failing inputs. In the document of the two well-formed tags `a` (value `name=`)
and `b` (value `2`) the first pattern takes one match across both tags, and
`extractHiddenInput` returns the empty string for `b`, whose value is `2`, as it does for
`a`. In the one-tag document `<input name="a" value="1" data-value="2"/>` it returns `2`,
the text of the attribute `data-value`, for `a`, whose value is `1`. -/
theorem extractHiddenInput_tricky :
    (∀ g ∈ trickyTags, g.name ≠ [] ∧ quoteFree g.name ∧ quoteFree g.value) ∧
      (trickyTags.map (fun g => g.name)).Nodup ∧
      renderTags trickyTags =
        "<input name=\"a\" value=\"name=\"/><input name=\"b\" value=\"2\"/>".toList ∧
      extractHiddenInput (renderTags trickyTags) "b".toList = [] ∧
      extractHiddenInput (renderTags trickyTags) "a".toList = [] ∧
      (FindAllStringSubmatch reHiddenInput1 (renderTags trickyTags)).map (fun m => m.tail) =
        [["/><input name=".toList, "2".toList]] ∧
      extractHiddenInput "<input name=\"a\" value=\"1\" data-value=\"2\"/>".toList "a".toList =
        "2".toList := by
  refine ⟨?_, by decide, by decide, by decide, by decide, by decide, by decide⟩
  intro g hg
  simp only [trickyTags, List.mem_cons, List.mem_singleton, List.not_mem_nil, or_false] at hg
  rcases hg with hg | hg <;> subst hg <;> simp [quoteFree]

/-- Where the lookup is right: in a document that is a sequence of input tags of two
attributes, the name and the value in either order, with pairwise distinct names, whose
names and values hold no double quote and do not end in `name=` or `value=`,
`extractHiddenInput(document, n)` is the value of the tag named `n`, and the empty string
when no tag is named `n`. -/
theorem extractHiddenInput_tags (tags : List InputTag) (hp : ∀ g ∈ tags, g.plain)
    (hd : (tags.map (fun g => g.name)).Nodup) (n : Str) :
    (∀ g ∈ tags, g.name = n → extractHiddenInput (renderTags tags) n = g.value) ∧
    ((∀ g ∈ tags, g.name ≠ n) → extractHiddenInput (renderTags tags) n = []) := by
  have h1 := firstNamed1_renderTags n tags hp
  have h2 := firstNamed2_renderTags n tags hp
  have huniq : ∀ g ∈ tags, g.name = n → ∀ (p : InputTag → Bool) (g' : InputTag),
      (tags.filter p).find? (fun g => decide (g.name = n)) = some g' → g' = g := by
    intro g hg hn p g' hfind
    have hm := List.mem_of_find?_eq_some hfind
    have hn' : g'.name = n := by simpa using List.find?_some hfind
    exact List.inj_on_of_nodup_map hd (List.mem_of_mem_filter hm) hg (hn'.trans hn.symm)
  refine ⟨?_, ?_⟩
  · intro g hg hn
    unfold extractHiddenInput
    rw [h1, h2]
    cases hf : g.nameFirst with
    | true =>
      have : ((tags.filter (fun g => g.nameFirst)).find? (fun g => decide (g.name = n))).isSome
          = true := by
        rw [List.find?_isSome]
        exact ⟨g, List.mem_filter.mpr ⟨hg, hf⟩, by simp [hn]⟩
      obtain ⟨g', hg'⟩ := Option.isSome_iff_exists.mp this
      rw [hg', huniq g hg hn _ g' hg']
      rfl
    | false =>
      cases ha : (tags.filter (fun g => g.nameFirst)).find? (fun g => decide (g.name = n)) with
      | some g' =>
        have he := huniq g hg hn _ g' ha
        have hm := List.mem_of_find?_eq_some ha
        have := (List.mem_filter.mp hm).2
        rw [he, hf] at this
        cases this
      | none =>
        have : ((tags.filter (fun g => !g.nameFirst)).find?
            (fun g => decide (g.name = n))).isSome = true := by
          rw [List.find?_isSome]
          exact ⟨g, List.mem_filter.mpr ⟨hg, by simp [hf]⟩, by simp [hn]⟩
        obtain ⟨g', hg'⟩ := Option.isSome_iff_exists.mp this
        rw [hg', huniq g hg hn _ g' hg']
        rfl
  · intro hno
    unfold extractHiddenInput
    have hnone : ∀ p : InputTag → Bool,
        (tags.filter p).find? (fun g => decide (g.name = n)) = none := by
      intro p
      rw [List.find?_eq_none]
      intro x hx
      simpa using hno x (List.mem_of_mem_filter hx)
    rw [h1, h2, hnone, hnone]
    rfl

theorem sampleTags_plain : ∀ g ∈ sampleTags, g.plain := by
  intro g hg
  simp only [sampleTags, List.mem_cons, List.mem_singleton, List.not_mem_nil, or_false] at hg
  rcases hg with hg | hg | hg <;> subst hg <;> unfold InputTag.plain quoteFree plainEnd <;>
    decide

/-- The document of the test `multiple inputs`, with a value-first tag and an empty value:
the value of `ftaa` is found, `b` has the empty value, and no tag is named `c`. -/
theorem extractHiddenInput_tags_witness :
    renderTags sampleTags =
        ("<input name=\"a\" value=\"1\"/><input value=\"found\" name=\"ftaa\"/>" ++
          "<input name=\"b\" value=\"\"/>").toList ∧
      extractHiddenInput (renderTags sampleTags) "ftaa".toList = "found".toList ∧
      extractHiddenInput (renderTags sampleTags) "b".toList = [] ∧
      extractHiddenInput (renderTags sampleTags) "c".toList = [] :=
  ⟨by decide,
    (extractHiddenInput_tags sampleTags sampleTags_plain (by decide) "ftaa".toList).1
      { name := "ftaa".toList, value := "found".toList, nameFirst := false } (by decide) rfl,
    (extractHiddenInput_tags sampleTags sampleTags_plain (by decide) "b".toList).1
      { name := "b".toList, value := [], nameFirst := true } (by decide) rfl,
    (extractHiddenInput_tags sampleTags sampleTags_plain (by decide) "c".toList).2 (by decide)⟩

/-! ## The session, continued (C12, C13, C14, C15) -/

theorem domainAndType_plain :
    domainAndType "codeforces.com".toList "codeforces.com".toList =
      some ("codeforces.com".toList, false) := by decide

/-- C12, as stated, fails for the empty user-agent: after `SetCFClearance` with `ua = ""`
the session reports the default `UserAgent`, which is not empty. -/
theorem getUserAgent_after_empty :
    ((blankSession.SetCFClearance 100 "tok".toList [] 200).GetUserAgent = UserAgent) ∧
      UserAgent ≠ [] := by
  constructor <;> decide

/-- C12, amended. After `SetCFClearance(c, ua, e)` the session reports `GetCFClearance() = c`
and `CFClearanceExpiresAt() = e`; `GetUserAgent()` is `ua` when `ua` is not empty and the
default `UserAgent` when it is. -/
theorem getters_after_setCFClearance (s : Session) (now : Time) (c ua : Str) (e : Time) :
    (s.SetCFClearance now c ua e).GetCFClearance = c ∧
      (s.SetCFClearance now c ua e).CFClearanceExpiresAt = e ∧
      (s.SetCFClearance now c ua e).GetUserAgent = (if ua = [] then UserAgent else ua) := by
  obtain ⟨h1, h2, h3⟩ := setCFClearance_fields s now c ua e
  simp [Session.GetCFClearance, Session.CFClearanceExpiresAt, Session.GetUserAgent, h1, h2, h3]

/-- On a fresh session the identity cookies that `SetSessionCookies` installs are seen
by `HasSessionCookies`: `JSESSIONID` at every clock value, `39ce7` until it expires one
year after the call. -/
theorem setSessionCookies_fresh_hasSessionCookies (t0 : Time) (j k h : Str) (now : Time) :
    (blankSession.SetSessionCookies t0 j k h).HasSessionCookies now =
      (decide (j ≠ []) ||
        (decide (k ≠ []) &&
          (decide (t0 + 365 * 24 * Hour = 0) || decide (now < t0 + 365 * 24 * Hour)))) := by
  have h1 := domainAndType_dot
  have h2 := domainAndType_plain
  have hH : ¬ (8760 * Hour ≤ 0) := by decide
  simp only [String.toList] at h1 h2
  by_cases hj : j = [] <;> by_cases hk : k = [] <;>
    simp [blankSession, Session.SetSessionCookies, Session.HasSessionCookies, Jar.SetCookies, cfURL,
      Jar.Cookies, Jar.setCookie, newEntry, h1, h2, hj, hk, Jar.put, Entry.shouldSend,
      Entry.domainMatch, Entry.pathMatch, Entry.sameId, hH]
  all_goals split_ifs <;> simp_all

/-- C13. On a fresh session, after `SetSessionCookies(jsessionID, ce7Cookie, handle)` at
clock value `t0`, `HasSessionCookies` (asked before the one-year expiry of `39ce7`) is true
exactly when one of the two cookie values is not empty; either one suffices, and with both
empty it is false while the handle and the expiry `t0 + 24h` are recorded. -/
theorem hasSessionCookies_after_set (t0 : Time) (j k h : Str) (now : Time)
    (hnow : now < t0 + 365 * 24 * Hour) :
    ∃ s0, NewSession = .ok s0 ∧
      ((s0.SetSessionCookies t0 j k h).HasSessionCookies now = true ↔ j ≠ [] ∨ k ≠ []) ∧
      (j ≠ [] → (s0.SetSessionCookies t0 j [] h).HasSessionCookies now = true) ∧
      (k ≠ [] → (s0.SetSessionCookies t0 [] k h).HasSessionCookies now = true) ∧
      (s0.SetSessionCookies t0 [] [] h).HasSessionCookies now = false ∧
      (s0.SetSessionCookies t0 j k h).Handle = h ∧
      (s0.SetSessionCookies t0 j k h).ExpiresAt = t0 + SessionExpiry ∧
      SessionExpiry = 24 * 3600 * 1000000000 := by
  have hnow' : now < t0 + 8760 * Hour := by simpa using hnow
  refine ⟨blankSession, rfl, ?_, ?_, ?_, ?_, ?_, ?_, by decide⟩
  · rw [setSessionCookies_fresh_hasSessionCookies]
    simp [hnow']
  · intro hj
    rw [setSessionCookies_fresh_hasSessionCookies]
    simp [hj]
  · intro hk
    rw [setSessionCookies_fresh_hasSessionCookies]
    simp [hk, hnow']
  · rw [setSessionCookies_fresh_hasSessionCookies]
    simp
  · unfold Session.SetSessionCookies Session.Handle
    simp only
  · unfold Session.SetSessionCookies Session.ExpiresAt
    simp only

/-- The cases of the tests: only `JSESSIONID`, only `39ce7`, and none. -/
theorem hasSessionCookies_after_set_witness :
    (blankSession.SetSessionCookies 100 "jsessionid123".toList [] "handle".toList).HasSessionCookies
        100 = true ∧
      (blankSession.SetSessionCookies 100 [] "ce7cookie123".toList "handle".toList).HasSessionCookies
        100 = true ∧
      (blankSession.SetSessionCookies 100 [] [] "handle".toList).HasSessionCookies 100 = false := by
  obtain ⟨s0, h0, _, h1, h2, h3, _⟩ :=
    hasSessionCookies_after_set 100 "jsessionid123".toList "ce7cookie123".toList "handle".toList
      100 (by decide)
  cases h0
  exact ⟨h1 (by decide), h2 (by decide), h3⟩

set_option maxRecDepth 100000 in
/-- C14, as stated, fails: a session with a live bypass token and a handle but without any
identity cookie is not authenticated, and `Validate` succeeds on it when the page shows the
handle. -/
theorem validate_succeeds_unauthenticated :
    cookielessSession.IsAuthenticated 150 = false ∧
      cookielessSession.HasSessionCookies 150 = false ∧
      (cookielessSession.Validate handleNet 150).1 = none := by
  refine ⟨by decide, by decide, by decide⟩

/-- C14, amended. `Validate` returns an error, whatever the page holds, for every session
whose bypass token is missing or expired or whose handle is empty; it can succeed only on a
session with a live bypass token and a non-empty handle that occurs literally in the page as
read within the size cap. The identity cookies are not looked at. -/
theorem validate_spec (s : Session) (net : Net) (now : Time) :
    (s.IsCFClearanceValid now = false →
      (s.Validate net now).1 = some "cf_clearance expired or not set") ∧
    (s.IsCFClearanceValid now = true → s.handle = [] →
      (s.Validate net now).1 = some "handle not set") ∧
    ((s.Validate net now).1 = none →
      s.IsCFClearanceValid now = true ∧ s.handle ≠ [] ∧
        ∃ resp body, (s.get net BaseURL).1 = .ok resp ∧
          readAllLimited resp.Body MaxPageSize = (body, none) ∧
          Contains body s.handle = true) ∧
    (∀ (jar : Jar), ((({ s with jar := jar } : Session).Validate net now).1 = none ↔
      (s.Validate net now).1 = none)) := by
  refine ⟨?_, ?_, ?_, ?_⟩
  · intro h
    simp [Session.Validate, h]
  · intro h1 h2
    simp [Session.Validate, h1, h2]
  · intro h
    unfold Session.Validate at h
    by_cases h1 : (!s.IsCFClearanceValid now) = true
    · rw [if_pos h1] at h
      cases h
    rw [if_neg h1] at h
    by_cases h2 : s.handle = []
    · rw [if_pos h2] at h
      cases h
    rw [if_neg h2] at h
    · refine ⟨by simpa using h1, h2, ?_⟩
      cases hg : s.get net BaseURL with
      | mk r net' =>
        rw [hg] at h
        cases r with
        | error e => cases h
        | ok resp =>
          simp only at h
          cases hr : readAllLimited resp.Body MaxPageSize with
          | mk body err =>
            rw [hr] at h
            cases err with
            | some e => cases h
            | none =>
              simp only at h
              by_cases h3 : (!Contains body s.handle) = true
              · rw [if_pos h3] at h
                cases h
              · exact ⟨resp, body, rfl, hr, by simpa using h3⟩
  · intro jar
    have : ∀ s' : Session, s'.handle = s.handle → s'.cfClearance = s.cfClearance →
        s'.cfClearExp = s.cfClearExp → s'.userAgent = s.userAgent →
        ((s'.Validate net now).1 = none ↔ (s.Validate net now).1 = none) := by
      intro s' e1 e2 e3 e4
      have hv : s'.IsCFClearanceValid now = s.IsCFClearanceValid now := by
        simp [Session.IsCFClearanceValid, e2, e3]
      have hg : s'.get net BaseURL = s.get net BaseURL := by
        simp [Session.get, e4]
      unfold Session.Validate
      rw [hv, e1, hg]
      split_ifs
      · simp
      · simp
      · cases s.get net BaseURL with
        | mk r net' =>
          cases r with
          | error e => simp
          | ok resp =>
            simp only
            cases readAllLimited resp.Body MaxPageSize with
            | mk body err =>
              cases err with
              | some e => simp
              | none =>
                simp only
                split_ifs <;> simp
    exact this _ rfl rfl rfl rfl

/-- Every failure of `RefreshCSRFToken` leaves the session as it was. -/
theorem refreshCSRFToken_failure (s : Session) (net : Net)
    (h : (s.RefreshCSRFToken net).1 ≠ none) : (s.RefreshCSRFToken net).2.1 = s := by
  unfold Session.RefreshCSRFToken at h ⊢
  generalize s.get net BaseURL = g at h ⊢
  obtain ⟨r, net'⟩ := g
  cases r with
  | error e => rfl
  | ok resp =>
    simp only at h ⊢
    generalize readAllLimited resp.Body MaxPageSize = rd at h ⊢
    obtain ⟨body, err⟩ := rd
    cases err with
    | some e => rfl
    | none =>
      simp only at h ⊢
      by_cases h1 : extractCSRFToken body = []
      · rw [if_pos h1]
      · rw [if_neg h1] at h
        exact absurd rfl h

/-- C15. When the site root is fetched and read (within the size cap) as `body`,
`RefreshCSRFToken` fails with the token-not-found error exactly when `extractCSRFToken body`
is empty, and then, as on every other failure, the session and its cached token are as
before; otherwise it succeeds and `GetCSRFToken` is the extracted token. -/
theorem refreshCSRFToken_spec (s : Session) (net : Net) (resp : Response) (body : Str)
    (hget : (s.get net BaseURL).1 = .ok resp)
    (hread : readAllLimited resp.Body MaxPageSize = (body, none)) :
    ((s.RefreshCSRFToken net).1 = some "csrf token not found" ↔ extractCSRFToken body = []) ∧
    (extractCSRFToken body = [] →
      (s.RefreshCSRFToken net).2.1 = s ∧
        (s.RefreshCSRFToken net).2.1.GetCSRFToken = s.GetCSRFToken) ∧
    (extractCSRFToken body ≠ [] →
      (s.RefreshCSRFToken net).1 = none ∧
        (s.RefreshCSRFToken net).2.1.GetCSRFToken = extractCSRFToken body) ∧
    (∀ (s' : Session) (net' : Net), (s'.RefreshCSRFToken net').1 ≠ none →
      (s'.RefreshCSRFToken net').2.1.GetCSRFToken = s'.GetCSRFToken) := by
  have hval : s.RefreshCSRFToken net =
      if extractCSRFToken body = [] then (some "csrf token not found", s, (s.get net BaseURL).2)
      else (none, { s with csrfToken := extractCSRFToken body }, (s.get net BaseURL).2) := by
    unfold Session.RefreshCSRFToken
    cases hg : s.get net BaseURL with
    | mk r net' =>
      rw [hg] at hget
      simp only at hget
      subst hget
      simp only [hread]
  refine ⟨?_, ?_, ?_, ?_⟩
  · rw [hval]
    split_ifs with h <;> simp [h]
  · intro h
    rw [hval, if_pos h]
    exact ⟨rfl, rfl⟩
  · intro h
    rw [hval, if_neg h]
    exact ⟨rfl, rfl⟩
  · intro s' net' h
    rw [refreshCSRFToken_failure s' net' h]

set_option maxRecDepth 100000 in
/-- On the sample page the token `tok1` is cached; on a page without token nothing changes. -/
theorem refreshCSRFToken_spec_witness :
    (blankSession.RefreshCSRFToken (sampleNet plainOK)).1 = none ∧
      (blankSession.RefreshCSRFToken (sampleNet plainOK)).2.1.GetCSRFToken = "tok1".toList := by
  have h := refreshCSRFToken_spec blankSession (sampleNet plainOK)
    { StatusCode := 200, Body := { data := samplePage } } samplePage rfl (by decide)
  have ht : extractCSRFToken samplePage = "tok1".toList := by decide
  rw [ht] at h
  exact h.2.2.1 (by decide)

/-! ## The User-Agent of the requests (C11) -/

/-- The requests that the session itself sends (the request for the URL and those with
which the client follows redirects) carry the user-agent of `GetUserAgent`. -/
theorem session_get_userAgent (s : Session) (net : Net) (url : Str) :
    ∃ req rest, (s.get net url).2.sent = net.sent ++ req :: rest ∧
      ∀ r ∈ req :: rest, headerGet r.Header "User-Agent".toList = s.GetUserAgent := by
  unfold Session.get
  simp only
  obtain ⟨rest, hs, hr⟩ := do_sent net
    { Method := "GET".toList, URL := url,
      Header := valuesSet (valuesSet (valuesSet [] "User-Agent".toList
        (if s.userAgent = [] then UserAgent else s.userAgent)) "Accept".toList
        "text/html,application/xhtml+xml,application/xml;q=0.9,*/*;q=0.8".toList)
        "Accept-Language".toList "en-US,en;q=0.5".toList,
      Form := [] }
  have hua : headerGet (valuesSet (valuesSet (valuesSet [] "User-Agent".toList
      (if s.userAgent = [] then UserAgent else s.userAgent)) "Accept".toList
      "text/html,application/xhtml+xml,application/xml;q=0.9,*/*;q=0.8".toList)
      "Accept-Language".toList "en-US,en;q=0.5".toList) "User-Agent".toList =
      s.GetUserAgent := by
    simp only [Session.GetUserAgent]
    split_ifs with h <;> simp [h, headerGet, valuesSet, List.find?, List.filter]
  refine ⟨_, rest, hs, ?_⟩
  intro r hm
  rcases List.mem_cons.mp hm with e | hm
  · rw [e]; exact hua
  · rw [(hr r hm).2.2 "User-Agent".toList (by decide)]
    exact hua

set_option maxRecDepth 100000 in
/-- C11 at a failing input: the session's user-agent is `Custom/1.0`; its own request
carries it, while the GET and the POST request of `Submit` carry the default `UserAgent`. -/
theorem submit_userAgent_mismatch :
    customSession.GetUserAgent = "Custom/1.0".toList ∧
      (customSession.RefreshCSRFToken (sampleNet serverError)).2.2.sent.map
          (fun r => headerGet r.Header "User-Agent".toList) = ["Custom/1.0".toList] ∧
      (Submitter.Submit ⟨customSession⟩ (sampleNet serverError) 150 1 "A".toList 54
          "int main(){}".toList).2.sent.map
        (fun r => (r.Method, headerGet r.Header "User-Agent".toList)) =
        [("GET".toList, UserAgent), ("POST".toList, UserAgent)] ∧
      UserAgent ≠ "Custom/1.0".toList ∧
      NewSubmitter customSession 150 = .ok ⟨customSession⟩ := by
  refine ⟨by decide, by decide, by decide, by decide, by decide⟩

/-! ## Status and verdict of a result (C16, C17) -/

/-- The status that `parseSubmissionRow` gives is one of the three lifecycle states. -/
theorem parseSubmissionRow_status (row : Row) (now : Time) (contestID : Int)
    (res : SubmissionResult) (h : parseSubmissionRow row now contestID = .ok res) :
    res.Status ∈ lifecycleStates := by
  unfold parseSubmissionRow at h
  cases hid : row.submissionId with
  | none => simp [hid] at h
  | some idStr =>
    simp only [hid] at h
    cases hp : ParseInt idStr with
    | mk v e =>
      rw [hp] at h
      cases e with
      | true => cases h
      | false =>
        simp only at h
        split_ifs at h <;> cases h <;> simp [lifecycleStates]

set_option maxRecDepth 100000 in
/-- C16 at a failing input: on a submission page whose verdict element reads `Accepted`,
`GetSubmission` returns a result whose status is `Accepted`, which is none of the three
lifecycle states. -/
theorem getSubmission_status_accepted :
    (Submitter.GetSubmission ⟨blankSession⟩ (detailNet acceptedPage) 7 4242 1).1 =
        .ok { SubmissionID := 4242, ContestID := 1, ProblemIndex := [], Verdict := "OK".toList,
              Time := 46000000, Memory := 102400, PassedTests := 0, SubmittedAt := 7,
              Status := "Accepted".toList } ∧
      "Accepted".toList ∉ lifecycleStates := by
  refine ⟨by decide, by decide⟩

set_option maxRecDepth 100000 in
/-- C17 at a failing input: on a submission page whose verdict element reads
`Wrong answer on test 3`, `GetSubmission` returns that text as the verdict, while
`normalizeVerdict` of it, and the verdict `parseSubmissionRow` gives for a row with the same
text, is `WRONG_ANSWER`. -/
theorem getSubmission_verdict_raw :
    (Submitter.GetSubmission ⟨blankSession⟩ (detailNet wrongAnswerPage) 7 4242 1).1 =
        .ok { SubmissionID := 4242, ContestID := 1, ProblemIndex := [],
              Verdict := "Wrong answer on test 3".toList, Time := 0, Memory := 0,
              PassedTests := 0, SubmittedAt := 7, Status := "Judged".toList } ∧
      normalizeVerdict wrongAnswerPage.verdictText = "WRONG_ANSWER".toList ∧
      (parseSubmissionRow wrongAnswerRow 7 1).map (fun r => r.Verdict) =
        .ok "WRONG_ANSWER".toList := by
  refine ⟨by decide, by decide, by decide⟩

/-! ## Verdict normalisation (C18, C19, C20) -/

theorem contains_iff (s sub : Str) : Contains s sub = true ↔ sub <:+: s := by
  induction s with
  | nil =>
    simp only [Contains, List.isPrefixOf_iff_prefix, List.prefix_nil, List.infix_nil]
  | cons c s ih =>
    simp only [Contains, Bool.or_eq_true, List.isPrefixOf_iff_prefix, ih, List.infix_cons_iff]

theorem infix_dropWhile (p : Char → Bool) (sub s : Str) (c : Char) (r : Str)
    (hsub : sub = c :: r) (hc : p c = false) (h : sub <:+: s) : sub <:+: s.dropWhile p := by
  induction s with
  | nil => simpa using h
  | cons a s ih =>
    by_cases ha : p a = true
    · rw [List.dropWhile_cons_of_pos ha]
      rcases List.infix_cons_iff.mp h with hp | hi
      · exfalso
        rw [hsub] at hp
        have : c = a := by
          obtain ⟨t, ht⟩ := hp
          simp only [List.cons_append, List.cons.injEq] at ht
          exact ht.1
        rw [this, ha] at hc
        cases hc
      · exact ih hi
    · rw [List.dropWhile_cons_of_neg ha]
      exact h

theorem trimSpace_within (s : Str) : TrimSpace s <:+: s := by
  unfold TrimSpace
  have h1 : ((s.dropWhile isSpace).reverse.dropWhile isSpace).reverse <+: s.dropWhile isSpace := by
    have := List.dropWhile_suffix isSpace (l := (s.dropWhile isSpace).reverse)
    simpa using List.reverse_prefix.mpr this
  exact h1.isInfix.trans (List.dropWhile_suffix isSpace).isInfix

/-- Trimming keeps every occurrence of a text that neither starts nor ends with a space. -/
theorem infix_trimSpace (sub s : Str) (c : Char) (r : Str) (d : Char) (q : Str)
    (h1 : sub = c :: r) (hc : isSpace c = false) (h2 : sub.reverse = d :: q)
    (hd : isSpace d = false) (h : sub <:+: s) : sub <:+: TrimSpace s := by
  unfold TrimSpace
  have ha := infix_dropWhile isSpace sub s c r h1 hc h
  have hb := infix_dropWhile isSpace sub.reverse (s.dropWhile isSpace).reverse d q h2 hd
    (List.reverse_infix.mpr ha)
  simpa using List.reverse_infix.mpr hb

theorem contains_trimSpace (sub s : Str) (c : Char) (r : Str) (d : Char) (q : Str)
    (h1 : sub = c :: r) (hc : isSpace c = false) (h2 : sub.reverse = d :: q)
    (hd : isSpace d = false) : Contains (TrimSpace s) sub = Contains s sub := by
  rw [Bool.eq_iff_iff, contains_iff, contains_iff]
  exact ⟨fun h => h.trans (trimSpace_within s), infix_trimSpace sub s c r d q h1 hc h2 hd⟩

theorem contains_trimSpace_accepted (s : Str) :
    Contains (TrimSpace s) "Accepted".toList = Contains s "Accepted".toList :=
  contains_trimSpace _ s 'A' "ccepted".toList 'd' "etpeccA".toList rfl (by decide) rfl (by decide)

theorem contains_trimSpace_wrong (s : Str) :
    Contains (TrimSpace s) "Wrong answer".toList = Contains s "Wrong answer".toList :=
  contains_trimSpace _ s 'W' "rong answer".toList 'r' "ewsna gnorW".toList rfl (by decide) rfl
    (by decide)

theorem contains_trimSpace_time (s : Str) :
    Contains (TrimSpace s) "Time limit".toList = Contains s "Time limit".toList :=
  contains_trimSpace _ s 'T' "ime limit".toList 't' "imil emiT".toList rfl (by decide) rfl
    (by decide)

/-- C18. For every verdict text that contains `Accepted`, `normalizeVerdict` returns `OK`. -/
theorem normalizeVerdict_accepted (v : Str) (h : Contains v "Accepted".toList = true) :
    normalizeVerdict v = "OK".toList := by
  unfold normalizeVerdict
  simp only [contains_trimSpace_accepted, h, if_true]

/-- The text `Accepted` between spaces. -/
theorem normalizeVerdict_accepted_witness :
    normalizeVerdict "  Accepted \n".toList = "OK".toList :=
  normalizeVerdict_accepted _ (by decide)

/-- C19, as stated, fails on a text with two of the substrings: the cases are tried in
order, so a text with `Accepted` and `Wrong answer` yields `OK`, and a text with
`Wrong answer` and `Time limit` yields `WRONG_ANSWER`. -/
theorem normalizeVerdict_first_case_wins :
    Contains "Wrong answer on test 2 (Accepted on pretests)".toList "Wrong answer".toList = true ∧
      normalizeVerdict "Wrong answer on test 2 (Accepted on pretests)".toList = "OK".toList ∧
      Contains "Time limit exceeded after Wrong answer".toList "Time limit".toList = true ∧
      normalizeVerdict "Time limit exceeded after Wrong answer".toList =
        "WRONG_ANSWER".toList := by
  refine ⟨by decide, by decide, by decide, by decide⟩

/-- C19, amended. A verdict text that contains `Wrong answer` and not `Accepted` yields
`WRONG_ANSWER`; a text that contains `Time limit` and neither `Accepted` nor `Wrong answer`
yields `TIME_LIMIT_EXCEEDED`. -/
theorem normalizeVerdict_wrong_time (v : Str) (ha : Contains v "Accepted".toList = false) :
    (Contains v "Wrong answer".toList = true → normalizeVerdict v = "WRONG_ANSWER".toList) ∧
    (Contains v "Wrong answer".toList = false → Contains v "Time limit".toList = true →
      normalizeVerdict v = "TIME_LIMIT_EXCEEDED".toList) := by
  refine ⟨?_, ?_⟩
  · intro hw
    unfold normalizeVerdict
    simp only [contains_trimSpace_accepted, contains_trimSpace_wrong, ha, hw, if_true,
      Bool.false_eq_true, if_false]
  · intro hw ht
    unfold normalizeVerdict
    simp only [contains_trimSpace_accepted, contains_trimSpace_wrong, contains_trimSpace_time,
      ha, hw, ht, if_true, Bool.false_eq_true, if_false]

/-- The two verdict texts of the judge. -/
theorem normalizeVerdict_wrong_time_witness :
    normalizeVerdict "Wrong answer on test 3".toList = "WRONG_ANSWER".toList ∧
      normalizeVerdict "Time limit exceeded on test 7".toList = "TIME_LIMIT_EXCEEDED".toList :=
  ⟨(normalizeVerdict_wrong_time _ (by decide)).1 (by decide),
    (normalizeVerdict_wrong_time _ (by decide)).2 (by decide) (by decide)⟩

/-- C20, as stated, fails on a text with surrounding white space: the result is the trimmed
text. -/
theorem normalizeVerdict_trims :
    (∀ k ∈ knownSubstrings, Contains " Skipped ".toList k = false) ∧
      normalizeVerdict " Skipped ".toList = "Skipped".toList ∧
      normalizeVerdict " Skipped ".toList ≠ " Skipped ".toList := by
  refine ⟨by decide, by decide, by decide⟩

/-- C20, amended. For every verdict text that contains none of the nine known substrings,
`normalizeVerdict` returns the text with the surrounding white space trimmed; a text that
neither starts nor ends with white space is returned unchanged. -/
theorem normalizeVerdict_unmatched (v : Str)
    (h : ∀ k ∈ knownSubstrings, Contains v k = false) :
    normalizeVerdict v = TrimSpace v ∧ (TrimSpace v = v → normalizeVerdict v = v) := by
  have hk : ∀ k ∈ knownSubstrings, Contains (TrimSpace v) k = false := by
    intro k hk
    have := h k hk
    cases hc : Contains (TrimSpace v) k with
    | false => rfl
    | true =>
      rw [contains_iff] at hc
      have := (contains_iff v k).mpr (hc.trans (trimSpace_within v))
      simp_all
  have hn : normalizeVerdict v = TrimSpace v := by
    unfold normalizeVerdict
    simp only [knownSubstrings, List.mem_cons, List.mem_singleton, forall_eq_or_imp, forall_eq,
      List.not_mem_nil, false_implies, implies_true, and_true] at hk
    obtain ⟨h1, h2, h3, h4, h5, h6, h7, h8, h9⟩ := hk
    simp only [h1, h2, h3, h4, h5, h6, h7, h8, h9, Bool.false_eq_true, if_false]
  exact ⟨hn, fun ht => by rw [hn, ht]⟩

/-- The unmatched verdict text `Skipped`, with and without surrounding white space. -/
theorem normalizeVerdict_unmatched_witness :
    normalizeVerdict "Skipped".toList = "Skipped".toList ∧
      normalizeVerdict "\tPartial result: 5 points ".toList =
        "Partial result: 5 points".toList := by
  have h1 := normalizeVerdict_unmatched "Skipped".toList (by decide)
  have h2 := normalizeVerdict_unmatched "\tPartial result: 5 points ".toList (by decide)
  exact ⟨h1.2 (by decide), by rw [h2.1]; decide⟩

/-! ## Time and memory texts (C22) -/

/-- A greedy repetition over a block of characters of the class that a character outside
the class (or the end of the text) follows: when the continuation succeeds after the whole
block, that is the result. -/
theorem greedy_all {α : Type} (p : Char → Bool) (min : Nat) (k : Str → Str → Option α)
    (acc B rest : Str) (r : α) (hB : ∀ c ∈ B, p c = true)
    (hmin : min ≤ (acc ++ B).length) (hk : k (acc ++ B) rest = some r)
    (hrest : ∀ c ∈ rest.head?, p c = false) :
    greedy p min k acc (B ++ rest) = some r := by
  induction B generalizing acc with
  | nil =>
    simp only [List.append_nil] at hmin hk
    cases rest with
    | nil => simp [greedy_nil, hmin, hk]
    | cons c s =>
      have hc : p c = false := hrest c (by simp)
      simp [greedy_cons, hc, hmin, hk]
  | cons b B' ih =>
    have hb : p b = true := hB b (List.mem_cons_self _ _)
    have := ih (acc ++ [b]) (fun c hc => hB c (List.mem_cons_of_mem _ hc))
      (by simpa using hmin) (by simpa using hk)
    rw [List.cons_append, greedy_cons, this]
    simp [hb]

/-- A match holds every literal character of the pattern. -/
theorem matchHere_lit_mem (re : Regexp) (s : Str) (h : matchHere re s ≠ none) :
    ∀ c, Tok.lit c ∈ re → c ∈ s := by
  induction re generalizing s with
  | nil => intro c hc; cases hc
  | cons t ts ih =>
    intro c hc
    cases t with
    | lit d =>
      cases s with
      | nil => exact absurd (matchHere_lit_nil d ts) h
      | cons e s' =>
        rw [matchHere_lit_cons] at h
        by_cases hed : e = d
        · rw [if_pos hed] at h
          rcases List.mem_cons.mp hc with hc | hc
          · cases hc
            rw [hed]
            exact List.mem_cons_self _ _
          · exact List.mem_cons_of_mem _ (ih s' h c hc)
        · rw [if_neg hed] at h
          exact absurd rfl h
    | rep k m cap =>
      rw [matchHere_rep] at h
      obtain ⟨r, hr⟩ := Option.ne_none_iff_exists'.mp h
      obtain ⟨u, v, hs, hk⟩ := greedy_some _ _ _ _ _ _ hr
      rw [contK_apply] at hk
      have hv : matchHere ts v ≠ none := by
        intro hn
        rw [hn] at hk
        cases hk
      rcases List.mem_cons.mp hc with hc | hc
      · cases hc
      · rw [hs]
        exact List.mem_append_right _ (ih v hv c hc)

theorem findFirst_none_of_lit (re : Regexp) (s : Str) (c : Char) (hc : Tok.lit c ∈ re)
    (hs : c ∉ s) : findFirst re s = none := by
  rw [findFirst_eq_none_iff]
  intro pre suf hps
  by_contra hn
  exact hs (by rw [hps]; exact List.mem_append_right _ (matchHere_lit_mem re suf hn c hc))

theorem isDigit_iff (c : Char) : isDigit c = true ↔ c ∈ "0123456789".toList := by
  constructor
  · intro h
    simp only [isDigit, Bool.and_eq_true, decide_eq_true_eq] at h
    obtain ⟨h1, h2⟩ := h
    have h1' : 48 ≤ c.toNat := h1
    have h2' : c.toNat ≤ 57 := h2
    have hc : c = Char.ofNat c.toNat := (Char.ofNat_toNat c).symm
    generalize c.toNat = n at h1' h2' hc
    subst hc
    interval_cases n <;> decide
  · intro h
    have h' : c ∈ ['0', '1', '2', '3', '4', '5', '6', '7', '8', '9'] := h
    simp only [List.mem_cons, List.mem_singleton, List.not_mem_nil, or_false] at h'
    rcases h' with h' | h' | h' | h' | h' | h' | h' | h' | h' | h' <;> subst h' <;> decide

theorem digitsValue_isDigit (s : Str) (acc n : Nat) (h : digitsValue s acc = some n) :
    ∀ c ∈ s, isDigit c = true := by
  induction s generalizing acc with
  | nil => intro c hc; cases hc
  | cons d s ih =>
    intro c hc
    simp only [digitsValue] at h
    by_cases hd : isDigit d = true
    · rw [if_pos hd] at h
      rcases List.mem_cons.mp hc with hc | hc
      · rw [hc]; exact hd
      · exact ih _ h c hc
    · rw [if_neg hd] at h
      cases h

theorem digit_test_of_isDigit (c : Char) (h : isDigit c = true) : digit.test c = true := by
  simp only [CharClass.test, digit, Bool.false_eq_true, if_false, decide_eq_true_eq]
  exact (isDigit_iff c).mp h

theorem parseInt_digits (ds : Str) (n : Nat) (hne : ds ≠ []) (hd : digitsValue ds 0 = some n)
    (hn : (n : Int) ≤ maxInt64) : ParseInt ds = ((n : Int), false) := by
  cases ds with
  | nil => exact absurd rfl hne
  | cons d ds' =>
    have hdig : isDigit d = true := digitsValue_isDigit _ _ _ hd d (List.mem_cons_self _ _)
    have h1 : d ≠ '+' := by
      intro e; rw [e] at hdig; revert hdig; decide
    have h2 : d ≠ '-' := by
      intro e; rw [e] at hdig; revert hdig; decide
    unfold ParseInt
    split
    · rename_i heq
      split at heq
      · rename_i r he
        cases he
        exact absurd rfl h1
      · rename_i r he
        cases he
        exact absurd rfl h2
      · rename_i neg body heq2 _ _
        cases heq
        simp only [reduceCtorEq, if_false, hd, Bool.false_eq_true, not_lt.mpr hn]


theorem space_not_digit (c : Char) (h : space.test c = true) : digit.test c = false := by
  have h' : c ∈ ['\t', '\n', Char.ofNat 0x0C, '\r', ' '] := by
    simpa [CharClass.test, space] using h
  simp only [List.mem_cons, List.mem_singleton, List.not_mem_nil, or_false] at h'
  rcases h' with h' | h' | h' | h' | h' <;> subst h' <;> decide

/-- The pattern `(\d+)\s*ab` on a number, white space and the unit `ab`: the match is the
whole text and the group is the number. -/
theorem matchHere_unit (a b : Char) (ds ws : Str) (hne : ds ≠ [])
    (hds : ∀ c ∈ ds, digit.test c = true) (hws : ∀ c ∈ ws, space.test c = true)
    (ha1 : digit.test a = false) (ha2 : space.test a = false) :
    matchHere [.rep digit 1 true, .rep space 0 false, .lit a, .lit b] (ds ++ ws ++ [a, b]) =
      some ([ds], []) := by
  rw [matchHere_rep, List.append_assoc]
  apply greedy_all _ _ _ _ _ _ _ hds
  · cases ds with
    | nil => exact absurd rfl hne
    | cons d ds' => simp
  · rw [contK_apply, matchHere_rep, greedy_all _ _ _ [] ws [a, b] ([], []) hws (Nat.zero_le _)
      (by simp [contK_apply, matchHere_lit_cons, matchHere_nil]) (by simpa using ha2)]
    simp
  · intro c hc
    cases ws with
    | nil =>
      simp only [List.nil_append, List.head?_cons, Option.mem_def, Option.some.injEq] at hc
      rw [← hc]; exact ha1
    | cons w ws' =>
      simp only [List.cons_append, List.head?_cons, Option.mem_def, Option.some.injEq] at hc
      rw [← hc]
      exact space_not_digit w (hws w (List.mem_cons_self _ _))

theorem findFirst_whole (re : Regexp) (s : Str) (caps : List Str) (hne : s ≠ [])
    (h : matchHere re s = some (caps, [])) : findFirst re s = some (s :: caps, []) := by
  cases s with
  | nil => exact absurd rfl hne
  | cons c x =>
    have := findFirst_match re c x [] caps (by simpa using h)
    simpa using this

theorem findStringSubmatch_unit (a b : Char) (ds ws : Str) (n : Nat) (hne : ds ≠ [])
    (hd : digitsValue ds 0 = some n) (hws : ∀ c ∈ ws, space.test c = true)
    (ha1 : digit.test a = false) (ha2 : space.test a = false) :
    FindStringSubmatch [.rep digit 1 true, .rep space 0 false, .lit a, .lit b]
      (ds ++ ws ++ [a, b]) = [ds ++ ws ++ [a, b], ds] := by
  have hds : ∀ c ∈ ds, digit.test c = true :=
    fun c hc => digit_test_of_isDigit c (digitsValue_isDigit ds 0 n hd c hc)
  have hm := matchHere_unit a b ds ws hne hds hws ha1 ha2
  have hne' : ds ++ ws ++ [a, b] ≠ [] := by simp
  simp only [FindStringSubmatch, findFirst_whole _ _ _ hne' hm]

theorem wrap64_of_range (x : Int) (h0 : 0 ≤ x) (h1 : x ≤ maxInt64) : wrap64 x = x := by
  unfold wrap64
  unfold maxInt64 at h1
  have e63 : (2 : Int) ^ 63 = 9223372036854775808 := by norm_num
  have e64 : (2 : Int) ^ 64 = 18446744073709551616 := by norm_num
  rw [e63] at h1 ⊢
  rw [e64]
  omega

set_option maxRecDepth 100000 in
/-- C22, as stated, fails on a large number: the text `9223372036855 ms` gives a negative
duration, because the product with the number of nanoseconds in a millisecond leaves the
range of 64-bit integers; so do `9007199254740992 KB` and `8796093022208 MB` for the
number of bytes. -/
theorem parseTime_overflow :
    parseTime "9223372036855 ms".toList = -9223372036854551616 ∧
    parseMemory "9007199254740992 KB".toList = -9223372036854775808 ∧
    parseMemory "8796093022208 MB".toList = -9223372036854775808 := by
  refine ⟨by decide, by decide, by decide⟩

/-- The class `\s` of the patterns is narrower than the white space `TrimSpace` removes: a
no-break space between the number and the unit makes the patterns fail. -/
theorem parseTime_noBreakSpace :
    isSpace (Char.ofNat 0xA0) = true ∧
    parseTime ['4', '6', Char.ofNat 0xA0, 'm', 's'] = 0 ∧
    parseMemory ['4', '6', Char.ofNat 0xA0, 'K', 'B'] = 0 := by
  refine ⟨by decide, by decide, by decide⟩

/-- C22, amended. For every non-empty string of decimal digits `ds` with value `n` and every
string `ws` of characters of the class `\s` (space, tab, line feed, form feed, carriage
return): `parseTime(ds ws "ms")` is `n` milliseconds when `n` × 1000000 is at most the
largest 64-bit integer; `parseMemory(ds ws "KB")` is `n` × 1024 when that is at most the
largest 64-bit integer; `parseMemory(ds ws "MB")` is `n` × 1024 × 1024 when that is at most
the largest 64-bit integer. -/
theorem parse_time_memory (ds ws : Str) (n : Nat) (hne : ds ≠ [])
    (hd : digitsValue ds 0 = some n) (hws : ∀ c ∈ ws, space.test c = true) :
    ((n : Int) * 1000000 ≤ maxInt64 →
      parseTime (ds ++ ws ++ "ms".toList) = (n : Int) * 1000000) ∧
    ((n : Int) * 1024 ≤ maxInt64 →
      parseMemory (ds ++ ws ++ "KB".toList) = (n : Int) * 1024) ∧
    ((n : Int) * 1024 * 1024 ≤ maxInt64 →
      parseMemory (ds ++ ws ++ "MB".toList) = (n : Int) * 1024 * 1024) := by
  have hn0 : (0 : Int) ≤ n := Int.natCast_nonneg n
  have hM : 'M' ∉ ds ++ ws ++ "KB".toList := by
    intro hm
    simp only [List.mem_append] at hm
    rcases hm with (hm | hm) | hm
    · have := digitsValue_isDigit ds 0 n hd _ hm
      revert this; decide
    · have := hws _ hm
      revert this; decide
    · revert hm; decide
  refine ⟨?_, ?_, ?_⟩
  · intro hb
    have hn : (n : Int) ≤ maxInt64 := by unfold maxInt64 at hb ⊢; omega
    have hf := findStringSubmatch_unit 'm' 's' ds ws n hne hd hws (by decide) (by decide)
    have hre : reTimeMs = [.rep digit 1 true, .rep space 0 false, .lit 'm', .lit 's'] := rfl
    have htxt : ds ++ ws ++ "ms".toList = ds ++ ws ++ ['m', 's'] := rfl
    simp only [parseTime, hre, htxt, hf, List.length_cons, List.length_nil, idx, List.getD_cons_succ,
      List.getD_cons_zero, Atoi, parseInt_digits ds n hne hd hn]
    simp only [show (0 + 1 + 1 > 1) = True by simp, if_true]
    exact wrap64_of_range _ (by positivity) hb
  · intro hb
    have hn : (n : Int) ≤ maxInt64 := by unfold maxInt64 at hb ⊢; omega
    have hf := findStringSubmatch_unit 'K' 'B' ds ws n hne hd hws (by decide) (by decide)
    have hre : reMemoryKB = [.rep digit 1 true, .rep space 0 false, .lit 'K', .lit 'B'] := rfl
    have hnone : FindStringSubmatch reMemoryMB (ds ++ ws ++ "KB".toList) = [] := by
      simp only [FindStringSubmatch,
        findFirst_none_of_lit reMemoryMB _ 'M' (by decide) hM]
    have htxt : ds ++ ws ++ "KB".toList = ds ++ ws ++ ['K', 'B'] := rfl
    simp only [parseMemory, hnone, List.length_nil, gt_iff_lt, Nat.not_lt_zero, if_false]
    simp only [hre, htxt, hf, List.length_cons, List.length_nil, idx, List.getD_cons_succ,
      List.getD_cons_zero, parseInt_digits ds n hne hd hn]
    simp only [show (1 < 0 + 1 + 1) = True by simp, if_true]
    exact wrap64_of_range _ (by positivity) hb
  · intro hb
    have hb1 : (n : Int) * 1024 ≤ maxInt64 := by unfold maxInt64 at hb ⊢; omega
    have hn : (n : Int) ≤ maxInt64 := by unfold maxInt64 at hb ⊢; omega
    have hf := findStringSubmatch_unit 'M' 'B' ds ws n hne hd hws (by decide) (by decide)
    have hre : reMemoryMB = [.rep digit 1 true, .rep space 0 false, .lit 'M', .lit 'B'] := rfl
    have htxt : ds ++ ws ++ "MB".toList = ds ++ ws ++ ['M', 'B'] := rfl
    simp only [parseMemory, hre, htxt, hf, List.length_cons, List.length_nil, idx,
      List.getD_cons_succ, List.getD_cons_zero, parseInt_digits ds n hne hd hn]
    simp only [show (0 + 1 + 1 > 1) = True by simp, if_true]
    rw [wrap64_of_range _ (by positivity) hb1]
    exact wrap64_of_range _ (by positivity) hb

set_option maxRecDepth 100000 in
theorem parse_time_memory_witness :
    parseTime "46 ms".toList = 46 * 1000000 ∧
    parseMemory "100  KB".toList = 100 * 1024 ∧
    parseMemory "256MB".toList = 256 * 1024 * 1024 := by
  have h1 := parse_time_memory "46".toList " ".toList 46 (by decide) (by decide) (by decide)
  have h2 := parse_time_memory "100".toList "  ".toList 100 (by decide) (by decide) (by decide)
  have h3 := parse_time_memory "256".toList [] 256 (by decide) (by decide) (by decide)
  exact ⟨h1.1 (by decide), h2.2.1 (by decide), h3.2.2 (by decide)⟩

/-! ## `VerifySubmitPage` (C23) -/

theorem readAllLimited_small (b : Body) (n : Nat) (h : b.data.length ≤ n) :
    (readAllLimited b n).1 = b.data := by
  unfold readAllLimited
  by_cases hn : n ≤ b.data.length
  · rw [if_pos hn]
    exact List.take_of_length_le h
  · rw [if_neg hn]

theorem verifySubmitPage_eq (s : Submitter) (net : Net) (contestID : Int) (resp : Response)
    (body : Str)
    (hget : (s.get net (contestSubmitURL contestID)).1 = .ok resp)
    (hread : readAllLimited resp.Body MaxPageSize = (body, none)) :
    (s.VerifySubmitPage net contestID).1 =
      if (missingElements body).length > 0 then
        some ("submit page missing elements: " ++ String.mk (Join (missingElements body) ", ".toList))
      else none := by
  unfold Submitter.VerifySubmitPage
  simp only
  rcases hg : s.get net (contestSubmitURL contestID) with ⟨r, net'⟩
  rw [hg] at hget
  simp only at hget
  subst hget
  simp only [hread, missingElements]
  split_ifs <;> rfl

/-- C23. When the submit page is fetched and read (within the size cap) as `body`,
`VerifySubmitPage` succeeds if and only if `body` contains all five markers; otherwise it
fails with `submit page missing elements: ` followed by the names of the missing markers
joined by `, `: a name is listed exactly when its marker is missing, no name is listed
twice, and the list is in the order csrf_token, problem_index, language_select,
source_code, submit_button. A body no longer than the cap is read whole. -/
theorem verifySubmitPage_spec (s : Submitter) (net : Net) (contestID : Int) (resp : Response)
    (body : Str)
    (hget : (s.get net (contestSubmitURL contestID)).1 = .ok resp)
    (hread : readAllLimited resp.Body MaxPageSize = (body, none)) :
    ((s.VerifySubmitPage net contestID).1 = none ↔
      (Contains body "name=\"csrf_token\"".toList = true ∧
       Contains body "name=\"submittedProblemIndex\"".toList = true ∧
       Contains body "name=\"programTypeId\"".toList = true ∧
       Contains body "name=\"source\"".toList = true ∧
       Contains body "type=\"submit\"".toList = true)) ∧
    ((s.VerifySubmitPage net contestID).1 ≠ none →
      (s.VerifySubmitPage net contestID).1 =
        some ("submit page missing elements: " ++
          String.mk (Join (missingElements body) ", ".toList))) ∧
    (∀ check ∈ submitPageChecks,
      (check.1 ∈ missingElements body ↔ Contains body check.2 = false)) ∧
    (missingElements body).Nodup ∧
    List.Sublist (missingElements body)
      ["csrf_token".toList, "problem_index".toList, "language_select".toList,
       "source_code".toList, "submit_button".toList] ∧
    (resp.Body.data.length ≤ MaxPageSize → body = resp.Body.data) := by
  have heq := verifySubmitPage_eq s net contestID resp body hget hread
  have hsub : List.Sublist (missingElements body) (submitPageChecks.map (fun check => check.1)) :=
    (List.filter_sublist _).map _
  have hnames : submitPageChecks.map (fun check => check.1) =
      ["csrf_token".toList, "problem_index".toList, "language_select".toList,
       "source_code".toList, "submit_button".toList] := by decide
  have hnd : (submitPageChecks.map (fun check => check.1)).Nodup := by decide
  refine ⟨?_, ?_, ?_, hsub.nodup hnd, hnames ▸ hsub, ?_⟩
  · rw [heq]
    generalize h1 : Contains body "name=\"csrf_token\"".toList = b1
    generalize h2 : Contains body "name=\"submittedProblemIndex\"".toList = b2
    generalize h3 : Contains body "name=\"programTypeId\"".toList = b3
    generalize h4 : Contains body "name=\"source\"".toList = b4
    generalize h5 : Contains body "type=\"submit\"".toList = b5
    simp only [missingElements, submitPageChecks, List.filter_cons, List.filter_nil, h1, h2, h3,
      h4, h5]
    cases b1 <;> cases b2 <;> cases b3 <;> cases b4 <;> cases b5 <;> simp
  · intro hne
    rw [heq] at hne ⊢
    split_ifs at hne ⊢ with h
    · rfl
    · exact absurd rfl hne
  · intro check hc
    simp only [missingElements, List.mem_map, List.mem_filter]
    constructor
    · rintro ⟨x, ⟨hx, hxc⟩, hx1⟩
      have : x = check := by
        have hinj : ∀ a ∈ submitPageChecks, ∀ b ∈ submitPageChecks, a.1 = b.1 → a = b := by
          decide
        exact hinj x hx check hc hx1
      rw [← this]
      simpa using hxc
    · intro h
      exact ⟨check, ⟨hc, by simp [h]⟩, rfl⟩
  · intro hlen
    have := readAllLimited_small resp.Body MaxPageSize hlen
    rw [hread] at this
    exact this

set_option maxRecDepth 100000 in
theorem verifySubmitPage_spec_witness :
    ((Submitter.VerifySubmitPage ⟨blankSession⟩ (pageNet partialSubmitPage) 1).1 =
        some "submit page missing elements: language_select, submit_button") ∧
      (Submitter.VerifySubmitPage ⟨blankSession⟩ (pageNet fullSubmitPage) 1).1 = none := by
  have h := verifySubmitPage_spec ⟨blankSession⟩ (pageNet partialSubmitPage) 1
    { StatusCode := 200, Body := { data := partialSubmitPage } } partialSubmitPage rfl (by decide)
  have h2 := verifySubmitPage_spec ⟨blankSession⟩ (pageNet fullSubmitPage) 1
    { StatusCode := 200, Body := { data := fullSubmitPage } } fullSubmitPage rfl (by decide)
  refine ⟨?_, h2.1.mpr (by decide)⟩
  have h3 := h.2.1 (fun hn => by
    have := h.1.mp hn
    revert this
    decide)
  rw [h3]
  decide

/-! ## The order of the failure phrases (C25) -/

theorem successRedirect_of_status (resp : Response)
    (h : resp.StatusCode ≠ StatusFound ∧ resp.StatusCode ≠ StatusSeeOther) :
    successRedirect resp = false := by
  simp [successRedirect, h.1, h.2]

/-- C25. When the answer to the POST request is not a redirect to a `/my` or `/status`
location (in particular when its status is neither 302 nor 303), `Submit` reports the first
failure phrase, in the order duplicate code, source too long, not allowed, contest over,
that the body of the answer (as read within the size cap) contains. -/
theorem submit_phrase_order (s : Submitter) (net : Net) (now : Time) (contestID : Int)
    (problemIndex : Str) (langID : Int) (sourceCode body : Str) (resp : Response)
    (h : PostAnswered net contestID problemIndex langID sourceCode body resp)
    (hnr : successRedirect resp = false ∨
      (resp.StatusCode ≠ StatusFound ∧ resp.StatusCode ≠ StatusSeeOther)) :
    (Contains (readAllLimited resp.Body MaxPageSize).1
        "You have submitted exactly the same code before".toList = true →
      (s.Submit net now contestID problemIndex langID sourceCode).1 =
        .error "duplicate submission: you have submitted exactly the same code before") ∧
    (Contains (readAllLimited resp.Body MaxPageSize).1
        "You have submitted exactly the same code before".toList = false →
      Contains (readAllLimited resp.Body MaxPageSize).1 "Source code is too long".toList = true →
      (s.Submit net now contestID problemIndex langID sourceCode).1 =
        .error "source code is too long") ∧
    (Contains (readAllLimited resp.Body MaxPageSize).1
        "You have submitted exactly the same code before".toList = false →
      Contains (readAllLimited resp.Body MaxPageSize).1 "Source code is too long".toList = false →
      Contains (readAllLimited resp.Body MaxPageSize).1
        "You are not allowed to submit".toList = true →
      (s.Submit net now contestID problemIndex langID sourceCode).1 =
        .error "you are not allowed to submit to this contest") ∧
    (Contains (readAllLimited resp.Body MaxPageSize).1
        "You have submitted exactly the same code before".toList = false →
      Contains (readAllLimited resp.Body MaxPageSize).1 "Source code is too long".toList = false →
      Contains (readAllLimited resp.Body MaxPageSize).1
        "You are not allowed to submit".toList = false →
      Contains (readAllLimited resp.Body MaxPageSize).1 "Contest is over".toList = true →
      (s.Submit net now contestID problemIndex langID sourceCode).1 =
        .error "contest is over") ∧
    (resp.Body.data.length ≤ MaxPageSize →
      (readAllLimited resp.Body MaxPageSize).1 = resp.Body.data) := by
  have hnr' : successRedirect resp = false := by
    rcases hnr with hnr | hnr
    · exact hnr
    · exact successRedirect_of_status resp hnr
  rw [submit_eq_interpret s net now contestID problemIndex langID sourceCode body resp h]
  refine ⟨?_, ?_, ?_, ?_, readAllLimited_small _ _⟩
  · intro h1
    simp only [Submitter.interpret, hnr', h1, if_true, Bool.false_eq_true, if_false]
  · intro h1 h2
    simp only [Submitter.interpret, hnr', h1, h2, if_true, Bool.false_eq_true, if_false]
  · intro h1 h2 h3
    simp only [Submitter.interpret, hnr', h1, h2, h3, if_true, Bool.false_eq_true, if_false]
  · intro h1 h2 h3 h4
    simp only [Submitter.interpret, hnr', h1, h2, h3, h4, if_true, Bool.false_eq_true, if_false]

set_option maxRecDepth 100000 in
theorem submit_phrase_order_witness :
    Contains overAndTooLong.Body.data "Contest is over".toList = true ∧
    Contains overAndTooLong.Body.data "Source code is too long".toList = true ∧
    (Submitter.Submit ⟨blankSession⟩ (sampleNet overAndTooLong) 7 1 "A".toList 54
        "int main(){}".toList).1 = .error "source code is too long" :=
  ⟨by decide, by decide,
    (submit_phrase_order ⟨blankSession⟩ (sampleNet overAndTooLong) 7 1 "A".toList 54
      "int main(){}".toList samplePage overAndTooLong
      (sample_postAnswered _ (Or.inl (by decide)))
      (Or.inr (by decide))).2.1 (by decide) (by decide)⟩

/-! ## The language table (C26) -/

theorem firstLanguage_none (test : Language → Bool) (ls : List Language)
    (h : ∀ l ∈ ls, test l = false) : firstLanguage test ls = none := by
  induction ls with
  | nil => rfl
  | cons l ls ih =>
    simp only [firstLanguage, h l (List.mem_cons_self _ _), Bool.false_eq_true, if_false]
    exact ih (fun l' hl' => h l' (List.mem_cons_of_mem _ hl'))

theorem firstLanguage_some (test : Language → Bool) (ls : List Language) (l : Language)
    (h : firstLanguage test ls = some l) :
    ∃ pre post, ls = pre ++ l :: post ∧ test l = true ∧ ∀ x ∈ pre, test x = false := by
  induction ls with
  | nil => cases h
  | cons a ls ih =>
    simp only [firstLanguage] at h
    by_cases ha : test a = true
    · rw [if_pos ha] at h
      cases h
      exact ⟨[], ls, rfl, ha, by simp⟩
    · rw [if_neg ha] at h
      obtain ⟨pre, post, h1, h2, h3⟩ := ih h
      refine ⟨a :: pre, post, by rw [h1]; rfl, h2, ?_⟩
      intro x hx
      rcases List.mem_cons.mp hx with hx | hx
      · rw [hx]; simpa using ha
      · exact h3 x hx

set_option maxRecDepth 100000 in
/-- C26. Language IDs and compiler IDs are unique in `SupportedLanguages`; for every entry
`L` the lookups by `L.ID` and by `L.CompilerID` return `L`; an ID or compiler ID that no
entry carries gives `nil`; the lookup by extension returns the first entry of the table with
that extension (`.cpp`: `cpp17`, `.py`: `python3`, `.java`: `java17`) and `nil` when there
is none. -/
theorem supportedLanguages_lookup :
    (SupportedLanguages.map (fun l => l.ID)).Nodup ∧
    (SupportedLanguages.map (fun l => l.CompilerID)).Nodup ∧
    (∀ L ∈ SupportedLanguages,
      GetLanguageByID L.ID = some L ∧ GetLanguageByCompilerID L.CompilerID = some L) ∧
    (∀ id : Str, (∀ L ∈ SupportedLanguages, L.ID ≠ id) → GetLanguageByID id = none) ∧
    (∀ c : Int, (∀ L ∈ SupportedLanguages, L.CompilerID ≠ c) →
      GetLanguageByCompilerID c = none) ∧
    (∀ (ext : Str) (L : Language), GetLanguageByExtension ext = some L →
      ∃ pre post, SupportedLanguages = pre ++ L :: post ∧ L.Extension = ext ∧
        ∀ x ∈ pre, x.Extension ≠ ext) ∧
    (∀ ext : Str, (∀ L ∈ SupportedLanguages, L.Extension ≠ ext) →
      GetLanguageByExtension ext = none) ∧
    (GetLanguageByExtension ".cpp".toList).map (fun l => l.ID) = some "cpp17".toList ∧
    (GetLanguageByExtension ".py".toList).map (fun l => l.ID) = some "python3".toList ∧
    (GetLanguageByExtension ".java".toList).map (fun l => l.ID) = some "java17".toList ∧
    GetLanguageByExtension ".xyz".toList = none ∧
    GetLanguageByID "nonexistent".toList = none ∧
    GetLanguageByCompilerID 99999 = none := by
  refine ⟨by decide, by decide, by decide, ?_, ?_, ?_, ?_, by decide, by decide, by decide,
    by decide, by decide, by decide⟩
  · intro id h
    exact firstLanguage_none _ _ (fun l hl => by simpa using h l hl)
  · intro c h
    exact firstLanguage_none _ _ (fun l hl => by simpa using h l hl)
  · intro ext L h
    obtain ⟨pre, post, h1, h2, h3⟩ := firstLanguage_some _ _ _ h
    exact ⟨pre, post, h1, by simpa using h2, fun x hx => by simpa using h3 x hx⟩
  · intro ext h
    exact firstLanguage_none _ _ (fun l hl => by simpa using h l hl)

/-! ## The session expiry (C29) -/

/-- C29. The expiry that `SetSessionCookies` records is not enforced: two sessions that
differ only in `expiresAt` agree, at every clock value, on `IsAuthenticated`, on
`IsReadyForSubmission` and on whether `NewSubmitter` succeeds; a session used a year after
`expiresAt` is still authenticated when its bypass token and its cookie are live. -/
theorem expiresAt_not_enforced (s : Session) (e now : Time) :
    ({ s with expiresAt := e } : Session).IsAuthenticated now = s.IsAuthenticated now ∧
    ({ s with expiresAt := e } : Session).IsReadyForSubmission now =
      s.IsReadyForSubmission now ∧
    ((NewSubmitter { s with expiresAt := e } now).toOption.isSome =
      (NewSubmitter s now).toOption.isSome) ∧
    ((blankSession.SetFullAuth 100 "tok".toList "UA".toList (100 + 400 * 24 * Hour)
        "jsession".toList [] "tourist".toList).ExpiresAt = 100 + 24 * Hour ∧
      (blankSession.SetFullAuth 100 "tok".toList "UA".toList (100 + 400 * 24 * Hour)
        "jsession".toList [] "tourist".toList).IsReadyForSubmission (100 + 366 * 24 * Hour)
        = true) := by
  have h1 : ({ s with expiresAt := e } : Session).IsAuthenticated now = s.IsAuthenticated now :=
    rfl
  have h2 : ({ s with expiresAt := e } : Session).IsReadyForSubmission now =
      s.IsReadyForSubmission now := rfl
  refine ⟨h1, h2, ?_, by decide, by decide⟩
  unfold NewSubmitter
  rw [h2]
  split_ifs <;> rfl

/-! ## The cache (C27) -/

theorem mapGet_mapDelete {V : Type} (entries : List (Str × CacheEntry V)) (key : Str) :
    mapGet (mapDelete entries key) key = none := by
  induction entries with
  | nil => rfl
  | cons kv rest ih =>
    obtain ⟨k, e⟩ := kv
    by_cases h : k = key
    · simpa [mapDelete, h] using ih
    · simpa [mapDelete, h, mapGet] using ih

theorem mapGet_mapSet {V : Type} (entries : List (Str × CacheEntry V)) (key : Str)
    (entry : CacheEntry V) : mapGet (mapSet entries key entry) key = some entry := by
  simp [mapSet, mapGet]

theorem mapGet_none_of_not_mem {V : Type} (entries : List (Str × CacheEntry V)) (key : Str)
    (h : key ∉ entries.map Prod.fst) : mapGet entries key = none := by
  induction entries with
  | nil => rfl
  | cons kv rest ih =>
    obtain ⟨k, e⟩ := kv
    simp only [List.map_cons, List.mem_cons, not_or] at h
    simp only [mapGet, if_neg (Ne.symm h.1)]
    exact ih h.2

theorem cache_get_set {V : Type} (c : Cache V) (t now : Time) (k : Str) (v : Option V) :
    (c.Set t k v).Get now k = if now ≤ t + c.ttl then (v, true) else (none, false) := by
  simp only [Cache.Get, Cache.Set, mapGet_mapSet]
  by_cases h : now ≤ t + c.ttl
  · rw [if_neg (not_lt.mpr h), if_pos h]
  · rw [if_pos (not_le.mp h), if_neg h]

theorem cache_get_miss_later {V : Type} (c : Cache V) (now now3 : Time) (k : Str)
    (h3 : now ≤ now3) (hmiss : (c.Get now k).2 = false) : c.Get now3 k = (none, false) := by
  simp only [Cache.Get] at hmiss ⊢
  cases hm : mapGet c.entries k with
  | none => rfl
  | some e =>
    rw [hm] at hmiss
    simp only at hmiss ⊢
    by_cases he : e.Expiration < now
    · rw [if_pos (lt_of_lt_of_le he h3)]
    · rw [if_neg he] at hmiss
      cases hmiss

theorem cache_get_removeExpired {V : Type} (c : Cache V) (t0 now : Time) (k : Str)
    (ht0 : t0 ≤ now) (hnd : (c.entries.map Prod.fst).Nodup) :
    (c.removeExpired t0).Get now k = c.Get now k := by
  simp only [Cache.Get, Cache.removeExpired]
  generalize c.entries = es at hnd
  induction es with
  | nil => rfl
  | cons kv rest ih =>
    obtain ⟨k', e⟩ := kv
    simp only [List.map_cons, List.nodup_cons] at hnd
    by_cases he : e.Expiration < t0
    · have he' : e.Expiration < now := lt_of_lt_of_le he ht0
      simp only [List.filter_cons, he, decide_True, Bool.not_true, Bool.false_eq_true,
        if_false, mapGet]
      by_cases hk : k' = k
      · subst hk
        have h1 : mapGet (rest.filter (fun kv => !decide (kv.2.Expiration < t0))) k' = none :=
          mapGet_none_of_not_mem _ _ (fun hm => hnd.1 (by
            obtain ⟨x, hx, hxk⟩ := List.mem_map.mp hm
            exact List.mem_map.mpr ⟨x, (List.mem_filter.mp hx).1, hxk⟩))
        rw [h1]
        simp only [if_true, if_pos he']
      · rw [if_neg hk]
        exact ih hnd.2
    · simp only [List.filter_cons, he, decide_False, Bool.not_false, if_true, mapGet]
      by_cases hk : k' = k
      · simp only [if_pos hk]
      · simp only [if_neg hk]
        exact ih hnd.2

/-- The keys of the map stay distinct under every method. -/
theorem cache_keys_nodup {V : Type} (c : Cache V) (hnd : (c.entries.map Prod.fst).Nodup)
    (now : Time) (k : Str) (v : Option V) (d : Duration) :
    ((NewCache V d).entries.map Prod.fst).Nodup ∧
    ((c.Set now k v).entries.map Prod.fst).Nodup ∧
    ((c.SetWithTTL now k v d).entries.map Prod.fst).Nodup ∧
    ((c.Delete k).entries.map Prod.fst).Nodup ∧
    (c.Clear.entries.map Prod.fst).Nodup ∧
    ((c.removeExpired now).entries.map Prod.fst).Nodup := by
  have hf : ∀ p : Str × CacheEntry V → Bool, ((c.entries.filter p).map Prod.fst).Nodup :=
    fun p => (List.filter_sublist _).map _ |>.nodup hnd
  have hs : ∀ e : CacheEntry V, ((mapSet c.entries k e).map Prod.fst).Nodup := by
    intro e
    simp only [mapSet, List.map_cons, List.nodup_cons]
    refine ⟨?_, hf _⟩
    intro hm
    obtain ⟨x, hx, hxk⟩ := List.mem_map.mp hm
    have := (List.mem_filter.mp hx).2
    simp [hxk] at this
  exact ⟨List.nodup_nil, hs _, hs _, hf _, List.nodup_nil, hf _⟩

set_option maxRecDepth 100000 in
/-- C27, as stated, fails on an expired entry: the key was set at time 0 with TTL 1; at
time 5 `Get` misses, `GetOrSet` calls the failing callback once and returns its error, and
the cache still holds the entry for the key (`Size` is 1). -/
theorem getOrSet_error_keeps_expired_entry :
    staleCache.Get 5 "k".toList = (none, false) ∧
    staleCache.GetOrSet 5 6 "k".toList failingFn 0 =
      ((none, some "fetch error"), staleCache, 1) ∧
    mapGet (staleCache.GetOrSet 5 6 "k".toList failingFn 0).2.1.entries "k".toList =
      some { Value := some 7, Expiration := 1 } ∧
    (staleCache.GetOrSet 5 6 "k".toList failingFn 0).2.1.Size = 1 := by
  refine ⟨by decide, by decide, by decide, by decide⟩

/-- C27, amended. For every key `k` and value `v` in a cache with TTL `d`: after
`Set(k, v)` at time `t`, `Get(k)` returns `(v, true)` at every clock value not after `t + d`
and `(nil, false)` at every later one; `Get` of a key that has no entry, or was removed by
`Delete` or `Clear`, returns `(nil, false)`; a round of the cleanup goroutine does not
change what a later `Get` returns; `GetOrSet(k, fn)` on a hit returns the cached value and
does not run `fn`; on a miss it runs `fn` once and, when `fn` gives a value, stores it as
`Set` does and returns it; when `fn` gives an error it returns `(nil, err)` and leaves the
cache as it was, so that a later `Get(k)` still misses (an expired entry for `k` stays in
the map). -/
theorem cache_spec {V σ : Type} (c : Cache V) (k : Str) (v : Option V) (t now : Time) :
    ((c.Set t k v).Get now k = if now ≤ t + c.ttl then (v, true) else (none, false)) ∧
    (k ∉ c.entries.map Prod.fst → c.Get now k = (none, false)) ∧
    (NewCache V c.ttl).Get now k = (none, false) ∧
    (c.Delete k).Get now k = (none, false) ∧
    c.Clear.Get now k = (none, false) ∧
    (∀ t0 : Time, t0 ≤ now → (c.entries.map Prod.fst).Nodup →
      (c.removeExpired t0).Get now k = c.Get now k) ∧
    (∀ (fn : σ → (Option V × Option String) × σ) (st : σ) (now2 : Time) (x : Option V),
      c.Get now k = (x, true) → c.GetOrSet now now2 k fn st = ((x, none), c, st)) ∧
    (∀ (fn : σ → (Option V × Option String) × σ) (st : σ) (now2 : Time),
      (c.Get now k).2 = false → (fn st).1.2 = none →
        c.GetOrSet now now2 k fn st = (((fn st).1.1, none), c.Set now2 k (fn st).1.1, (fn st).2) ∧
        ∀ now3 : Time, now3 ≤ now2 + c.ttl →
          (c.GetOrSet now now2 k fn st).2.1.Get now3 k = ((fn st).1.1, true)) ∧
    (∀ (fn : σ → (Option V × Option String) × σ) (st : σ) (now2 : Time) (err : String),
      (c.Get now k).2 = false → (fn st).1.2 = some err →
        c.GetOrSet now now2 k fn st = ((none, some err), c, (fn st).2) ∧
        ∀ now3 : Time, now ≤ now3 →
          (c.GetOrSet now now2 k fn st).2.1.Get now3 k = (none, false)) := by
  refine ⟨cache_get_set c t now k v, ?_, rfl, ?_, rfl, ?_, ?_, ?_, ?_⟩
  · intro h
    simp [Cache.Get, mapGet_none_of_not_mem _ _ h]
  · simp [Cache.Get, Cache.Delete, mapGet_mapDelete]
  · intro t0 ht0 hnd
    exact cache_get_removeExpired c t0 now k ht0 hnd
  · intro fn st now2 x h
    simp only [Cache.GetOrSet, h]
  · intro fn st now2 hmiss hfn
    have h1 : c.GetOrSet now now2 k fn st =
        (((fn st).1.1, none), c.Set now2 k (fn st).1.1, (fn st).2) := by
      rcases hg : c.Get now k with ⟨x, b⟩
      rcases hf : fn st with ⟨⟨y, e⟩, st2⟩
      simp only [hg] at hmiss
      simp only [hf] at hfn
      subst hmiss hfn
      simp only [Cache.GetOrSet, hg, hf]
    refine ⟨h1, fun now3 h3 => ?_⟩
    rw [h1]
    simp only [cache_get_set, if_pos h3]
  · intro fn st now2 err hmiss hfn
    have h1 : c.GetOrSet now now2 k fn st = ((none, some err), c, (fn st).2) := by
      rcases hg : c.Get now k with ⟨x, b⟩
      rcases hf : fn st with ⟨⟨y, e⟩, st2⟩
      simp only [hg] at hmiss
      simp only [hf] at hfn
      subst hmiss hfn
      simp only [Cache.GetOrSet, hg, hf]
    refine ⟨h1, fun now3 h3 => ?_⟩
    rw [h1]
    exact cache_get_miss_later c now now3 k h3 hmiss

/-! ## Surrounding white space and the unit patterns -/

theorem greedy_none {α : Type} (p : Char → Bool) (min : Nat) (k : Str → Str → Option α)
    (acc t : Str) (h : ∀ u pre suf, t = pre ++ suf → k u suf = none) :
    greedy p min k acc t = none := by
  induction t generalizing acc with
  | nil => simp [greedy_nil, h acc [] [] rfl]
  | cons c t ih =>
    rw [greedy_cons, ih (acc ++ [c]) (fun u pre suf hs => h u (c :: pre) suf (by rw [hs]; rfl)),
      h acc [] (c :: t) rfl]
    simp

/-- Text appended to the input that the continuation cannot use leaves a greedy repetition
as it was. -/
theorem greedy_append {α : Type} (p : Char → Bool) (min : Nat) (k : Str → Str → Option α)
    (f : α → α) (ws : Str) (hk : ∀ u v, k u (v ++ ws) = (k u v).map f)
    (hend : ∀ u pre suf, ws = pre ++ suf → pre ≠ [] → k u suf = none) (acc s : Str) :
    greedy p min k acc (s ++ ws) = (greedy p min k acc s).map f := by
  induction s generalizing acc with
  | nil =>
    rw [List.nil_append, greedy_nil]
    have hk0 := hk acc []
    rw [List.nil_append] at hk0
    cases ws with
    | nil =>
      rw [greedy_nil]
      by_cases hm : min ≤ acc.length
      · simpa [hm] using hk0
      · simp [hm]
    | cons c t =>
      rw [greedy_cons, greedy_none p min k (acc ++ [c]) t
        (fun u pre suf hs => hend u (c :: pre) suf (by rw [hs]; rfl) (by simp)), hk0]
      by_cases hm : min ≤ acc.length <;> simp [hm]
  | cons c s ih =>
    rw [List.cons_append, greedy_cons, greedy_cons, ih, ← List.cons_append, hk]
    by_cases hp : p c = true <;> by_cases hm : min ≤ acc.length <;>
      cases greedy p min k (acc ++ [c]) s <;> simp [hp, hm]

theorem matchHere_lits_append (a b : Char) (ws v : Str) (ha : a ∉ ws) (hb : b ∉ ws) :
    matchHere [.lit a, .lit b] (v ++ ws) =
      (matchHere [.lit a, .lit b] v).map (fun r => (r.1, r.2 ++ ws)) := by
  have hws : ∀ c, c ∉ ws → matchHere [.lit c] ws = none := by
    intro c hc
    cases ws with
    | nil => rfl
    | cons d t =>
      have : d ≠ c := fun e => hc (e ▸ List.mem_cons_self _ _)
      simp [matchHere_lit_cons, this]
  have hws2 : matchHere [.lit a, .lit b] ws = none := by
    cases ws with
    | nil => rfl
    | cons d t =>
      have : d ≠ a := fun e => ha (e ▸ List.mem_cons_self _ _)
      simp [matchHere_lit_cons, this]
  match v with
  | [] => simpa [matchHere_lit_nil] using hws2
  | [x] =>
    by_cases hx : x = a
    · simpa [matchHere_lit_cons, matchHere_lit_nil, hx] using hws b hb
    · simp [matchHere_lit_cons, hx]
  | x :: y :: v' =>
    by_cases hx : x = a <;> by_cases hy : y = b <;>
      simp [matchHere_lit_cons, matchHere_nil, hx, hy]

/-- Text appended to the input that holds neither letter of the unit leaves a match of a
unit pattern as it was. -/
theorem matchHere_unit_append (k1 k2 : CharClass) (m1 m2 : Nat) (c1 c2 : Bool) (a b : Char)
    (ws s : Str) (ha : a ∉ ws) (hb : b ∉ ws) :
    matchHere [.rep k1 m1 c1, .rep k2 m2 c2, .lit a, .lit b] (s ++ ws) =
      (matchHere [.rep k1 m1 c1, .rep k2 m2 c2, .lit a, .lit b] s).map
        (fun r => (r.1, r.2 ++ ws)) := by
  have hsuf : ∀ (re : Regexp), Tok.lit a ∈ re → ∀ pre suf, ws = pre ++ suf →
      matchHere re suf = none := by
    intro re hre pre suf hs
    by_contra hn
    exact ha (by rw [hs]; exact List.mem_append_right _ (matchHere_lit_mem re suf hn a hre))
  have inner : ∀ v, matchHere [.rep k2 m2 c2, .lit a, .lit b] (v ++ ws) =
      (matchHere [.rep k2 m2 c2, .lit a, .lit b] v).map (fun r => (r.1, r.2 ++ ws)) := by
    intro v
    rw [matchHere_rep, matchHere_rep]
    apply greedy_append
    · intro u v
      rw [contK_apply, contK_apply, matchHere_lits_append a b ws v ha hb]
      cases matchHere [.lit a, .lit b] v <;> simp
    · intro u pre suf hs _
      rw [contK_apply, hsuf _ (by simp) pre suf hs]
      rfl
  rw [matchHere_rep, matchHere_rep]
  apply greedy_append
  · intro u v
    rw [contK_apply, contK_apply, inner v]
    cases matchHere [.rep k2 m2 c2, .lit a, .lit b] v <;> simp
  · intro u pre suf hs _
    rw [contK_apply, hsuf _ (by simp) pre suf hs]
    rfl

theorem findStringSubmatch_unit_append (k1 k2 : CharClass) (m1 m2 : Nat) (c1 c2 : Bool)
    (a b : Char) (ws s : Str) (ha : a ∉ ws) (hb : b ∉ ws) :
    FindStringSubmatch [.rep k1 m1 c1, .rep k2 m2 c2, .lit a, .lit b] (s ++ ws) =
      FindStringSubmatch [.rep k1 m1 c1, .rep k2 m2 c2, .lit a, .lit b] s := by
  induction s with
  | nil =>
    simp only [FindStringSubmatch, List.nil_append,
      findFirst_none_of_lit [.rep k1 m1 c1, .rep k2 m2 c2, .lit a, .lit b] ws a (by simp) ha,
      findFirst_none_of_lit [.rep k1 m1 c1, .rep k2 m2 c2, .lit a, .lit b] [] a (by simp)
        (List.not_mem_nil a)]
  | cons c s ih =>
    simp only [FindStringSubmatch] at ih ⊢
    rw [List.cons_append, findFirst_cons, findFirst_cons, ← List.cons_append,
      matchHere_unit_append k1 k2 m1 m2 c1 c2 a b ws (c :: s) ha hb]
    cases hm : matchHere [.rep k1 m1 c1, .rep k2 m2 c2, .lit a, .lit b] (c :: s) with
    | none => simpa using ih
    | some r =>
      obtain ⟨_, _, h3⟩ := matchHere_some _ _ r.1 r.2 hm
      have hl : r.2.length ≤ (c :: s).length := h3.length_le
      have e : (c :: s ++ ws).length - (r.2 ++ ws).length = (c :: s).length - r.2.length := by
        simp only [List.length_append]
        omega
      simp only [Option.map_some', e]
      rw [List.take_append_of_le_length (Nat.sub_le _ _)]

theorem findStringSubmatch_dropWhile (re ts : Regexp) (k : CharClass) (m : Nat) (cap : Bool)
    (hre : re = .rep k (m + 1) cap :: ts) (p : Char → Bool)
    (hp : ∀ c, p c = true → k.test c = false) (s : Str) :
    FindStringSubmatch re (s.dropWhile p) = FindStringSubmatch re s := by
  induction s with
  | nil => rfl
  | cons c s ih =>
    by_cases hc : p c = true
    · rw [List.dropWhile_cons_of_pos hc, ih]
      have : matchHere re (c :: s) = none := by
        rw [hre, matchHere_rep, greedy_cons, hp c hc]
        simp
      simp only [FindStringSubmatch, findFirst_cons, this]
    · rw [List.dropWhile_cons_of_neg hc]

theorem isSpace_not_digit (c : Char) (h : isSpace c = true) : digit.test c = false := by
  cases hd : digit.test c with
  | false => rfl
  | true =>
  exfalso
  have hd' : c ∈ ['0', '1', '2', '3', '4', '5', '6', '7', '8', '9'] := by
    simpa [CharClass.test, digit] using hd
  simp only [List.mem_cons, List.mem_singleton, List.not_mem_nil, or_false] at hd'
  rcases hd' with h' | h' | h' | h' | h' | h' | h' | h' | h' | h' <;> subst h' <;>
    exact absurd h (by decide)

/-- What `TrimSpace` removes at the end of a text. -/
theorem trimSpace_split (s : Str) :
    ∃ ws, s.dropWhile isSpace = TrimSpace s ++ ws ∧ ∀ c ∈ ws, isSpace c = true := by
  refine ⟨((s.dropWhile isSpace).reverse.takeWhile isSpace).reverse, ?_, ?_⟩
  · unfold TrimSpace
    rw [← List.reverse_append, List.takeWhile_append_dropWhile, List.reverse_reverse]
  · intro c hc
    exact List.mem_takeWhile_imp (List.mem_reverse.mp hc)

/-- The unit patterns do not see the white space `TrimSpace` removes. -/
theorem findStringSubmatch_trimSpace (a b : Char) (ha : isSpace a = false)
    (hb : isSpace b = false) (s : Str) :
    FindStringSubmatch [.rep digit 1 true, .rep space 0 false, .lit a, .lit b] (TrimSpace s) =
      FindStringSubmatch [.rep digit 1 true, .rep space 0 false, .lit a, .lit b] s := by
  obtain ⟨ws, h1, h2⟩ := trimSpace_split s
  have ha' : a ∉ ws := fun hm => by rw [h2 a hm] at ha; cases ha
  have hb' : b ∉ ws := fun hm => by rw [h2 b hm] at hb; cases hb
  rw [← findStringSubmatch_unit_append digit space 1 0 true false a b ws (TrimSpace s) ha' hb',
    ← h1]
  exact findStringSubmatch_dropWhile _ _ digit 0 true rfl isSpace isSpace_not_digit s

theorem parseTime_trimSpace (s : Str) : parseTime (TrimSpace s) = parseTime s := by
  have hre : reTimeMs = [.rep digit 1 true, .rep space 0 false, .lit 'm', .lit 's'] := rfl
  simp only [parseTime, hre, findStringSubmatch_trimSpace 'm' 's' (by decide) (by decide)]

theorem parseMemory_trimSpace (s : Str) : parseMemory (TrimSpace s) = parseMemory s := by
  have h1 : reMemoryMB = [.rep digit 1 true, .rep space 0 false, .lit 'M', .lit 'B'] := rfl
  have h2 : reMemoryKB = [.rep digit 1 true, .rep space 0 false, .lit 'K', .lit 'B'] := rfl
  simp only [parseMemory, h1, h2, findStringSubmatch_trimSpace 'M' 'B' (by decide) (by decide),
    findStringSubmatch_trimSpace 'K' 'B' (by decide) (by decide)]


/-! ## The data table of `GetSubmission` (C30) -/

theorem lastCell_cons (p : Str → Bool) (c : Str) (cs : List Str) :
    lastCell p (c :: cs) =
      match lastCell p cs with
      | some t => some t
      | none => if p c then some c else none := by
  unfold lastCell
  by_cases hc : p c = true
  · rw [List.filter_cons_of_pos hc, List.getLast?_cons]
    cases (cs.filter p).getLast? <;> simp [hc]
  · rw [List.filter_cons_of_neg hc]
    cases (cs.filter p).getLast? <;> simp [hc]

theorem contains_trimSpace_ms (s : Str) :
    Contains (TrimSpace s) "ms".toList = Contains s "ms".toList :=
  contains_trimSpace _ s 'm' ['s'] 's' ['m'] rfl (by decide) rfl (by decide)

theorem contains_trimSpace_KB (s : Str) :
    Contains (TrimSpace s) "KB".toList = Contains s "KB".toList :=
  contains_trimSpace _ s 'K' ['B'] 'B' ['K'] rfl (by decide) rfl (by decide)

theorem contains_trimSpace_MB (s : Str) :
    Contains (TrimSpace s) "MB".toList = Contains s "MB".toList :=
  contains_trimSpace _ s 'M' ['B'] 'B' ['M'] rfl (by decide) rfl (by decide)

theorem cellStep_fields (r : SubmissionResult) (c : Str) :
    (cellStep r c).Time = (if Contains c "ms".toList then parseTime c else r.Time) ∧
    (cellStep r c).Memory =
      (if Contains c "KB".toList || Contains c "MB".toList then parseMemory c else r.Memory) ∧
    (cellStep r c).SubmissionID = r.SubmissionID ∧ (cellStep r c).ContestID = r.ContestID ∧
    (cellStep r c).Verdict = r.Verdict ∧ (cellStep r c).SubmittedAt = r.SubmittedAt := by
  simp only [cellStep, contains_trimSpace_ms, contains_trimSpace_KB, contains_trimSpace_MB,
    parseTime_trimSpace, parseMemory_trimSpace]
  cases Contains c "ms".toList <;> cases Contains c "KB".toList <;>
    cases Contains c "MB".toList <;> simp

theorem foldl_cellStep (cells : List Str) (r : SubmissionResult) :
    (cells.foldl cellStep r).Time =
      (match lastCell (fun t => Contains t "ms".toList) cells with
        | some t => parseTime t
        | none => r.Time) ∧
    (cells.foldl cellStep r).Memory =
      (match lastCell (fun t => Contains t "KB".toList || Contains t "MB".toList) cells with
        | some t => parseMemory t
        | none => r.Memory) := by
  induction cells generalizing r with
  | nil => exact ⟨rfl, rfl⟩
  | cons c cs ih =>
    obtain ⟨h1, h2⟩ := ih (cellStep r c)
    obtain ⟨f1, f2, _⟩ := cellStep_fields r c
    rw [List.foldl_cons, h1, h2, lastCell_cons, lastCell_cons, f1, f2]
    constructor
    · cases lastCell (fun t => Contains t "ms".toList) cs with
      | some t => rfl
      | none => cases Contains c "ms".toList <;> rfl
    · cases lastCell (fun t => Contains t "KB".toList || Contains t "MB".toList) cs with
      | some t => rfl
      | none => cases (Contains c "KB".toList || Contains c "MB".toList) <;> rfl

/-- The world after a call of the submitter's `get` has the HTML library of the world
before it. -/
theorem submitter_get_parse (s : Submitter) (net : Net) (url : Str) :
    (s.get net url).2.parse = net.parse :=
  (do_fields net (getRequest url)).2.1

theorem detailNet_get (s : Submitter) (doc : Document) (url : Str) :
    s.get (detailNet doc) url =
      (.ok { StatusCode := 200, Body := { data := "<html></html>".toList } },
        { detailNet doc with sent := (detailNet doc).sent ++ [getRequest url] }) :=
  do_plain (detailNet doc) (getRequest url) _ ⟨rfl, Or.inl rfl⟩

/-- The outcome of `GetSubmission` is a function of what the HTML library makes of the whole
body that the fetch returns. -/
theorem getSubmission_parse (s : Submitter) (net : Net) (now : Time)
    (submissionID contestID : Int) (resp : Response)
    (hget : (s.get net (submissionURL contestID submissionID)).1 = .ok resp)
    (herr : resp.Body.err = none) :
    (s.GetSubmission net now submissionID contestID).1 =
      (s.GetSubmission (detailNet (net.parse resp.Body.data)) now submissionID contestID).1 := by
  have hget' : (s.get net (BaseURL ++ "/contest/".toList ++ Itoa contestID ++
      "/submission/".toList ++ Itoa submissionID)).1 = .ok resp := hget
  have hp := submitter_get_parse s net (BaseURL ++ "/contest/".toList ++ Itoa contestID ++
      "/submission/".toList ++ Itoa submissionID)
  unfold Submitter.GetSubmission
  simp only [detailNet_get]
  rcases hg : s.get net (BaseURL ++ "/contest/".toList ++ Itoa contestID ++
      "/submission/".toList ++ Itoa submissionID) with ⟨r, net'⟩
  rw [hg] at hget' hp
  simp only at hget' hp
  subst hget'
  simp only [NewDocumentFromReader, herr, hp, detailNet]
  split_ifs <;> rfl

theorem getSubmission_detailNet_cells (s : Submitter) (doc : Document) (now : Time)
    (submissionID contestID : Int) :
    ∃ r, (s.GetSubmission (detailNet doc) now submissionID contestID).1 = .ok r ∧
      r.Time =
        (match lastCell (fun t => Contains t "ms".toList) doc.cells with
          | some t => parseTime t
          | none => 0) ∧
      r.Memory =
        (match lastCell (fun t => Contains t "KB".toList || Contains t "MB".toList) doc.cells with
          | some t => parseMemory t
          | none => 0) := by
  obtain ⟨h1, h2⟩ := foldl_cellStep doc.cells
    { SubmissionID := submissionID, ContestID := contestID,
      Verdict := TrimSpace doc.verdictText, SubmittedAt := now }
  have hfold : ∀ (cells : List Str) (r : SubmissionResult),
      cells.foldl (fun (result : SubmissionResult) sel =>
        let text := TrimSpace sel
        let result := if Contains text "ms".toList then { result with Time := parseTime text }
          else result
        if Contains text "KB".toList = true ∨ Contains text "MB".toList = true then
          { result with Memory := parseMemory text }
        else result) r = cells.foldl cellStep r := fun _ _ => rfl
  unfold Submitter.GetSubmission
  simp only [detailNet_get]
  simp only [NewDocumentFromReader, detailNet, hfold]
  split_ifs <;> exact ⟨_, rfl, h1, h2⟩

/-- C30. When the submission page is fetched and parsed, `GetSubmission` returns a result
whose `Time` is `parseTime` of the last cell of the data table (in document order) whose
text contains `ms`, and whose `Memory` is `parseMemory` of the last cell whose text contains
`KB` or `MB`; each is 0 when no cell qualifies. -/
theorem getSubmission_last_cell (s : Submitter) (net : Net) (now : Time)
    (submissionID contestID : Int) (resp : Response)
    (hget : (s.get net (submissionURL contestID submissionID)).1 = .ok resp)
    (herr : resp.Body.err = none) :
    ∃ r, (s.GetSubmission net now submissionID contestID).1 = .ok r ∧
      r.Time =
        (match lastCell (fun t => Contains t "ms".toList) (net.parse resp.Body.data).cells with
          | some t => parseTime t
          | none => 0) ∧
      r.Memory =
        (match lastCell (fun t => Contains t "KB".toList || Contains t "MB".toList)
            (net.parse resp.Body.data).cells with
          | some t => parseMemory t
          | none => 0) := by
  rw [getSubmission_parse s net now submissionID contestID resp hget herr]
  exact getSubmission_detailNet_cells s _ now submissionID contestID

set_option maxRecDepth 100000 in
theorem getSubmission_last_cell_witness :
    ∃ r, (Submitter.GetSubmission ⟨blankSession⟩ (detailNet resetPage) 7 4242 1).1 = .ok r ∧
      r.Time = 0 ∧ r.Memory = 0 := by
  obtain ⟨r, h, h1, h2⟩ := getSubmission_last_cell ⟨blankSession⟩ (detailNet resetPage) 7 4242 1
    { StatusCode := 200, Body := { data := "<html></html>".toList } } rfl rfl
  refine ⟨r, h, ?_, ?_⟩
  · rw [h1]; decide
  · rw [h2]; decide

/-! ## Idempotence of `normalizeVerdict` (C28) -/

theorem dropWhile_of_head (p : Char → Bool) (l : Str) (h : ∀ c ∈ l.head?, p c = false) :
    l.dropWhile p = l := by
  cases l with
  | nil => rfl
  | cons c t => simp [List.dropWhile_cons, h c (by simp)]

theorem head_dropWhile (p : Char → Bool) (l : Str) : ∀ c ∈ (l.dropWhile p).head?, p c = false := by
  induction l with
  | nil => intro c hc; cases hc
  | cons d t ih =>
    by_cases hd : p d = true
    · rw [List.dropWhile_cons_of_pos hd]; exact ih
    · rw [List.dropWhile_cons_of_neg hd]
      intro c hc
      simp only [List.head?_cons, Option.mem_def, Option.some.injEq] at hc
      rw [← hc]; simpa using hd

theorem trimSpace_idem (s : Str) : TrimSpace (TrimSpace s) = TrimSpace s := by
  obtain ⟨ws, h1, _⟩ := trimSpace_split s
  have hhead : ∀ c ∈ (TrimSpace s).head?, isSpace c = false := by
    intro c hc
    have := head_dropWhile isSpace s
    rw [h1] at this
    apply this
    cases hT : TrimSpace s with
    | nil => rw [hT] at hc; cases hc
    | cons d t => rw [hT] at hc; simpa using hc
  have hlast : ∀ c ∈ (TrimSpace s).reverse.head?, isSpace c = false := by
    unfold TrimSpace
    rw [List.reverse_reverse]
    exact head_dropWhile isSpace _
  generalize TrimSpace s = T at hhead hlast
  show ((T.dropWhile isSpace).reverse.dropWhile isSpace).reverse = T
  rw [dropWhile_of_head isSpace T hhead, dropWhile_of_head isSpace _ hlast,
    List.reverse_reverse]

theorem contains_trimSpace_known (v : Str) :
    ∀ k ∈ knownSubstrings, Contains (TrimSpace v) k = Contains v k := by
  intro k hk
  simp only [knownSubstrings, List.mem_cons, List.mem_singleton, List.not_mem_nil, or_false] at hk
  rcases hk with h | h | h | h | h | h | h | h | h <;> subst h
  · exact contains_trimSpace _ v 'A' _ 'd' _ rfl (by decide) rfl (by decide)
  · exact contains_trimSpace _ v 'W' _ 'r' _ rfl (by decide) rfl (by decide)
  · exact contains_trimSpace _ v 'T' _ 't' _ rfl (by decide) rfl (by decide)
  · exact contains_trimSpace _ v 'M' _ 't' _ rfl (by decide) rfl (by decide)
  · exact contains_trimSpace _ v 'R' _ 'r' _ rfl (by decide) rfl (by decide)
  · exact contains_trimSpace _ v 'C' _ 'r' _ rfl (by decide) rfl (by decide)
  · exact contains_trimSpace _ v 'P' _ 'r' _ rfl (by decide) rfl (by decide)
  · exact contains_trimSpace _ v 'I' _ 's' _ rfl (by decide) rfl (by decide)
  · exact contains_trimSpace _ v 'H' _ 'd' _ rfl (by decide) rfl (by decide)

set_option maxRecDepth 100000 in
theorem normalizeVerdict_names : ∀ o ∈ verdictNames,
    normalizeVerdict o = o ∧ ∀ k ∈ knownSubstrings, Contains o k = false := by
  decide

/-- The result of `normalizeVerdict` is one of the nine names, or the trimmed text when that
contains no known substring. -/
theorem normalizeVerdict_cases (v : Str) :
    normalizeVerdict v ∈ verdictNames ∨
      (normalizeVerdict v = TrimSpace v ∧
        ∀ k ∈ knownSubstrings, Contains (TrimSpace v) k = false) := by
  unfold normalizeVerdict
  simp only
  split_ifs with h1 h2 h3 h4 h5 h6 h7 h8 h9
  · left; decide
  · left; decide
  · left; decide
  · left; decide
  · left; decide
  · left; decide
  · left; decide
  · left; decide
  · left; decide
  · right
    refine ⟨rfl, ?_⟩
    intro k hk
    simp only [knownSubstrings, List.mem_cons, List.mem_singleton, List.not_mem_nil,
      or_false] at hk
    rcases hk with h | h | h | h | h | h | h | h | h <;> subst h
    · exact (Bool.not_eq_true _).mp h1
    · exact (Bool.not_eq_true _).mp h2
    · exact (Bool.not_eq_true _).mp h3
    · exact (Bool.not_eq_true _).mp h4
    · exact (Bool.not_eq_true _).mp h5
    · exact (Bool.not_eq_true _).mp h6
    · exact (Bool.not_eq_true _).mp h7
    · exact (Bool.not_eq_true _).mp h8
    · exact (Bool.not_eq_true _).mp h9

/-- C28. The function `normalizeVerdict` is idempotent; none of its nine names contains a
known substring; trimming surrounding white space neither creates nor removes an occurrence
of a known substring. -/
theorem normalizeVerdict_idempotent (v : Str) :
    normalizeVerdict (normalizeVerdict v) = normalizeVerdict v ∧
    (∀ o ∈ verdictNames, ∀ k ∈ knownSubstrings, Contains o k = false) ∧
    (∀ k ∈ knownSubstrings, Contains (TrimSpace v) k = Contains v k) := by
  refine ⟨?_, fun o ho => (normalizeVerdict_names o ho).2, contains_trimSpace_known v⟩
  rcases normalizeVerdict_cases v with h | ⟨h1, h2⟩
  · exact (normalizeVerdict_names _ h).1
  · rw [h1]
    have h3 : ∀ k ∈ knownSubstrings, Contains (TrimSpace (TrimSpace v)) k = false := by
      intro k hk
      rw [trimSpace_idem]
      exact h2 k hk
    have e : normalizeVerdict (TrimSpace v) = TrimSpace (TrimSpace v) := by
      unfold normalizeVerdict
      simp only [h3 _ (show "Accepted".toList ∈ knownSubstrings by decide),
        h3 _ (show "Wrong answer".toList ∈ knownSubstrings by decide),
        h3 _ (show "Time limit".toList ∈ knownSubstrings by decide),
        h3 _ (show "Memory limit".toList ∈ knownSubstrings by decide),
        h3 _ (show "Runtime error".toList ∈ knownSubstrings by decide),
        h3 _ (show "Compilation error".toList ∈ knownSubstrings by decide),
        h3 _ (show "Presentation error".toList ∈ knownSubstrings by decide),
        h3 _ (show "Idleness".toList ∈ knownSubstrings by decide),
        h3 _ (show "Hacked".toList ∈ knownSubstrings by decide), Bool.false_eq_true, if_false]
    rw [e, trimSpace_idem]

/-! ## The size cap (C24) -/

theorem readAllLimited_agree (b1 b2 : Body) (n : Nat) (h : b1.data.take n = b2.data.take n)
    (h1 : n ≤ b1.data.length) (h2 : n ≤ b2.data.length) :
    readAllLimited b1 n = readAllLimited b2 n := by
  simp only [readAllLimited, if_pos h1, if_pos h2, h]

theorem paddedPage_take (x : Str) :
    (paddedPage x).take MaxPageSize = List.replicate MaxPageSize ' ' :=
  List.take_left' (List.length_replicate _ _)

theorem reVerdictSpan_eq : reVerdictSpan =
    .lit '<' :: (lits "span class=\"verdict-" ++ [.rep notQuote 1 true] ++ lits "\">" ++
      [.rep notLt 0 true] ++ lits "</span>") := rfl

/-- Blanks before the markup do not change what the stand-in for the HTML library sees. -/
theorem spanParser_blanks (n : Nat) (x : Str) :
    spanParser (List.replicate n ' ' ++ x) = spanParser x := by
  have h : ∀ n : Nat, findFirst reVerdictSpan (List.replicate n ' ' ++ x) =
      findFirst reVerdictSpan x := by
    intro n
    induction n with
    | zero => rfl
    | succ n ih =>
      rw [List.replicate_succ, List.cons_append, findFirst_cons, reVerdictSpan_eq,
        matchHere_lit_cons, if_neg (by decide), ← reVerdictSpan_eq]
      exact ih
  simp only [spanParser, FindStringSubmatch, h n]

/-- The outcome of `getLatestSubmission` is a function of what the HTML library makes of
the whole body that the fetch returns. -/
theorem getLatestSubmission_parse (s : Submitter) (net : Net) (now : Time) (contestID : Int)
    (problemIndex : Str) (resp : Response)
    (hget : (s.get net (BaseURL ++ "/contest/".toList ++ Itoa contestID ++ "/my".toList)).1 =
      .ok resp)
    (herr : resp.Body.err = none) :
    (s.getLatestSubmission net now contestID problemIndex).1 =
      (s.getLatestSubmission (detailNet (net.parse resp.Body.data)) now contestID
        problemIndex).1 := by
  have hp := submitter_get_parse s net
    (BaseURL ++ "/contest/".toList ++ Itoa contestID ++ "/my".toList)
  unfold Submitter.getLatestSubmission
  simp only [detailNet_get]
  rcases hg : s.get net (BaseURL ++ "/contest/".toList ++ Itoa contestID ++ "/my".toList) with
    ⟨r, net'⟩
  rw [hg] at hget hp
  simp only at hget hp
  subst hget
  simp only [NewDocumentFromReader, herr, hp, detailNet]
  cases (net.parse resp.Body.data).rows <;> rfl

set_option maxRecDepth 100000 in
/-- C24 at a failing input: two submission pages that agree on their first 5 MB (blanks)
and hold, after them, a verdict element `Accepted` and a verdict element
`Wrong answer on test 1`. A read capped at `MaxPageSize` gives the same text for both, in
which the HTML library finds no verdict element; yet `GetSubmission`, which hands the whole
body to the HTML library, gives different outcomes, read from beyond the first 5 MB. -/
theorem getSubmission_reads_past_cap :
    (paddedPage (verdictMarkup "accepted".toList "Accepted".toList)).take MaxPageSize =
      (paddedPage (verdictMarkup "rejected".toList "Wrong answer on test 1".toList)).take
        MaxPageSize ∧
    readAllLimited
        { data := paddedPage (verdictMarkup "accepted".toList "Accepted".toList) } MaxPageSize =
      readAllLimited
        { data := paddedPage (verdictMarkup "rejected".toList "Wrong answer on test 1".toList) }
        MaxPageSize ∧
    spanParser ((paddedPage (verdictMarkup "accepted".toList "Accepted".toList)).take
      MaxPageSize) = noDocument ∧
    (Submitter.GetSubmission ⟨blankSession⟩
        (paddedNet (verdictMarkup "accepted".toList "Accepted".toList)) 7 4242 1).1 =
      .ok { SubmissionID := 4242, ContestID := 1, ProblemIndex := [], Verdict := "OK".toList,
            Time := 0, Memory := 0, PassedTests := 0, SubmittedAt := 7,
            Status := "Accepted".toList } ∧
    (Submitter.GetSubmission ⟨blankSession⟩
        (paddedNet (verdictMarkup "rejected".toList "Wrong answer on test 1".toList))
        7 4242 1).1 =
      .ok { SubmissionID := 4242, ContestID := 1, ProblemIndex := [],
            Verdict := "Wrong answer on test 1".toList, Time := 0, Memory := 0,
            PassedTests := 0, SubmittedAt := 7, Status := "Judged".toList } := by
  have hlen : ∀ x : Str, MaxPageSize ≤ (paddedPage x).length := by
    intro x
    simp [paddedPage]
  have hget : ∀ x : Str, (Submitter.get ⟨blankSession⟩ (paddedNet x)
      (submissionURL 1 4242)).1 = .ok { StatusCode := 200, Body := { data := paddedPage x } } := by
    intro x
    show ((paddedNet x).Do (getRequest (submissionURL 1 4242))).1 = _
    rw [do_plain (paddedNet x) _ _ ⟨rfl, Or.inl rfl⟩]
  have hparse : ∀ x : Str, (paddedNet x).parse (paddedPage x) = spanParser x :=
    fun x => spanParser_blanks MaxPageSize x
  refine ⟨?_, ?_, ?_, ?_, ?_⟩
  · rw [paddedPage_take, paddedPage_take]
  · exact readAllLimited_agree _ _ _ (by rw [paddedPage_take, paddedPage_take]) (hlen _) (hlen _)
  · rw [paddedPage_take]
    have := spanParser_blanks MaxPageSize []
    rw [List.append_nil] at this
    rw [this]
    decide
  · rw [getSubmission_parse _ (paddedNet _) 7 4242 1 _ (hget _) rfl]
    show (Submitter.GetSubmission _ (detailNet ((paddedNet _).parse (paddedPage _))) 7 4242 1).1
      = _
    rw [hparse]
    decide
  · rw [getSubmission_parse _ (paddedNet _) 7 4242 1 _ (hget _) rfl]
    show (Submitter.GetSubmission _ (detailNet ((paddedNet _).parse (paddedPage _))) 7 4242 1).1
      = _
    rw [hparse]
    decide

/-! ## `WaitForVerdict` (C21) -/

theorem waitLoop_succ (s : Submitter) (clock : Nat → Time) (submissionID contestID : Int)
    (deadline : Time) (fuel j : Nat) (net : Net) :
    waitLoop s clock submissionID contestID deadline (fuel + 1) j net =
      if clock (2 * j + 1) < deadline then
        match s.GetSubmission net (clock (2 * j + 2)) submissionID contestID with
        | (.error err, net) => some (.error err, net)
        | (.ok result, net) =>
          if result.Status ≠ "In queue".toList ∧ result.Status ≠ "Running".toList then
            some (.ok result, net)
          else waitLoop s clock submissionID contestID deadline fuel (j + 1) net
      else some (.error "timeout waiting for verdict", net) := rfl

/-- More fuel does not change a result. -/
theorem waitLoop_mono (s : Submitter) (clock : Nat → Time) (submissionID contestID : Int)
    (deadline : Time) (fuel k j : Nat) (net : Net) (out : Except String SubmissionResult × Net)
    (h : waitLoop s clock submissionID contestID deadline fuel j net = some out) :
    waitLoop s clock submissionID contestID deadline (fuel + k) j net = some out := by
  induction fuel generalizing j net with
  | zero => cases h
  | succ fuel ih =>
    rw [Nat.add_right_comm, waitLoop_succ]
    rw [waitLoop_succ] at h
    by_cases hc : clock (2 * j + 1) < deadline
    · rw [if_pos hc] at h ⊢
      rcases hp : s.GetSubmission net (clock (2 * j + 2)) submissionID contestID with ⟨r, net'⟩
      rw [hp] at h
      cases r with
      | error err => exact h
      | ok result =>
        simp only at h ⊢
        by_cases hs : result.Status ≠ "In queue".toList ∧ result.Status ≠ "Running".toList
        · rw [if_pos hs] at h ⊢
          exact h
        · rw [if_neg hs] at h ⊢
          exact ih _ _ h
    · rw [if_neg hc] at h ⊢
      exact h

/-- What the loop returns: the first poll that fails or whose snapshot is neither in queue
nor running, when the deadline has not passed at its loop test; otherwise the timeout
error, with the world as the last poll left it. -/
theorem waitLoop_spec (s : Submitter) (clock : Nat → Time) (submissionID contestID : Int)
    (deadline : Time) (net0 : Net) (fuel j : Nat) (out : Except String SubmissionResult × Net)
    (hinv : ∀ i < j, clock (2 * i + 1) < deadline ∧
      stillJudging (poll s clock submissionID contestID net0 i).1 = true)
    (h : waitLoop s clock submissionID contestID deadline fuel j
      (pollNet s clock submissionID contestID net0 j) = some out) :
    ∃ n, (∀ i < n, clock (2 * i + 1) < deadline ∧
        stillJudging (poll s clock submissionID contestID net0 i).1 = true) ∧
      ((clock (2 * n + 1) < deadline ∧ out = poll s clock submissionID contestID net0 n ∧
          stillJudging (poll s clock submissionID contestID net0 n).1 = false) ∨
        (¬ clock (2 * n + 1) < deadline ∧
          out = (.error "timeout waiting for verdict",
            pollNet s clock submissionID contestID net0 n))) := by
  induction fuel generalizing j with
  | zero => cases h
  | succ fuel ih =>
    rw [waitLoop_succ] at h
    by_cases hc : clock (2 * j + 1) < deadline
    · rw [if_pos hc] at h
      have hpoll : poll s clock submissionID contestID net0 j =
          s.GetSubmission (pollNet s clock submissionID contestID net0 j) (clock (2 * j + 2))
            submissionID contestID := rfl
      rcases hp : s.GetSubmission (pollNet s clock submissionID contestID net0 j)
        (clock (2 * j + 2)) submissionID contestID with ⟨r, net'⟩
      rw [hp] at h hpoll
      cases r with
      | error err =>
        simp only [Option.some.injEq] at h
        exact ⟨j, hinv, Or.inl ⟨hc, by rw [hpoll, h], by rw [hpoll]; rfl⟩⟩
      | ok result =>
        simp only at h
        by_cases hs : result.Status ≠ "In queue".toList ∧ result.Status ≠ "Running".toList
        · rw [if_pos hs] at h
          simp only [Option.some.injEq] at h
          refine ⟨j, hinv, Or.inl ⟨hc, by rw [hpoll, h], ?_⟩⟩
          rw [hpoll]
          simp only [stillJudging, Bool.or_eq_false_iff, decide_eq_false_iff_not]
          exact hs
        · rw [if_neg hs] at h
          have hnext : pollNet s clock submissionID contestID net0 (j + 1) = net' := by
            show (s.GetSubmission (pollNet s clock submissionID contestID net0 j)
              (clock (2 * j + 2)) submissionID contestID).2 = net'
            rw [hp]
          rw [← hnext] at h
          refine ih (j + 1) ?_ h
          intro i hi
          rcases Nat.lt_succ_iff_lt_or_eq.mp hi with hi | hi
          · exact hinv i hi
          · subst hi
            refine ⟨hc, ?_⟩
            rw [hpoll]
            simp only [stillJudging, Bool.or_eq_true, decide_eq_true_eq]
            by_contra hn
            exact hs ⟨fun e => hn (Or.inl e), fun e => hn (Or.inr e)⟩
    · rw [if_neg hc] at h
      simp only [Option.some.injEq] at h
      exact ⟨j, hinv, Or.inr ⟨hc, h.symm⟩⟩

/-- The loop returns when the clock advances by at least two seconds from one loop test to
the next (the effect of `time.Sleep`) and the fuel covers the time left. -/
theorem waitLoop_returns (s : Submitter) (clock : Nat → Time) (submissionID contestID : Int)
    (deadline : Time)
    (hclock : ∀ j, clock (2 * j + 1) + 2 * Second ≤ clock (2 * (j + 1) + 1))
    (fuel j : Nat) (net : Net) (hfuel : deadline - clock (2 * j + 1) ≤ 2 * Second * (fuel : Int)) :
    waitLoop s clock submissionID contestID deadline (fuel + 1) j net ≠ none := by
  induction fuel generalizing j net with
  | zero =>
    rw [waitLoop_succ]
    have hc : ¬ clock (2 * j + 1) < deadline := by
      simp only [Nat.cast_zero, mul_zero] at hfuel
      exact not_lt.mpr (sub_nonpos.mp hfuel)
    rw [if_neg hc]
    simp
  | succ fuel ih =>
    rw [waitLoop_succ]
    by_cases hc : clock (2 * j + 1) < deadline
    · rw [if_pos hc]
      rcases hp : s.GetSubmission net (clock (2 * j + 2)) submissionID contestID with ⟨r, net'⟩
      cases r with
      | error err => simp
      | ok result =>
        simp only
        by_cases hs : result.Status ≠ "In queue".toList ∧ result.Status ≠ "Running".toList
        · rw [if_pos hs]; simp
        · rw [if_neg hs]
          apply ih
          have h1 := hclock j
          have h2 : (2 : Int) * Second * ((fuel + 1 : Nat) : Int) =
              2 * Second * (fuel : Int) + 2 * Second := by push_cast; ring
          rw [h2] at hfuel
          linarith
    · rw [if_neg hc]
      simp

/-- With a clock that advances by at least two seconds from one loop test to the next,
`WaitForVerdict` returns once the fuel exceeds the number of two-second steps in the
timeout by two; more fuel gives the same result. -/
theorem waitForVerdict_returns (s : Submitter) (net : Net) (clock : Nat → Time)
    (submissionID contestID : Int) (timeout : Duration) (h01 : clock 0 ≤ clock 1)
    (hclock : ∀ j, clock (2 * j + 1) + 2 * Second ≤ clock (2 * (j + 1) + 1)) (k : Nat) :
    ∃ out, s.WaitForVerdict net clock ((timeout / (2 * Second)).toNat + 2 + k) submissionID
      contestID timeout = some out := by
  have hne := waitLoop_returns s clock submissionID contestID (clock 0 + timeout) hclock
    ((timeout / (2 * Second)).toNat + 1) 0 net (by
      have hS : (0 : Int) < 2 * Second := by decide
      have h1 : timeout < 2 * Second * (timeout / (2 * Second) + 1) := by
        have := Int.lt_ediv_add_one_mul_self timeout hS
        linarith
      have h2 : timeout / (2 * Second) ≤ ((timeout / (2 * Second)).toNat : Int) :=
        Int.self_le_toNat _
      have h3 : (((timeout / (2 * Second)).toNat + 1 : Nat) : Int) =
          ((timeout / (2 * Second)).toNat : Int) + 1 := by push_cast; rfl
      rw [h3]
      have h4 : 2 * Second * (timeout / (2 * Second) + 1) ≤
          2 * Second * (((timeout / (2 * Second)).toNat : Int) + 1) :=
        mul_le_mul_of_nonneg_left (by linarith) (le_of_lt hS)
      have h5 : clock (2 * 0 + 1) = clock 1 := rfl
      rw [h5]
      linarith)
  obtain ⟨out, hout⟩ := Option.ne_none_iff_exists'.mp hne
  exact ⟨out, waitLoop_mono s clock submissionID contestID _ _ k 0 net out hout⟩

/-- C21. When `WaitForVerdict` returns `out` (a result or an error, and the world it
leaves): if `out` is a result, it is the snapshot of the last poll made, all polls before
it gave a snapshot in queue or running, and its status is neither `In queue` nor `Running`;
and if a poll that is made (all polls before it gave a snapshot in queue or running, and
the deadline had not passed at any loop test up to its own) fails, `out` is that poll's
error and the world right after that poll, so no further poll was made. -/
theorem waitForVerdict_spec (s : Submitter) (net : Net) (clock : Nat → Time) (fuel : Nat)
    (submissionID contestID : Int) (timeout : Duration)
    (out : Except String SubmissionResult × Net)
    (h : s.WaitForVerdict net clock fuel submissionID contestID timeout = some out) :
    (∀ result, out.1 = .ok result →
      ∃ n, (∀ i < n, clock (2 * i + 1) < clock 0 + timeout ∧
          stillJudging (poll s clock submissionID contestID net i).1 = true) ∧
        clock (2 * n + 1) < clock 0 + timeout ∧
        out = poll s clock submissionID contestID net n ∧
        result.Status ≠ "In queue".toList ∧ result.Status ≠ "Running".toList) ∧
    (∀ n err, (∀ i < n, clock (2 * i + 1) < clock 0 + timeout ∧
          stillJudging (poll s clock submissionID contestID net i).1 = true) →
        clock (2 * n + 1) < clock 0 + timeout →
        (poll s clock submissionID contestID net n).1 = .error err →
        out = poll s clock submissionID contestID net n) := by
  obtain ⟨m, hm, hout⟩ := waitLoop_spec s clock submissionID contestID (clock 0 + timeout) net
    fuel 0 out (fun i hi => absurd hi (Nat.not_lt_zero i)) h
  constructor
  · intro result hr
    rcases hout with ⟨hc, ho, hj⟩ | ⟨_, ho⟩
    · refine ⟨m, hm, hc, ho, ?_⟩
      rw [← ho, hr] at hj
      simp only [stillJudging, Bool.or_eq_false_iff, decide_eq_false_iff_not] at hj
      exact hj
    · rw [ho] at hr
      cases hr
  · intro n err hn hc he
    have hnj : stillJudging (poll s clock submissionID contestID net n).1 = false := by
      rw [he]; rfl
    rcases Nat.lt_trichotomy m n with hlt | heq | hgt
    · exfalso
      obtain ⟨hcm, hjm⟩ := hn m hlt
      rcases hout with ⟨_, _, hj⟩ | ⟨hc', _⟩
      · rw [hjm] at hj; cases hj
      · exact hc' hcm
    · subst heq
      rcases hout with ⟨_, ho, _⟩ | ⟨hc', _⟩
      · exact ho
      · exact absurd hc hc'
    · exfalso
      have := (hm n hgt).2
      rw [hnj] at this
      cases this


set_option maxRecDepth 100000 in
theorem waitForVerdict_spec_witness :
    (Submitter.WaitForVerdict ⟨blankSession⟩ judgingNet sampleClock 5 4242 1 (60 * Second) =
        some (poll ⟨blankSession⟩ sampleClock 4242 1 judgingNet 2) ∧
      (poll ⟨blankSession⟩ sampleClock 4242 1 judgingNet 2).1 =
        .ok { SubmissionID := 4242, ContestID := 1, ProblemIndex := [], Verdict := "OK".toList,
              Time := 46000000, Memory := 102400, PassedTests := 0, SubmittedAt := 6000000000,
              Status := "Accepted".toList } ∧
      (poll ⟨blankSession⟩ sampleClock 4242 1 judgingNet 2).2.sent.length = 3) ∧
    (Submitter.WaitForVerdict ⟨blankSession⟩ failingNet sampleClock 5 4242 1 (60 * Second) =
        some (poll ⟨blankSession⟩ sampleClock 4242 1 failingNet 1) ∧
      (poll ⟨blankSession⟩ sampleClock 4242 1 failingNet 1).1 =
        .error "get submission status: connection reset" ∧
      (poll ⟨blankSession⟩ sampleClock 4242 1 failingNet 1).2.sent.length = 2) ∧
    (∀ result, (poll ⟨blankSession⟩ sampleClock 4242 1 judgingNet 2).1 = .ok result →
      ∃ n, (∀ i < n, sampleClock (2 * i + 1) < sampleClock 0 + 60 * Second ∧
          stillJudging (poll ⟨blankSession⟩ sampleClock 4242 1 judgingNet i).1 = true) ∧
        sampleClock (2 * n + 1) < sampleClock 0 + 60 * Second ∧
        poll ⟨blankSession⟩ sampleClock 4242 1 judgingNet 2 =
          poll ⟨blankSession⟩ sampleClock 4242 1 judgingNet n ∧
        result.Status ≠ "In queue".toList ∧ result.Status ≠ "Running".toList) := by
  have h1 : Submitter.WaitForVerdict ⟨blankSession⟩ judgingNet sampleClock 5 4242 1
      (60 * Second) = some (poll ⟨blankSession⟩ sampleClock 4242 1 judgingNet 2) := rfl
  have h2 : Submitter.WaitForVerdict ⟨blankSession⟩ failingNet sampleClock 5 4242 1
      (60 * Second) = some (poll ⟨blankSession⟩ sampleClock 4242 1 failingNet 1) := rfl
  exact ⟨⟨h1, by decide, by decide⟩, ⟨h2, by decide, by decide⟩,
    (waitForVerdict_spec ⟨blankSession⟩ judgingNet sampleClock 5 4242 1 (60 * Second)
      (poll ⟨blankSession⟩ sampleClock 4242 1 judgingNet 2) h1).1⟩

end Cfweb
